import Mathlib

/-!
# slp-rep: the sleep replay controller, the wake alpha cycle and the training loop

A shallow embedding of `Sim.SleepCyc`, `Sim.AlphaCyc`, `Sim.SleepTrial`,
`Sim.SleepCycInit`, `Sim.BackToWake`, `Sim.TrainTrial`, `Sim.TestAll`,
`Sim.TestTrial`, `Sim.TrialStats`, `Sim.LogTrnEpc` and `Sim.LogTstEpc` of
`slp-rep.go`.

The leabra engine is not part of the repository.  Every call into it is
recorded, in program order, in the field `calls` of the simulation state, and
what the engine computes (the similarity `Sim` of every layer after a `Cycle`)
is an input of the model.  The training loop is embedded over the statistics
and the control flags of `Sim`; what the environments, the random source and
the engine give to it are inputs, and what it does outside these fields is
recorded in the field `evs`.
-/

namespace SlpRep

/-! ## Floating point values -/

/-- A Go floating point value: NaN, an infinity (`neg` gives its sign) or a
finite number.  Arithmetic on finite numbers is exact: rounding, overflow and
the sign of zero are not modelled. -/
inductive GoFloat where
  | nan : GoFloat
  | inf (neg : Bool) : GoFloat
  | fin (q : ℚ) : GoFloat
deriving DecidableEq

namespace GoFloat

/-- Go `math.IsNaN`. -/
def isNaN : GoFloat → Bool
  | nan => true
  | _ => false

/-- Go `a + b`. -/
def add : GoFloat → GoFloat → GoFloat
  | nan, _ => nan
  | _, nan => nan
  | fin a, fin b => fin (a + b)
  | inf s, fin _ => inf s
  | fin _, inf s => inf s
  | inf s, inf t => if s = t then inf s else nan

/-- Go `a / b`; a zero divisor is taken to be `+0`. -/
def div : GoFloat → GoFloat → GoFloat
  | nan, _ => nan
  | _, nan => nan
  | fin a, fin b =>
    if b = 0 then (if a = 0 then nan else inf (decide (a < 0))) else fin (a / b)
  | fin _, inf _ => fin 0
  | inf s, fin b => inf (s != decide (b < 0))
  | inf _, inf _ => nan

/-- Go `a <= b`: false as soon as one side is NaN. -/
def le : GoFloat → GoFloat → Bool
  | nan, _ => false
  | _, nan => false
  | fin a, fin b => decide (a ≤ b)
  | inf s, fin _ => s
  | fin _, inf s => !s
  | inf s, inf t => s || !t

/-- Go `a < b`: false as soon as one side is NaN. -/
def lt : GoFloat → GoFloat → Bool
  | nan, _ => false
  | _, nan => false
  | fin a, fin b => decide (a < b)
  | inf s, fin _ => s
  | fin _, inf s => !s
  | inf s, inf t => s && !t

/-- Go `a >= b`. -/
def ge (a b : GoFloat) : Bool := le b a

end GoFloat

/-! ## The network and the simulation state -/

/-- A projection, as far as `SleepCyc` looks at it: `IsOff()`. -/
structure Prjn where
  Off : Bool
deriving DecidableEq

/-- A layer of `ss.Net.Layers`: its similarity to the previous cycle and its
sending projections. -/
structure Layer where
  Sim : GoFloat
  SndPrjns : List Prjn
deriving DecidableEq

/-- The seven peripheral layers that `AlphaCyc` and `SleepCyc` look up by name. -/
inductive PerLay where
  | F1 | F2 | F3 | F4 | F5 | CodeName | ClassName
deriving DecidableEq

/-- `leabra.TimeScales`, by its ordinal. -/
abbrev TimeScales := Nat

/-- `leabra.Cycle`. -/
def TimeScales.Cycle : TimeScales := 0
/-- `leabra.FastSpike`. -/
def TimeScales.FastSpike : TimeScales := 1
/-- `leabra.Quarter`. -/
def TimeScales.Quarter : TimeScales := 2
/-- `leabra.Phase`. -/
def TimeScales.Phase : TimeScales := 3
/-- `leabra.AlphaCycle`. -/
def TimeScales.AlphaCycle : TimeScales := 5

/-- The ten layers of the network, in the order in which `ConfigNet` adds them
(lines 283-296). -/
inductive LayNm where
  | F1 | F2 | F3 | F4 | F5 | ClassName | CodeName | DG | CA3 | CA1
deriving DecidableEq

/-- The type of a layer, `emer.LayerType`. -/
inductive LayerType where
  | Hidden | Input | Target | Compare
deriving DecidableEq

/-- A call into the engine, the time counters or the logs.  In the calls of
`SleepCyc`, layers and projections are named by their position in
`ss.Net.Layers` and in `SndPrjns`; in those of `SleepCycInit` and `BackToWake`
layers are named by their name.  `Cycle` carries its second argument,
`UpdateView` whether its argument is "sleep" (else "train"). -/
inductive Call where
  | WtFmDWt
  | DWt
  | AlphaCycInit
  | AlphaCycStart
  | Cycle (sleep : Bool)
  | LogTstCyc
  | LogSlpCyc
  | CycleInc
  | QuarterFinal
  | QuarterInc
  | UpdateView (sleep : Bool)
  | GScaleFmAvgAct
  | InitGInc
  | TstCycPlotGoUpdate
  | RunSumUpdt (ly : Nat) (init : Bool)
  | CalcActP (ly : Nat) (n : Nat)
  | CalcActM (ly : Nat) (n : Nat)
  | SlpDWt (ly : Nat) (pj : Nat)
  | TimeReset
  | SetType (ly : LayNm) (typ : LayerType)
  | InitActs
  | InitSdEffWt (ly : LayNm)
  | TermSdEffWt (ly : LayNm)
  | UpdateExtFlags (ly : LayNm)
  | SlpCycPlotGoUpdate
deriving DecidableEq

/-- The gains (`WtScale.Abs`) that the engine sees when it runs a cycle of
`AlphaCyc`: those of the projections from the peripheral layers to CA1 and
that of the projection from CA3 to CA1. -/
structure GainView where
  PerCA1 : PerLay → GoFloat
  CA3CA1 : GoFloat

/-- The fields of `Sim` that `AlphaCyc` and `SleepCyc` read or write.
`PerCA1 p`, `PerDG p` are the gains of the projections from peripheral layer
`p` to CA1 and to DG, `PerFmCA1 p` that of the projection from CA1 back to `p`.
`calls` and `seen` are the record of what the engine was asked and of the
gains in force at each of its cycles. -/
structure Sim where
  Layers : List Layer
  PerCA1 : PerLay → GoFloat
  PerDG : PerLay → GoFloat
  PerFmCA1 : PerLay → GoFloat
  CA3CA1 : GoFloat
  CA3CA3 : GoFloat
  ViewOn : Bool
  TrainUpdt : TimeScales
  TestUpdt : TimeScales
  SleepUpdt : TimeScales
  MaxSlpCyc : Int
  AvgLaySim : GoFloat
  SlpLearn : Bool
  PlusPhase : Bool
  MinusPhase : Bool
  SlpTrls : Int
  StopNow : Bool
  RunCur : Int
  RndSeed : Int
  DirSeed : Int
  calls : List Call
  seen : List GainView

/-- The local counters of `SleepCyc`. -/
structure SlpLocals where
  stablecount : Nat
  pluscount : Nat
  minuscount : Nat
deriving DecidableEq

/-- Record one call. -/
def Sim.call (ss : Sim) (c : Call) : Sim :=
  { ss with calls := ss.calls ++ [c] }

/-- Record a list of calls. -/
def Sim.callAll (ss : Sim) (cs : List Call) : Sim :=
  { ss with calls := ss.calls ++ cs }

/-- The calls that act on the running sums, the phase averages and the
weights during sleep: `RunSumUpdt`, `CalcActP`, `CalcActM` and `SlpDWt`. -/
def Call.isLearn : Call → Bool
  | .RunSumUpdt _ _ => true
  | .CalcActP _ _ => true
  | .CalcActM _ _ => true
  | .SlpDWt _ _ => true
  | _ => false

/-- Whether a call is `CalcActP`. -/
def Call.isCalcActP : Call → Bool
  | .CalcActP _ _ => true
  | _ => false

/-- Whether a call is `CalcActM`. -/
def Call.isCalcActM : Call → Bool
  | .CalcActM _ _ => true
  | _ => false

/-- Whether a call is `SlpDWt`. -/
def Call.isSlpDWt : Call → Bool
  | .SlpDWt _ _ => true
  | _ => false

/-- The calls recorded between the state `a` and the later state `b`. -/
def callsSince (a b : Sim) : List Call :=
  b.calls.drop a.calls.length

/-- The calls on sums, averages and weights recorded between `a` and `b`. -/
def learnCalls (a b : Sim) : List Call :=
  (callsSince a b).filter Call.isLearn

/-! ## SleepCyc -/

/-- Lines 919: `plusthresh := 0.9999938129217251 + 0.0000055`, the float64
nearest to the exact sum. -/
def plusthresh : GoFloat := .fin (4503596533045033 / 4503599627370496)

/-- Line 920: `minusthresh := 0.9999938129217251 - 0.001`, the float64 nearest
to the exact difference. -/
def minusthresh : GoFloat := .fin (35148970028279 / 35184372088832)

/-- Lines 880-890: the loop that sums the similarity of every layer, a NaN
counting as 0. -/
def sumLaySim (layers : List Layer) : GoFloat :=
  layers.foldl (fun avesim ly =>
    let tmpsim := ly.Sim
    let tmpsim := if tmpsim.isNaN then GoFloat.fin 0 else tmpsim
    avesim.add tmpsim) (GoFloat.fin 0)

/-- Lines 879-891: `ss.AvgLaySim = avesim / 10`. -/
def avgLaySim (layers : List Layer) : GoFloat :=
  (sumLaySim layers).div (GoFloat.fin 10)

/-- The calls of a loop `for _, ly := range ss.Net.Layers` whose body makes
the calls `f i` for the layer at position `i`. -/
def forLayers (layers : List Layer) (f : Nat → Layer → List Call) : List Call :=
  (layers.enum.map (fun p => f p.1 p.2)).flatten

/-- Lines 977-982: `SlpDWt` on every sending projection of layer `i` that is
not off. -/
def slpDWtCalls (i : Nat) (ly : Layer) : List Call :=
  (ly.SndPrjns.enum.filter (fun p => !p.2.Off)).map (fun p => Call.SlpDWt i p.1)

/-- Lines 974-983: the loop over the layers that counts `SlpTrls` up and
issues the weight updates. -/
def slpDWtLoop (ss : Sim) : Sim :=
  ss.Layers.enum.foldl
    (fun s p => ({ s with SlpTrls := s.SlpTrls + 1 }).callAll (slpDWtCalls p.1 p.2)) ss

/-- Lines 922-929: the debounce counter, updated while neither phase is on. -/
def checkStable (ss : Sim) (l : SlpLocals) : SlpLocals :=
  if ss.PlusPhase = false ∧ ss.MinusPhase = false then
    if ss.AvgLaySim.ge plusthresh = true then
      { l with stablecount := l.stablecount + 1 }
    else if ss.AvgLaySim.lt plusthresh = true then
      { l with stablecount := 0 }
    else l
  else l

/-- Lines 933-990: the chain of `if ... else if` that starts, continues,
switches, completes or aborts a phase. -/
def markPhase (ss : Sim) (l : SlpLocals) : Sim × SlpLocals :=
  if l.stablecount = 5 ∧ ss.AvgLaySim.ge plusthresh = true ∧ ss.PlusPhase = false
      ∧ ss.MinusPhase = false then
    (({ ss with PlusPhase := true }).callAll
        (forLayers ss.Layers (fun i _ => [Call.RunSumUpdt i true])),
      { stablecount := 0, minuscount := 0, pluscount := l.pluscount + 1 })
  else if 0 < l.pluscount ∧ ss.AvgLaySim.ge plusthresh = true ∧ ss.PlusPhase = true then
    (ss.callAll (forLayers ss.Layers (fun i _ => [Call.RunSumUpdt i false])),
      { l with pluscount := l.pluscount + 1 })
  else if ss.AvgLaySim.lt plusthresh = true ∧ ss.AvgLaySim.ge minusthresh = true
      ∧ ss.PlusPhase = true then
    (({ ss with PlusPhase := false, MinusPhase := true }).callAll
        (forLayers ss.Layers
          (fun i _ => [Call.CalcActP i l.pluscount, Call.RunSumUpdt i true])),
      { l with minuscount := l.minuscount + 1, pluscount := 0 })
  else if ss.AvgLaySim.ge minusthresh = true ∧ ss.MinusPhase = true then
    (ss.callAll (forLayers ss.Layers (fun i _ => [Call.RunSumUpdt i false])),
      { l with minuscount := l.minuscount + 1 })
  else if ss.AvgLaySim.lt minusthresh = true ∧ ss.MinusPhase = true then
    (slpDWtLoop (({ ss with MinusPhase := false }).callAll
        (forLayers ss.Layers (fun i _ => [Call.CalcActM i l.minuscount]))),
      { l with minuscount := 0, stablecount := 0 })
  else if ss.AvgLaySim.lt minusthresh = true ∧ ss.PlusPhase = true then
    ({ ss with PlusPhase := false },
      { pluscount := 0, stablecount := 0, minuscount := 0 })
  else (ss, l)

/-- Lines 916-991: the phase detector, run only when `SlpLearn`. -/
def slpLearn (ss : Sim) (l : SlpLocals) : Sim × SlpLocals :=
  if ss.SlpLearn = true then markPhase ss (checkStable ss l) else (ss, l)

/-- Lines 833 and 1023: the peripheral layers, in the order of `perlys`. -/
def perlys : List PerLay :=
  [.F1, .F2, .F3, .F4, .F5, .ClassName, .CodeName]

/-- Lines 515, 524, 557, 570, 599 and 1023: the peripheral layers, in the order
of `perlys` there. -/
def perlysCA1 : List PerLay :=
  [.F1, .F2, .F3, .F4, .F5, .CodeName, .ClassName]

/-- The engine runs one cycle: the call is recorded together with the gains
it runs under. -/
def Sim.cycle (ss : Sim) (sleep : Bool) : Sim :=
  { ss with calls := ss.calls ++ [Call.Cycle sleep],
            seen := ss.seen ++ [{ PerCA1 := ss.PerCA1, CA3CA1 := ss.CA3CA1 }] }

/-- Lines 997-1014: the view update at the end of a sleep cycle. -/
def sleepView (viewUpdt : TimeScales) (cyc : Nat) (ss : Sim) : Sim :=
  if ss.ViewOn = true then
    if viewUpdt = TimeScales.Cycle then ss.call (Call.UpdateView true)
    else if viewUpdt = TimeScales.FastSpike then
      if (cyc + 1) % 10 = 0 then ss.call (Call.UpdateView true) else ss
    else if viewUpdt = TimeScales.Quarter then
      if (cyc + 1) % 25 = 0 then ss.call (Call.UpdateView true) else ss
    else if viewUpdt = TimeScales.Phase then
      if (cyc + 1) % 100 = 0 then ss.call (Call.UpdateView true) else ss
    else ss
  else ss

/-- Lines 845-914: the first part of an iteration of the loop of `SleepCyc`,
up to the phase detector.  `lys` is the state of the layers after the engine
has run the cycle. -/
def sleepSense (lys : List Layer) (ss : Sim) : Sim :=
  let ss := ss.call Call.WtFmDWt
  let ss := { ss.cycle true with Layers := lys }
  let ss := ss.call (Call.UpdateView true)
  let ss := { ss with AvgLaySim := avgLaySim ss.Layers }
  ss.call Call.LogSlpCyc

/-- Lines 845-1014: one iteration of the loop of `SleepCyc`.  `lys` is the
state of the layers after the engine has run cycle `cyc`.  The inhibition
oscillation (lines 850-877) and the noise injection (lines 893-911) write only
the inhibitory gains and the activations of the neurons, which `Sim` here does
not carry; the inhibitory gains are followed by `inhibOscil` on `GiNet`. -/
def sleepBody (lys : List Layer) (viewUpdt : TimeScales) (cyc : Nat)
    (st : Sim × SlpLocals) : Sim × SlpLocals :=
  let st := slpLearn (sleepSense lys st.1) st.2
  let ss := st.1.call Call.CycleInc
  let ss := ss.call (Call.UpdateView true)
  (sleepView viewUpdt cyc ss, st.2)

/-- Iterations `c0`, ..., `c0 + n - 1` of the loop of `SleepCyc`; `eng cyc` is
the state of the layers after the engine has run cycle `cyc`. -/
def sleepLoop (eng : Nat → List Layer) (viewUpdt : TimeScales) (c0 : Nat) :
    Nat → Sim × SlpLocals → Sim × SlpLocals
  | 0, st => st
  | n + 1, st => sleepBody (eng (c0 + n)) viewUpdt (c0 + n) (sleepLoop eng viewUpdt c0 n st)

/-- Lines 812-841: what `SleepCyc` does before its loop. -/
def sleepPre (ss : Sim) : Sim × SlpLocals :=
  let ss := ss.call Call.WtFmDWt
  let ss := { ss with SlpTrls := 0 }
  let ss := { ss with CA3CA3 := GoFloat.fin 2 }
  let ss := perlys.foldl
    (fun s ly => { s with PerFmCA1 := Function.update s.PerFmCA1 ly (GoFloat.fin 2) }) ss
  let ss := ss.call Call.GScaleFmAvgAct
  let ss := ss.call Call.InitGInc
  (ss, { stablecount := 0, pluscount := 0, minuscount := 0 })

/-- Lines 1017-1050: what `SleepCyc` does after its loop. -/
def sleepPost (st : Sim × SlpLocals) : Sim :=
  let ss := { st.1 with MinusPhase := false, PlusPhase := false }
  let ss := perlysCA1.foldl
    (fun s ly => { s with PerFmCA1 := Function.update s.PerFmCA1 ly (GoFloat.fin 1),
                          PerCA1 := Function.update s.PerCA1 ly (GoFloat.fin 1),
                          PerDG := Function.update s.PerDG ly (GoFloat.fin 1) }) ss
  let ss := { ss with CA3CA3 := GoFloat.fin 1 }
  let ss := ss.call Call.GScaleFmAvgAct
  let ss := ss.call Call.InitGInc
  if ss.ViewOn = true then ss.call (Call.UpdateView true) else ss

/-- The number of iterations of the loop of `SleepCyc` (line 843). -/
def sleepCycles : Nat := 30000

/-- `Sim.SleepCyc` (lines 810-1051); `eng cyc` is the state of the layers after
the engine has run cycle `cyc`. -/
def SleepCyc (eng : Nat → List Layer) (ss : Sim) : Sim :=
  sleepPost (sleepLoop eng ss.SleepUpdt 0 sleepCycles (sleepPre ss))

/-! ## AlphaCyc -/

/-- The loop `for _, ly := range perlys` that sets the gain of the projection
from every peripheral layer to CA1. -/
def setPerCA1 (v : GoFloat) (ss : Sim) : Sim :=
  perlysCA1.foldl (fun s ly => { s with PerCA1 := Function.update s.PerCA1 ly v }) ss

/-- Lines 514-531: the gains before the loop. -/
def alphaPreGains (train : Bool) (ss : Sim) : Sim :=
  let ss := if train = true then { setPerCA1 (GoFloat.fin 1) ss with CA3CA1 := GoFloat.fin 0 } else ss
  if train = false then { setPerCA1 (GoFloat.fin 1) ss with CA3CA1 := GoFloat.fin 1 } else ss

/-- Lines 537-551: one engine cycle of `AlphaCyc`. -/
def alphaCycle (train : Bool) (viewUpdt : TimeScales) (ss : Sim) (cyc : Nat) : Sim :=
  let ss := ss.cycle false
  let ss := if train = false then ss.call Call.LogTstCyc else ss
  let ss := ss.call Call.CycleInc
  if ss.ViewOn = true then
    if viewUpdt = TimeScales.Cycle then ss.call (Call.UpdateView false)
    else if viewUpdt = TimeScales.FastSpike then
      if (cyc + 1) % 10 = 0 then ss.call (Call.UpdateView false) else ss
    else ss
  else ss

/-- Lines 554-581: the gains at the end of quarter `qtr`. -/
def alphaQuarterGains (train : Bool) (qtr : Nat) (ss : Sim) : Sim :=
  if qtr + 1 = 1 then
    let ss := if train = true then
      { setPerCA1 (GoFloat.fin 0) ss with CA3CA1 := GoFloat.fin 1 } else ss
    (ss.call Call.GScaleFmAvgAct).call Call.InitGInc
  else if qtr + 1 = 3 then
    let ss := if train = true then
      { setPerCA1 (GoFloat.fin 1) ss with CA3CA1 := GoFloat.fin 0 } else ss
    (ss.call Call.GScaleFmAvgAct).call Call.InitGInc
  else ss

/-- Lines 536-596: one quarter of `AlphaCyc`. -/
def alphaQuarter (train : Bool) (viewUpdt : TimeScales) (ss : Sim) (qtr : Nat) : Sim :=
  let ss := (List.range 25).foldl (alphaCycle train viewUpdt) ss
  let ss := alphaQuarterGains train qtr ss
  let ss := ss.call Call.QuarterFinal
  let ss := ss.call Call.QuarterInc
  if ss.ViewOn = true then
    if viewUpdt ≤ TimeScales.Quarter then ss.call (Call.UpdateView false)
    else if viewUpdt = TimeScales.Phase then
      if 2 ≤ qtr then ss.call (Call.UpdateView false) else ss
    else ss
  else ss

/-- Lines 599-607: the gains at the end of the alpha cycle. -/
def alphaPostGains (ss : Sim) : Sim :=
  let ss := perlysCA1.foldl
    (fun s ly => { s with PerDG := Function.update s.PerDG ly (GoFloat.fin 1),
                          PerCA1 := Function.update s.PerCA1 ly (GoFloat.fin 1) }) ss
  { ss with CA3CA1 := GoFloat.fin 1 }

/-- Lines 506-534: what `AlphaCyc` does before its four quarters. -/
def alphaHead (train : Bool) (ss : Sim) : Sim :=
  let ss := if train = true then ss.call Call.WtFmDWt else ss
  let ss := alphaPreGains train ss
  let ss := ss.call Call.AlphaCycInit
  ss.call Call.AlphaCycStart

/-- Lines 599-621: what `AlphaCyc` does after its four quarters. -/
def alphaTail (train : Bool) (viewUpdt : TimeScales) (ss : Sim) : Sim :=
  let ss := alphaPostGains ss
  let ss := if ss.RunCur = 0 then { ss with DirSeed := ss.RndSeed } else ss
  let ss := if train = true then ss.call Call.DWt else ss
  let ss := if ss.ViewOn = true ∧ viewUpdt = TimeScales.AlphaCycle then
    ss.call (Call.UpdateView false) else ss
  if train = false then ss.call Call.TstCycPlotGoUpdate else ss

/-- The time scale of the view updates of `AlphaCyc` (lines 501-504). -/
def alphaViewUpdt (train : Bool) (ss : Sim) : TimeScales :=
  if train = false then ss.TestUpdt else ss.TrainUpdt

/-- `Sim.AlphaCyc` (lines 497-622). -/
def AlphaCyc (train : Bool) (ss : Sim) : Sim :=
  let viewUpdt := alphaViewUpdt train ss
  let ss := alphaHead train ss
  let ss := (List.range 4).foldl (alphaQuarter train viewUpdt) ss
  alphaTail train viewUpdt ss

/-- The invariant of the phase detector: the two phases exclude each other, and
in each of Plus, Minus and Settling the counters are as the phase leaves
them. -/
def PhaseInv (st : Sim × SlpLocals) : Prop :=
  (st.1.PlusPhase = true → st.1.MinusPhase = false ∧ 1 ≤ st.2.pluscount
      ∧ st.2.minuscount = 0 ∧ st.2.stablecount = 0)
  ∧ (st.1.MinusPhase = true → st.1.PlusPhase = false ∧ 1 ≤ st.2.minuscount
      ∧ st.2.pluscount = 0 ∧ st.2.stablecount = 0)
  ∧ (st.1.PlusPhase = false → st.1.MinusPhase = false → st.2.pluscount = 0
      ∧ st.2.minuscount = 0 ∧ st.2.stablecount ≤ 4)

/-- The state of `SleepCyc` after `n` iterations of its loop. -/
def sleepAt (eng : Nat → List Layer) (ss : Sim) (n : Nat) : Sim × SlpLocals :=
  sleepLoop eng ss.SleepUpdt 0 n (sleepPre ss)

/-- Iteration `c` of the session completes a Minus phase: the detector is in
Minus before it and no longer after it. -/
def completes (eng : Nat → List Layer) (ss : Sim) (c : Nat) : Bool :=
  (sleepAt eng ss c).1.MinusPhase && !(sleepAt eng ss (c + 1)).1.MinusPhase

/-- Whether layer `i` exists and its sending projection `j` exists and is not
off. -/
def prjnOn (layers : List Layer) (i j : Nat) : Bool :=
  match layers[i]? with
  | some ly =>
    match ly.SndPrjns[j]? with
    | some pj => !pj.Off
    | none => false
  | none => false

/-- The similarity of a layer as it enters the sum: a NaN counts as 0. -/
def clampSim (x : GoFloat) : GoFloat :=
  if x.isNaN then GoFloat.fin 0 else x

/-- The stability signal in the words of the specification: the arithmetic mean
over all layers of the network of the layer similarity, a NaN counted as 0, that
is the sum of the clamped similarities divided by the number of layers. -/
def specMeanSim (layers : List Layer) : GoFloat :=
  ((layers.map (fun ly => clampSim ly.Sim)).foldr GoFloat.add (GoFloat.fin 0)).div
    (GoFloat.fin layers.length)

/-- Whether a call is an engine `Cycle` or a `QuarterFinal`. -/
def Call.isCycleOrQF : Call → Bool
  | .Cycle _ => true
  | .QuarterFinal => true
  | _ => false

/-- State `b` extends the record of `a` by calls of which `p` selects `L`. -/
def Adds (p : Call → Bool) (a b : Sim) (L : List Call) : Prop :=
  ∃ X, b.calls = a.calls ++ X ∧ X.filter p = L

/-- The state with the stop flag set to `b`. -/
def setStop (b : Bool) (ss : Sim) : Sim :=
  { ss with StopNow := b }

/-- The gains of the first and the fourth quarter of a training alpha cycle:
every peripheral layer drives CA1, CA3 does not. -/
def gainsPer : GainView :=
  { PerCA1 := fun _ => GoFloat.fin 1, CA3CA1 := GoFloat.fin 0 }

/-- The gains of the second and the third quarter of a training alpha cycle:
CA3 drives CA1, the peripheral layers do not. -/
def gainsCA3 : GainView :=
  { PerCA1 := fun _ => GoFloat.fin 0, CA3CA1 := GoFloat.fin 1 }

/-- The gains of every quarter of a testing alpha cycle: the peripheral layers
and CA3 all drive CA1. -/
def gainsOne : GainView :=
  { PerCA1 := fun _ => GoFloat.fin 1, CA3CA1 := GoFloat.fin 1 }

/-- The calls that commit or accumulate weight changes (`WtFmDWt`, `DWt`,
`SlpDWt`) and the engine cycles. -/
def Call.isWeightOrCycle : Call → Bool
  | .WtFmDWt => true
  | .DWt => true
  | .SlpDWt _ _ => true
  | .Cycle _ => true
  | _ => false

/-- The state with the stop flag set to `b` and `MaxSlpCyc` set to `m`. -/
def setStopMax (b : Bool) (m : Int) (ss : Sim) : Sim :=
  { ss with StopNow := b, MaxSlpCyc := m }

/-- The calls that commit the pending weight changes (`WtFmDWt`) and the
engine cycles. -/
def Call.isCommitOrCycle : Call → Bool
  | .WtFmDWt => true
  | .Cycle _ => true
  | _ => false

/-! ## SleepCyc: the inhibition oscillation -/

/-- Go `a * b`, exact on finite numbers. -/
def GoFloat.mul : GoFloat → GoFloat → GoFloat
  | .nan, _ => .nan
  | _, .nan => .nan
  | .fin a, .fin b => .fin (a * b)
  | .inf s, .fin b => if b = 0 then .nan else .inf (s != decide (b < 0))
  | .fin a, .inf s => if a = 0 then .nan else .inf (s != decide (a < 0))
  | .inf s, .inf t => .inf (s != t)

/-- What the inhibition oscillation of `SleepCyc` reads and writes:
`Inhib.Layer.Gi` of every layer, and the fields `InhibOscil` and `InhibFactor`
of `Sim`.  Nothing else in `SleepCyc` reads or writes these, so this part of
the state is followed on its own. -/
structure GiNet where
  Gi : LayNm → GoFloat
  InhibOscil : Bool
  InhibFactor : GoFloat

/-- The locals `finhib`, ..., `ca3inhib` of `SleepCyc` (lines 822-827). -/
structure SavedGi where
  finhib : GoFloat
  clinhib : GoFloat
  coinhib : GoFloat
  dginhib : GoFloat
  ca1inhib : GoFloat
  ca3inhib : GoFloat

/-- Lines 822-827: the inhibitory gains that `SleepCyc` saves; that of the five
feature layers is read from F1. -/
def saveGi (n : GiNet) : SavedGi :=
  { finhib := n.Gi .F1
    clinhib := n.Gi .ClassName
    coinhib := n.Gi .CodeName
    dginhib := n.Gi .DG
    ca1inhib := n.Gi .CA1
    ca3inhib := n.Gi .CA3 }

/-- The assignment `ss.Net.LayerByName(ly).Inhib.Layer.Gi = v`. -/
def setGi (n : GiNet) (ly : LayNm) (v : GoFloat) : GiNet :=
  { n with Gi := Function.update n.Gi ly v }

/-- Lines 856-864: the gains are put back to the saved values. -/
def resetGi (sv : SavedGi) (n : GiNet) : GiNet :=
  let n := [LayNm.F1, LayNm.F2, LayNm.F3, LayNm.F4, LayNm.F5].foldl
    (fun n ly => setGi n ly sv.finhib) n
  let n := setGi n .ClassName sv.clinhib
  let n := setGi n .CodeName sv.coinhib
  let n := setGi n .DG sv.dginhib
  let n := setGi n .CA1 sv.ca1inhib
  setGi n .CA3 sv.ca3inhib

/-- Line 866. -/
def lowlayers : List LayNm := [.ClassName, .CA1, .CodeName]

/-- Line 867. -/
def highlayers : List LayNm := [.F1, .F2, .F3, .F4, .F5, .DG, .CA3]

/-- Lines 850-877: the inhibition oscillation of the iteration `cyc`; `inhibs` is
the schedule `c` passed to `SleepCyc`.  `mul32 g f` is the float32 product
`g * float32(f)`.  The result is `none` when a read `inhibs[0][cyc]` or
`inhibs[1][cyc]` is out of range, where the program panics. -/
def inhibOscil (mul32 : GoFloat → GoFloat → GoFloat) (inhibs : List (List GoFloat))
    (sv : SavedGi) (cyc : Nat) (n : GiNet) : Option GiNet :=
  if n.InhibOscil = true then do
    let f0 ← (← inhibs[0]?)[cyc]?
    let n := { n with InhibFactor := f0 }
    let n := resetGi sv n
    let n := lowlayers.foldl (fun n ly => setGi n ly (mul32 (n.Gi ly) f0)) n
    let f1 ← (← inhibs[1]?)[cyc]?
    pure (highlayers.foldl (fun n ly => setGi n ly (mul32 (n.Gi ly) f1)) n)
  else some n

/-- The inhibition oscillations of the iterations `0`, ..., `k - 1` of the loop
of `SleepCyc`. -/
def sleepGiLoop (mul32 : GoFloat → GoFloat → GoFloat) (inhibs : List (List GoFloat))
    (sv : SavedGi) : Nat → GiNet → Option GiNet
  | 0, n => some n
  | k + 1, n => (sleepGiLoop mul32 inhibs sv k n).bind (inhibOscil mul32 inhibs sv k)

/-- Lines 1038-1046: the gains that `SleepCyc` puts back after its loop. -/
def restoreGi (sv : SavedGi) (n : GiNet) : GiNet :=
  let n := [LayNm.F1, LayNm.F2, LayNm.F3, LayNm.F4, LayNm.F5].foldl
    (fun n ly => setGi n ly sv.finhib) n
  let n := setGi n .ClassName sv.clinhib
  let n := setGi n .CodeName sv.coinhib
  let n := setGi n .DG sv.dginhib
  setGi n .CA1 sv.ca1inhib

/-- What `Sim.SleepCyc` (lines 810-1051) does to the inhibitory gains, called
with the schedule `inhibs`. -/
def SleepCycGi (mul32 : GoFloat → GoFloat → GoFloat) (inhibs : List (List GoFloat))
    (n : GiNet) : Option GiNet :=
  (sleepGiLoop mul32 inhibs (saveGi n) sleepCycles n).map (restoreGi (saveGi n))

/-- The layer from which `SleepCyc` reads the inhibitory gain that it holds as
the baseline of layer `ly`: F1 for the five feature layers, `ly` itself
otherwise (lines 822-827 and 856-864). -/
def baseLayer : LayNm → LayNm
  | .F1 | .F2 | .F3 | .F4 | .F5 => .F1
  | ly => ly

/-- The factor of the schedule that applies to layer `ly` when the low group
is scaled by `f0` and the high group by `f1`. -/
def groupFactor (f0 f1 : GoFloat) (ly : LayNm) : GoFloat :=
  if ly ∈ lowlayers then f0 else f1

/-- An example network: the inhibitory gain of F2 is 2, that of every other
layer 1; the oscillation is on. -/
def giNet12 : GiNet :=
  { Gi := fun ly => if ly = LayNm.F2 then GoFloat.fin 2 else GoFloat.fin 1
    InhibOscil := true
    InhibFactor := GoFloat.fin 0 }

/-- A schedule whose 30000 factors are all `f`, for both groups. -/
def constSchedule (f : GoFloat) : List (List GoFloat) :=
  [List.replicate 30000 f, List.replicate 30000 f]

/-- The saved value that lines 856-864 write to layer `ly`. -/
def SavedGi.base (sv : SavedGi) : LayNm → GoFloat
  | .F1 | .F2 | .F3 | .F4 | .F5 => sv.finhib
  | .ClassName => sv.clinhib
  | .CodeName => sv.coinhib
  | .DG => sv.dginhib
  | .CA1 => sv.ca1inhib
  | .CA3 => sv.ca3inhib

/-! ## SleepTrial: the oscillation schedule -/

/-- Go `a - b`, exact on finite numbers. -/
def GoFloat.sub : GoFloat → GoFloat → GoFloat
  | .nan, _ => .nan
  | _, .nan => .nan
  | .fin a, .fin b => .fin (a - b)
  | .inf s, .fin _ => .inf s
  | .fin _, .inf s => .inf (!s)
  | .inf s, .inf t => if s = t then .nan else .inf s

/-- Go `math.Ceil`. -/
def GoFloat.ceil : GoFloat → GoFloat
  | .fin q => .fin ⌈q⌉
  | x => x

/-- Go `int(x)`: a finite number is truncated towards zero; for the other
values, where Go leaves the result to the implementation, there is none. -/
def GoFloat.toInt : GoFloat → Option Int
  | .fin q => some (if 0 ≤ q then ⌊q⌋ else ⌈q⌉)
  | _ => none

/-- Line 1059: `start := 0.`. -/
def oscStart : GoFloat := GoFloat.fin 0

/-- Line 1060: `stop := 10000.`. -/
def oscStop : GoFloat := GoFloat.fin 10000

/-- Line 1061: `step := 0.1`, the float64 value of the literal. -/
def oscStep : GoFloat := GoFloat.fin (3602879701896397 / 36028797018963968)

/-- The float64 value of the literal `0.99` of lines 1070 and 1071. -/
def oscMid : GoFloat := GoFloat.fin (4458563631096791 / 4503599627370496)

/-- Lines 1063-1068: the slice `a` of the arguments of the cosine.  There is no
result when `N` has no value or is negative, where `make` panics. -/
def oscRange : Option (List GoFloat) := do
  let N ← (((oscStop.sub oscStart).div oscStep).ceil).toInt
  if N < 0 then none
  else pure ((List.range N.toNat).map (fun (x : Nat) => oscStart.add (oscStep.mul (GoFloat.fin (x : ℚ)))))

/-- The factor that lines 1070 and 1071 append for the argument `x`:
`math.Cos(x/1)/d + 0.99`; `cos` is `math.Cos`. -/
def oscFactor (cos : GoFloat → GoFloat) (d : ℚ) (x : GoFloat) : GoFloat :=
  ((cos (x.div (GoFloat.fin 1))).div (GoFloat.fin d)).add oscMid

/-- Lines 1069-1072: the iterations `0`, ..., `n - 1` of the loop that fills
the two rows of the schedule.  There is no result when a read `a[i]` is out of
range, where the program panics. -/
def oscLoop (cos : GoFloat → GoFloat) (a : List GoFloat) :
    Nat → List GoFloat × List GoFloat → Option (List GoFloat × List GoFloat)
  | 0, rows => some rows
  | i + 1, rows => do
    let rows ← oscLoop cos a i rows
    let x ← a[i]?
    pure (rows.1 ++ [oscFactor cos 80 x], rows.2 ++ [oscFactor cos 30 x])

/-- Lines 1058-1073 of `SleepTrial`: the schedule `c` that is passed to
`SleepCyc`.  These lines read no field of the simulation state. -/
def sleepSchedule (cos : GoFloat → GoFloat) : Option (List (List GoFloat)) := do
  let a ← oscRange
  let rows ← oscLoop cos a 100000 ([], [])
  pure [rows.1, rows.2]
/-! ## SleepTrial -/

/-- The simulation state as `SleepTrial`, `SleepCycInit` and `BackToWake` see
it: the part `ss` that `AlphaCyc` and `SleepCyc` work on, the inhibitory gains
`gi`, the field `SynDep` and the type of every layer of the network. -/
structure TrialSim where
  ss : Sim
  gi : GiNet
  SynDep : Bool
  Typ : LayNm → LayerType

/-- Record one call. -/
def TrialSim.call (t : TrialSim) (c : Call) : TrialSim :=
  { t with ss := t.ss.call c }

/-- The call `ly.SetType(typ)`: the type of the layer is set. -/
def TrialSim.setType (t : TrialSim) (ly : LayNm) (typ : LayerType) : TrialSim :=
  { t.call (Call.SetType ly typ) with Typ := Function.update t.Typ ly typ }

/-- The layers of the network, `ss.Net.Layers`, in the order in which
`ConfigNet` adds them (lines 283-296). -/
def allLayers : List LayNm :=
  [.F1, .F2, .F3, .F4, .F5, .ClassName, .CodeName, .DG, .CA3, .CA1]

/-- `Sim.SleepCycInit` (lines 430-470).  The random activations that the
second loop writes are not part of the state; its view updates are recorded.
`InitSdEffWt` is called with the increment 0.0007 and the decrement 0.0005. -/
def SleepCycInit (t : TrialSim) : TrialSim :=
  let t := t.call Call.TimeReset
  let t := allLayers.foldl (fun t ly => t.setType ly LayerType.Hidden) t
  let t := t.call Call.InitActs
  let t := allLayers.foldl (fun t _ => t.call (Call.UpdateView true)) t
  if t.SynDep = true then allLayers.foldl (fun t ly => t.call (Call.InitSdEffWt ly)) t
  else t

/-- Line 482. -/
def iolynms : List LayNm := [.F1, .F2, .F3, .F4, .F5, .CodeName, .ClassName]

/-- `Sim.BackToWake` (lines 472-487). -/
def BackToWake (t : TrialSim) : TrialSim :=
  let t := if t.SynDep = true then
    allLayers.foldl (fun t ly => t.call (Call.TermSdEffWt ly)) t else t
  iolynms.foldl (fun t ly => (t.setType ly LayerType.Input).call (Call.UpdateExtFlags ly)) t

/-- The call `ss.SleepCyc(c)` on the whole state: `SleepCyc` on `ss` and
`SleepCycGi` on the inhibitory gains.  There is no result when a read of the
schedule is out of range. -/
def SleepCycTrial (mul32 : GoFloat → GoFloat → GoFloat) (eng : Nat → List Layer)
    (inhibs : List (List GoFloat)) (t : TrialSim) : Option TrialSim := do
  let gi ← SleepCycGi mul32 inhibs t.gi
  pure { t with ss := SleepCyc eng t.ss, gi := gi }

/-- Lines 1055-1056 of `SleepTrial`: what precedes the schedule. -/
def sleepTrialHead (t : TrialSim) : TrialSim :=
  (SleepCycInit t).call (Call.UpdateView true)

/-- Lines 1074-1076 of `SleepTrial`: the session with the schedule `inhibs`
and what follows it. -/
def sleepTrialTail (mul32 : GoFloat → GoFloat → GoFloat) (eng : Nat → List Layer)
    (inhibs : List (List GoFloat)) (t : TrialSim) : Option TrialSim := do
  let t ← SleepCycTrial mul32 eng inhibs t
  let t := t.call Call.SlpCycPlotGoUpdate
  pure (BackToWake t)

/-- `Sim.SleepTrial` (lines 1054-1077); `cos` is `math.Cos`, `mul32` the
float32 product, `eng cyc` the state of the layers after the engine has run the
sleep cycle `cyc`. -/
def SleepTrial (cos : GoFloat → GoFloat) (mul32 : GoFloat → GoFloat → GoFloat)
    (eng : Nat → List Layer) (t : TrialSim) : Option TrialSim := do
  let t := sleepTrialHead t
  let inhibs ← sleepSchedule cos
  sleepTrialTail mul32 eng inhibs t

/-- The calls that only `BackToWake` makes: `TermSdEffWt`, `UpdateExtFlags`
and `SetType` with the type `Input`. -/
def Call.isWake : Call → Bool
  | .TermSdEffWt _ => true
  | .UpdateExtFlags _ => true
  | .SetType _ LayerType.Input => true
  | _ => false

/-- The calls of `BackToWake`, in order, for the value `synDep` of `SynDep`. -/
def wakeCalls (synDep : Bool) : List Call :=
  (if synDep = true then allLayers.map Call.TermSdEffWt else [])
    ++ (iolynms.map (fun ly => [Call.SetType ly LayerType.Input, Call.UpdateExtFlags ly])).flatten

/-- Whether a call is `RunSumUpdt`. -/
def Call.isRunSumUpdt : Call → Bool
  | .RunSumUpdt _ _ => true
  | _ => false

/-- The number of calls of `RunSumUpdt` on layer `i` in the record `X`. -/
def runSumUpdts (i : Nat) (X : List Call) : Nat :=
  X.count (Call.RunSumUpdt i true) + X.count (Call.RunSumUpdt i false)

/-! ## The statistics of an epoch and the training loop -/

/-- Go `a > b`. -/
def GoFloat.gt (a b : GoFloat) : Bool := GoFloat.lt b a

/-- Go `a != b`: true as soon as one side is NaN. -/
def GoFloat.ne : GoFloat → GoFloat → Bool
  | .nan, _ => true
  | _, .nan => true
  | .fin a, .fin b => decide (a ≠ b)
  | .inf s, .inf t => s != t
  | .inf _, .fin _ => true
  | .fin _, .inf _ => true

/-- Go `a == b`. -/
def GoFloat.eq (a b : GoFloat) : Bool := !(GoFloat.ne a b)

/-- Whether a value is a finite number. -/
def GoFloat.isFin : GoFloat → Bool
  | .fin _ => true
  | _ => false

/-- What `TrainTrial`, `TestAll` and the functions they call do outside the
fields of `StatSim`: calls into the environments, the engine, the random
source and the logs, and the entries of the methods `TestAll`, `SleepTrial`,
`RunEnd` and `AlphaCyc` of `Sim`, in program order.  A row added to a trial
log carries the trial name, `HiddenType`, `HiddenFeature` and the SSE written
to it. -/
inductive Ev where
  | NewRndSeed
  | TrainEnvInit
  | TestEnvInit
  | TimeReset
  | TrnTrlLogReset
  | TrnEpcLogReset
  | TstEpcLogReset
  | PrjnBuild (snd rcv : LayNm)
  | InitWts
  | TrainEnvStep
  | TestEnvStep
  | UpdateView (mode : String)
  | TestAll
  | SleepTrial
  | RunEnd
  | SaveWts
  | RunIncr
  | SetType (ly : LayNm) (typ : LayerType)
  | UpdateExtFlags (ly : LayNm)
  | ApplyInputs (train : Bool)
  | AlphaCyc (train : Bool)
  | LogTrnTrl (name hiddenType hiddenFeature : String) (sse : GoFloat)
  | LogTstTrl (name hiddenType hiddenFeature : String) (sse : GoFloat)
  | TrnEpcPlotGoUpdate
  | TstEpcPlotGoUpdate
deriving DecidableEq

/-- The fields of `Sim` that `TrainTrial`, `TestAll`, `TrialStats` and the
epoch logs read or write (lines 82-173); `evs` is the record of what they do
outside these fields.  The counters are Go `int`s, far from overflow. -/
structure StatSim where
  MaxEpcs : Int
  NZeroStop : Int
  TestInterval : Int
  ViewOn : Bool
  TrainUpdt : TimeScales
  TestUpdt : TimeScales
  ExecSleep : Bool
  SaveWts : Bool
  StopNow : Bool
  NeedsNewRun : Bool
  ZError : Int
  HiddenType : String
  HiddenFeature : String
  TrlSSE : GoFloat
  TrlAvgSSE : GoFloat
  TrlCosDiff : GoFloat
  EpcShSSE : GoFloat
  EpcShAvgSSE : GoFloat
  EpcShPctErr : GoFloat
  EpcShPctCor : GoFloat
  EpcShCosDiff : GoFloat
  ShFirstZero : Int
  ShNZero : Int
  EpcUnSSE : GoFloat
  EpcUnAvgSSE : GoFloat
  EpcUnPctErr : GoFloat
  EpcUnPctCor : GoFloat
  EpcUnCosDiff : GoFloat
  UnFirstZero : Int
  UnNZero : Int
  ShTrlNum : Int
  ShSumSSE : GoFloat
  ShSumAvgSSE : GoFloat
  ShSumCosDiff : GoFloat
  ShCntErr : Int
  UnTrlNum : Int
  UnSumSSE : GoFloat
  UnSumAvgSSE : GoFloat
  UnSumCosDiff : GoFloat
  UnCntErr : Int
  evs : List Ev

/-- Record one event. -/
def StatSim.ev (ss : StatSim) (e : Ev) : StatSim :=
  { ss with evs := ss.evs ++ [e] }

/-- Record events in order. -/
def StatSim.evAll (ss : StatSim) (es : List Ev) : StatSim :=
  { ss with evs := ss.evs ++ es }

/-- The events recorded between the state `a` and the later state `b`. -/
def evsSince (a b : StatSim) : List Ev :=
  b.evs.drop a.evs.length

/-- Go `float64(n)` of an `int`. -/
def GoFloat.ofInt (n : Int) : GoFloat := GoFloat.fin (n : ℚ)

/-- What the engine has measured on the output layer of a trial:
`outLay.CosDiff.Cos` and the two results of `outLay.MSE(0.5)`. -/
structure Measure where
  cosdiff : GoFloat
  sse : GoFloat
  avgsse : GoFloat

/-- Lines 1174-1201, `TrialStats`: the trial statistics are `m`, what the
engine has measured on the layer `outlaynm`, and they are added to the sums of
the class named by `HiddenType`. -/
def TrialStats (accum : Bool) (m : Measure) (ss : StatSim) : StatSim :=
  let ss := { ss with TrlCosDiff := m.cosdiff }
  let ss := { ss with TrlSSE := m.sse, TrlAvgSSE := m.avgsse }
  if accum = true then
    let ss :=
      if ss.HiddenType = "shared" then
        let ss := { ss with ShSumSSE := ss.ShSumSSE.add ss.TrlSSE }
        let ss := { ss with ShSumAvgSSE := ss.ShSumAvgSSE.add ss.TrlAvgSSE }
        let ss := { ss with ShSumCosDiff := ss.ShSumCosDiff.add ss.TrlCosDiff }
        if ss.TrlSSE.ne (GoFloat.fin 0) = true then { ss with ShCntErr := ss.ShCntErr + 1 }
        else ss
      else ss
    if ss.HiddenType = "unique" then
      let ss := { ss with UnSumSSE := ss.UnSumSSE.add ss.TrlSSE }
      let ss := { ss with UnSumAvgSSE := ss.UnSumAvgSSE.add ss.TrlAvgSSE }
      let ss := { ss with UnSumCosDiff := ss.UnSumCosDiff.add ss.TrlCosDiff }
      if ss.TrlSSE.ne (GoFloat.fin 0) = true then { ss with UnCntErr := ss.UnCntErr + 1 }
      else ss
    else ss
  else ss
/-- Lines 1685-1695 and 1924-1934: the epoch statistics of the shared class,
each a sum divided by `float64(ss.ShTrlNum)`, and the reset of the sums. -/
def epcShared (ss : StatSim) : StatSim :=
  let shnt := GoFloat.ofInt ss.ShTrlNum
  let ss := { ss with EpcShSSE := ss.ShSumSSE.div shnt }
  let ss := { ss with ShSumSSE := GoFloat.fin 0 }
  let ss := { ss with EpcShAvgSSE := ss.ShSumAvgSSE.div shnt }
  let ss := { ss with ShSumAvgSSE := GoFloat.fin 0 }
  let ss := { ss with EpcShPctErr := (GoFloat.ofInt ss.ShCntErr).div shnt }
  let ss := { ss with ShCntErr := 0 }
  let ss := { ss with EpcShPctCor := (GoFloat.fin 1).sub ss.EpcShPctErr }
  let ss := { ss with EpcShCosDiff := ss.ShSumCosDiff.div shnt }
  let ss := { ss with ShSumCosDiff := GoFloat.fin 0 }
  { ss with ShTrlNum := 0 }

/-- Lines 1697-1706 and 1936-1945: the epoch statistics of the unique class,
each a sum divided by `float64(ss.UnTrlNum)`, and the reset of the sums. -/
def epcUnique (ss : StatSim) : StatSim :=
  let unnt := GoFloat.ofInt ss.UnTrlNum
  let ss := { ss with EpcUnSSE := ss.UnSumSSE.div unnt }
  let ss := { ss with UnSumSSE := GoFloat.fin 0 }
  let ss := { ss with EpcUnAvgSSE := ss.UnSumAvgSSE.div unnt }
  let ss := { ss with UnSumAvgSSE := GoFloat.fin 0 }
  let ss := { ss with EpcUnPctErr := (GoFloat.ofInt ss.UnCntErr).div unnt }
  let ss := { ss with UnCntErr := 0 }
  let ss := { ss with EpcUnPctCor := (GoFloat.fin 1).sub ss.EpcUnPctErr }
  let ss := { ss with EpcUnCosDiff := ss.UnSumCosDiff.div unnt }
  let ss := { ss with UnSumCosDiff := GoFloat.fin 0 }
  { ss with UnTrlNum := 0 }

/-- Lines 1676-1740, `LogTrnEpc`: the epoch statistics, the plot update and
the count of epochs with zero error.  The cells written to the table are the
statistics themselves and are not recorded. -/
def LogTrnEpc (ss : StatSim) : StatSim :=
  let ss := epcUnique (epcShared ss)
  let ss := ss.ev Ev.TrnEpcPlotGoUpdate
  if ss.EpcUnSSE.eq (GoFloat.fin 0) = true ∧ ss.EpcShSSE.eq (GoFloat.fin 0) = true then
    { ss with ZError := ss.ZError + 1 }
  else { ss with ZError := 0 }

/-- Lines 1913-1994, `LogTstEpc`: the epoch statistics and the plot update. -/
def LogTstEpc (ss : StatSim) : StatSim :=
  let ss := epcUnique (epcShared ss)
  ss.ev Ev.TstEpcPlotGoUpdate

/-- Lines 1140-1163, `InitStats`. -/
def InitStats (ss : StatSim) : StatSim :=
  { ss with ShSumSSE := GoFloat.fin 0, ShSumAvgSSE := GoFloat.fin 0,
            ShSumCosDiff := GoFloat.fin 0, ShCntErr := 0, ShFirstZero := -1, ShNZero := 0,
            UnSumSSE := GoFloat.fin 0, UnSumAvgSSE := GoFloat.fin 0,
            UnSumCosDiff := GoFloat.fin 0, UnCntErr := 0, UnFirstZero := -1, UnNZero := 0,
            EpcShSSE := GoFloat.fin 0, EpcShAvgSSE := GoFloat.fin 0,
            EpcShPctErr := GoFloat.fin 0, EpcShCosDiff := GoFloat.fin 0,
            EpcUnSSE := GoFloat.fin 0, EpcUnAvgSSE := GoFloat.fin 0,
            EpcUnPctErr := GoFloat.fin 0, EpcUnCosDiff := GoFloat.fin 0 }

/-- Line 1109: `perlys` of `NewRun`. -/
def newRunPerlys : List LayNm :=
  [.F1, .F2, .F3, .F4, .F5, .ClassName, .CodeName]

/-- Lines 1089-1136, `NewRun`. -/
def NewRun (ss : StatSim) : StatSim :=
  let ss := ss.evAll [Ev.NewRndSeed, Ev.TrainEnvInit, Ev.TestEnvInit, Ev.TimeReset]
  let ss := InitStats ss
  let ss := ss.evAll [Ev.TrnTrlLogReset, Ev.TrnEpcLogReset, Ev.TstEpcLogReset]
  let ss := { ss with NeedsNewRun := false }
  let ss := ss.ev (Ev.PrjnBuild .DG .CA3)
  let ss := newRunPerlys.foldl (fun s layer =>
    s.evAll [Ev.NewRndSeed, Ev.PrjnBuild layer .CA3, Ev.PrjnBuild layer .DG]) ss
  ss.ev Ev.InitWts

/-- Lines 1079-1085, `RunEnd`. -/
def RunEnd (ss : StatSim) : StatSim :=
  let ss := ss.ev Ev.RunEnd
  if ss.SaveWts = true then ss.ev Ev.SaveWts else ss

/-- What the test environment and the engine give for one test trial: whether
the epoch counter changed at `TestEnv.Step()`, the name of the trial, and what
the engine measures on the output layer after the alpha cycle. -/
structure TestObs where
  chg : Bool
  name : String
  m : Measure

/-- Lines 1271-1316, `TestTrial`.  The measures are those of the layer that
the `switch` on `HiddenFeature` names. -/
def TestTrial (o : TestObs) (returnOnChg : Bool) (ss : StatSim) : StatSim :=
  let ss := ss.ev Ev.TestEnvStep
  let ss :=
    if o.chg = true ∧ ss.ViewOn = true ∧ ss.TestUpdt > TimeScales.AlphaCycle then
      ss.ev (Ev.UpdateView "test")
    else ss
  if o.chg = true ∧ returnOnChg = true then ss
  else
    let ss := ss.ev (Ev.ApplyInputs false)
    let ss := ss.ev (Ev.AlphaCyc false)
    TrialStats true o.m ss
/-- Go `for n, r := range s`: the characters of `s` with their byte offsets. -/
def rangeString (s : String) : List (Nat × Char) :=
  (s.toList.foldl (fun (acc : List (Nat × Char) × Nat) ch =>
    (acc.1 ++ [(acc.2, ch)], acc.2 + ch.utf8Size)) ([], 0)).1

/-- Lines 1357-1387: the `switch i` of `TestAll`, which makes the layer of
the hidden feature a target. -/
def testTarget (i : Nat) (ss : StatSim) : StatSim :=
  match i with
  | 0 => { ss.evAll [Ev.SetType .F1 .Target, Ev.UpdateExtFlags .F1] with HiddenFeature := "1" }
  | 1 => { ss.evAll [Ev.SetType .F2 .Target, Ev.UpdateExtFlags .F2] with HiddenFeature := "2" }
  | 2 => { ss.evAll [Ev.SetType .F3 .Target, Ev.UpdateExtFlags .F3] with HiddenFeature := "3" }
  | 3 => { ss.evAll [Ev.SetType .F4 .Target, Ev.UpdateExtFlags .F4] with HiddenFeature := "4" }
  | 4 => { ss.evAll [Ev.SetType .F5 .Target, Ev.UpdateExtFlags .F5] with HiddenFeature := "5" }
  | 5 => { ss.evAll [Ev.SetType .ClassName .Target, Ev.UpdateExtFlags .ClassName] with
           HiddenFeature := "classname" }
  | 6 => { ss.evAll [Ev.SetType .CodeName .Target, Ev.UpdateExtFlags .CodeName] with
           HiddenFeature := "codename" }
  | _ => ss

/-- Lines 1394-1402: the loop over the name of the trial that finds whether
the hidden feature is a unique one; it starts from "shared". -/
def hiddenTypeLoop (i : Nat) : List (Nat × Char) → String
  | [] => "shared"
  | (n, feature) :: rest =>
    if i < 5 ∧ (feature = '4' ∨ feature = '5' ∨ feature = '6') ∧ n = i then "unique"
    else if i = 6 then "unique"
    else hiddenTypeLoop i rest

/-- Lines 1406-1419 and 793-806: the seven layers are made inputs again. -/
def inputAll : List Ev :=
  [Ev.SetType .F1 .Input, Ev.UpdateExtFlags .F1, Ev.SetType .F2 .Input, Ev.UpdateExtFlags .F2,
   Ev.SetType .F3 .Input, Ev.UpdateExtFlags .F3, Ev.SetType .F4 .Input, Ev.UpdateExtFlags .F4,
   Ev.SetType .F5 .Input, Ev.UpdateExtFlags .F5,
   Ev.SetType .ClassName .Input, Ev.UpdateExtFlags .ClassName,
   Ev.SetType .CodeName .Input, Ev.UpdateExtFlags .CodeName]

/-- Lines 1355-1431: the body of the inner loop of `TestAll`, for the trial
observed as `o`; the second component tells whether the loop is left by
`break`. -/
def testAllBody (o : TestObs) (i : Nat) (ss : StatSim) : StatSim × Bool :=
  let ss := testTarget i ss
  let ss := TestTrial o true ss
  let name := o.name
  let ss := { ss with HiddenType := hiddenTypeLoop i (rangeString name) }
  let ss := ss.ev (Ev.LogTstTrl name ss.HiddenType ss.HiddenFeature ss.TrlSSE)
  let ss := ss.evAll inputAll
  if o.chg = true ∨ ss.StopNow = true then (ss, true)
  else if ss.HiddenType = "unique" then ({ ss with UnTrlNum := ss.UnTrlNum + 1 }, false)
  else ({ ss with ShTrlNum := ss.ShTrlNum + 1 }, false)

/-- Lines 1354-1432: the inner loop `for j := 0; j < 15; j++` of `TestAll`,
with `f` iterations left; `k` counts the test trials run so far, and `obs k`
is what is observed at trial `k`. -/
def testAllRow (obs : Nat → TestObs) (i : Nat) : Nat → Nat × StatSim → Nat × StatSim
  | 0, st => st
  | f + 1, (k, ss) =>
    if (testAllBody (obs k) i ss).2 = true then (k + 1, (testAllBody (obs k) i ss).1)
    else testAllRow obs i f (k + 1, (testAllBody (obs k) i ss).1)

/-- Lines 1334-1353: the start of `TestAll`. -/
def testAllInit (ss : StatSim) : StatSim :=
  let ss := ss.evAll [Ev.TestAll, Ev.TestEnvInit]
  { ss with HiddenType := "", HiddenFeature := "", UnTrlNum := 0, ShTrlNum := 0 }

/-- Lines 1353-1433: the two loops of `TestAll`. -/
def testAllLoops (obs : Nat → TestObs) (ss : StatSim) : Nat × StatSim :=
  (List.range 7).foldl (fun st i => testAllRow obs i 15 st) (0, ss)

/-- Lines 1334-1438, `TestAll`. -/
def TestAll (obs : Nat → TestObs) (ss : StatSim) : StatSim :=
  LogTstEpc (testAllLoops obs (testAllInit ss)).2

/-- What the training environment, the random source and the engine give in
one call of `TrainTrial`: the epoch counter and its change flag after
`TrainEnv.Step()`, the result of `TrainEnv.Run.Incr()`, the name of the trial,
the two `rand.Float64()`, the `rand.Intn`, the measures of the engine after the
alpha cycle, and the observations of the two `TestAll`. -/
structure TrainObs where
  epc : Int
  chg : Bool
  last : Bool
  name : String
  r : GoFloat
  r1 : GoFloat
  hide : Nat
  m : Measure
  tstA : Nat → TestObs
  tstB : Nat → TestObs

/-- Line 665: 0.8 as a `float64`. -/
def sleepCrit : GoFloat := GoFloat.fin (3602879701896397 / 4503599627370496)

/-- Line 732: 0.95 as a `float64`. -/
def sharedRatio : GoFloat := GoFloat.fin (4278419646001971 / 4503599627370496)

/-- Lines 676-684 and 690-697: the end of a run. -/
def endRun (last : Bool) (ss : StatSim) : StatSim :=
  let ss := RunEnd ss
  let ss := ss.ev Ev.RunIncr
  if last = true then { ss with StopNow := true } else { ss with NeedsNewRun := true }
/-- Lines 715-720: the loop that finds the unique feature of a trial in its
name, 0 if there is none. -/
def uniqueLoop : List (Nat × Char) → Nat
  | [] => 0
  | (i, j) :: rest => if j = '4' ∨ j = '5' ∨ j = '6' then i + 1 else uniqueLoop rest

/-- Lines 711 and 722-727: the shared features, without the unique one. -/
def sharedOf (unique : Nat) : List String :=
  ["1", "2", "3", "4", "5", "classname"].erase (toString unique)

/-- Lines 731-752: the choice of the hidden feature and of its class. -/
def hideFeature (o : TrainObs) (ss : StatSim) : StatSim :=
  let unique := uniqueLoop (rangeString o.name)
  let shared := sharedOf unique
  if o.r.gt sharedRatio = true then
    let ss := { ss with HiddenType := "shared" }
    let hideindex := o.hide % shared.length
    let ss := { ss with HiddenFeature := shared.getD hideindex "" }
    { ss with ShTrlNum := ss.ShTrlNum + 1 }
  else if unique = 0 then
    let ss := { ss with HiddenType := "unique" }
    let ss := { ss with HiddenFeature := "codename" }
    { ss with UnTrlNum := ss.UnTrlNum + 1 }
  else
    let ss := { ss with HiddenType := "unique" }
    let ss := { ss with UnTrlNum := ss.UnTrlNum + 1 }
    if o.r1.gt (GoFloat.fin (1 / 2)) = true then { ss with HiddenFeature := toString unique }
    else { ss with HiddenFeature := "codename" }

/-- Lines 755-784: the `switch ss.HiddenFeature` of `TrainTrial`, which makes
the layer of the hidden feature a target. -/
def trainTarget (ss : StatSim) : StatSim :=
  if ss.HiddenFeature = "1" then ss.evAll [Ev.SetType .F1 .Target, Ev.UpdateExtFlags .F1]
  else if ss.HiddenFeature = "2" then ss.evAll [Ev.SetType .F2 .Target, Ev.UpdateExtFlags .F2]
  else if ss.HiddenFeature = "3" then ss.evAll [Ev.SetType .F3 .Target, Ev.UpdateExtFlags .F3]
  else if ss.HiddenFeature = "4" then ss.evAll [Ev.SetType .F4 .Target, Ev.UpdateExtFlags .F4]
  else if ss.HiddenFeature = "5" then ss.evAll [Ev.SetType .F5 .Target, Ev.UpdateExtFlags .F5]
  else if ss.HiddenFeature = "classname" then
    ss.evAll [Ev.SetType .ClassName .Target, Ev.UpdateExtFlags .ClassName]
  else if ss.HiddenFeature = "codename" then
    ss.evAll [Ev.SetType .CodeName .Target, Ev.UpdateExtFlags .CodeName]
  else ss

/-- Lines 700-807: the training trial proper, the part of `TrainTrial` after
the checks at the epoch boundary. -/
def trainTrialBody (o : TrainObs) (ss : StatSim) : StatSim :=
  let ss := hideFeature o ss
  let ss := trainTarget ss
  let ss := ss.ev (Ev.ApplyInputs true)
  let ss := ss.ev (Ev.AlphaCyc true)
  let ss := TrialStats true o.m ss
  let ss := ss.evAll inputAll
  ss.ev (Ev.LogTrnTrl o.name ss.HiddenType ss.HiddenFeature ss.TrlSSE)

/-- Lines 687-698: the check of the stopping criteria at an epoch boundary. -/
def trainStop (o : TrainObs) (ss : StatSim) : StatSim :=
  if (ss.NZeroStop > 0 ∧ ss.ShNZero ≥ ss.NZeroStop ∧ ss.UnNZero ≥ ss.NZeroStop)
      ∨ o.epc ≥ ss.MaxEpcs then
    endRun o.last ss
  else trainTrialBody o ss

/-- Lines 645-651: the start of `TrainTrial`, up to the step of the training
environment. -/
def trainHead (ss : StatSim) : StatSim :=
  let ss := if ss.NeedsNewRun = true then NewRun ss else ss
  ss.ev Ev.TrainEnvStep

/-- Lines 657-661: the epoch log and the view update at an epoch boundary. -/
def trainEpoch (ss : StatSim) : StatSim :=
  let ss := LogTrnEpc ss
  if ss.ViewOn = true ∧ ss.TrainUpdt > TimeScales.AlphaCycle then
    ss.ev (Ev.UpdateView "train")
  else ss

/-- Lines 663-686: what follows the first `TestAll` of an epoch boundary: the
sleep criterion and, when it is met, the sleep session, the second `TestAll`
and the end of the run. -/
def trainSleep (o : TrainObs) (ss : StatSim) : StatSim :=
  if ss.EpcShPctCor.ge sleepCrit = true ∧ ss.EpcUnPctCor.ge sleepCrit = true then
    let ss := if ss.ExecSleep = true then TestAll o.tstB (ss.ev Ev.SleepTrial) else ss
    endRun o.last ss
  else trainStop o ss

/-- Lines 643-807, `TrainTrial`.  Go `%` on `int` is the truncated remainder.
The lines printed are not recorded. -/
def TrainTrial (o : TrainObs) (ss : StatSim) : StatSim :=
  let ss := trainHead ss
  if o.chg = true then
    let ss := trainEpoch ss
    if ss.TestInterval > 0 ∧ Int.tmod o.epc ss.TestInterval = 0 then
      trainSleep o (TestAll o.tstA ss)
    else trainStop o ss
  else trainTrialBody o ss

/-- The events that the `switch i` of `TestAll` records. -/
def targetEvs (i : Nat) : List Ev :=
  match i with
  | 0 => [Ev.SetType .F1 .Target, Ev.UpdateExtFlags .F1]
  | 1 => [Ev.SetType .F2 .Target, Ev.UpdateExtFlags .F2]
  | 2 => [Ev.SetType .F3 .Target, Ev.UpdateExtFlags .F3]
  | 3 => [Ev.SetType .F4 .Target, Ev.UpdateExtFlags .F4]
  | 4 => [Ev.SetType .F5 .Target, Ev.UpdateExtFlags .F5]
  | 5 => [Ev.SetType .ClassName .Target, Ev.UpdateExtFlags .ClassName]
  | 6 => [Ev.SetType .CodeName .Target, Ev.UpdateExtFlags .CodeName]
  | _ => []

/-- The events that `TestTrial` records. -/
def trialEvs (o : TestObs) (returnOnChg : Bool) (ss : StatSim) : List Ev :=
  Ev.TestEnvStep
    :: ((if o.chg = true ∧ ss.ViewOn = true ∧ ss.TestUpdt > TimeScales.AlphaCycle then
          [Ev.UpdateView "test"] else [])
      ++ (if o.chg = true ∧ returnOnChg = true then []
          else [Ev.ApplyInputs false, Ev.AlphaCyc false]))

/-- The events that one pass of the body of the inner loop of `TestAll`
records. -/
def bodyEvs (o : TestObs) (i : Nat) (ss : StatSim) : List Ev :=
  targetEvs i ++ (trialEvs o true ss
    ++ Ev.LogTstTrl o.name (testAllBody o i ss).1.HiddenType
        (testAllBody o i ss).1.HiddenFeature (testAllBody o i ss).1.TrlSSE :: inputAll)

/-- The events that the inner loop of `TestAll` records, with `f` iterations
left. -/
def rowEvs (obs : Nat → TestObs) (i : Nat) : Nat → Nat × StatSim → List Ev
  | 0, _ => []
  | f + 1, (k, ss) =>
    if (testAllBody (obs k) i ss).2 = true then bodyEvs (obs k) i ss
    else bodyEvs (obs k) i ss ++ rowEvs obs i f (k + 1, (testAllBody (obs k) i ss).1)

/-- The events that the two loops of `TestAll` record, from the row `i` on,
for `n` rows. -/
def loopsEvs (obs : Nat → TestObs) : Nat → Nat → Nat × StatSim → List Ev
  | 0, _, _ => []
  | n + 1, i, st => rowEvs obs i 15 st ++ loopsEvs obs n (i + 1) (testAllRow obs i 15 st)
/-- The state that `New` builds (lines 187-224), with nothing recorded yet. -/
def newStat : StatSim :=
  { MaxEpcs := 20, NZeroStop := 0, TestInterval := 1, ViewOn := true,
    TrainUpdt := TimeScales.AlphaCycle, TestUpdt := TimeScales.AlphaCycle,
    ExecSleep := true, SaveWts := false, StopNow := false, NeedsNewRun := false,
    ZError := 0, HiddenType := "", HiddenFeature := "",
    TrlSSE := GoFloat.fin 0, TrlAvgSSE := GoFloat.fin 0, TrlCosDiff := GoFloat.fin 0,
    EpcShSSE := GoFloat.fin 0, EpcShAvgSSE := GoFloat.fin 0, EpcShPctErr := GoFloat.fin 0,
    EpcShPctCor := GoFloat.fin 0, EpcShCosDiff := GoFloat.fin 0, ShFirstZero := 0,
    ShNZero := 0,
    EpcUnSSE := GoFloat.fin 0, EpcUnAvgSSE := GoFloat.fin 0, EpcUnPctErr := GoFloat.fin 0,
    EpcUnPctCor := GoFloat.fin 0, EpcUnCosDiff := GoFloat.fin 0, UnFirstZero := 0,
    UnNZero := 0,
    ShTrlNum := 0, ShSumSSE := GoFloat.fin 0, ShSumAvgSSE := GoFloat.fin 0,
    ShSumCosDiff := GoFloat.fin 0, ShCntErr := 0,
    UnTrlNum := 0, UnSumSSE := GoFloat.fin 0, UnSumAvgSSE := GoFloat.fin 0,
    UnSumCosDiff := GoFloat.fin 0, UnCntErr := 0, evs := [] }

/-- A test trial with the name `name` on which the engine measures the sum
squared error `sse`, at no change of the epoch counter. -/
def testObs (name : String) (sse : GoFloat) : TestObs :=
  { chg := false, name := name, m := { cosdiff := GoFloat.fin 1, sse := sse, avgsse := sse } }

/-- A test epoch of 105 trials on items without a unique feature, in which
the only trial with an error is trial 90, the first that hides the code
name. -/
def staleObs (k : Nat) : TestObs :=
  testObs "12312" (if k = 90 then GoFloat.fin 1 else GoFloat.fin 0)

/-- The rows that `E` adds to the test trial log: for each, the `HiddenType`
written to it and whether the SSE written to it is other than 0. -/
def tstRows (E : List Ev) : List (String × Bool) :=
  E.filterMap (fun e => match e with
    | .LogTstTrl _ t _ sse => some (t, sse.ne (GoFloat.fin 0))
    | _ => none)

/-- The fields of `StatSim` that configure the training loop and stop it. -/
structure Ctl where
  MaxEpcs : Int
  NZeroStop : Int
  TestInterval : Int
  ViewOn : Bool
  TrainUpdt : TimeScales
  TestUpdt : TimeScales
  ExecSleep : Bool
  SaveWts : Bool
  StopNow : Bool
  NeedsNewRun : Bool
  ShNZero : Int
  UnNZero : Int

/-- The configuration and the stop flags of a state. -/
def StatSim.ctl (ss : StatSim) : Ctl :=
  { MaxEpcs := ss.MaxEpcs, NZeroStop := ss.NZeroStop, TestInterval := ss.TestInterval,
    ViewOn := ss.ViewOn, TrainUpdt := ss.TrainUpdt, TestUpdt := ss.TestUpdt,
    ExecSleep := ss.ExecSleep, SaveWts := ss.SaveWts, StopNow := ss.StopNow,
    NeedsNewRun := ss.NeedsNewRun, ShNZero := ss.ShNZero, UnNZero := ss.UnNZero }

/-- The events that mark the course of a call of `TrainTrial`: the entries of
`TestAll`, `SleepTrial` and `RunEnd`, the advance of the run counter, and the
alpha cycle of a training trial. -/
def Ev.isCtl : Ev → Bool
  | .TestAll => true
  | .SleepTrial => true
  | .RunEnd => true
  | .RunIncr => true
  | .AlphaCyc true => true
  | _ => false

/-- Between the state `a` and the later state `b` the events recorded have the
marks `L`, in this order. -/
def Marks (a b : StatSim) (L : List Ev) : Prop :=
  ∃ X, b.evs = a.evs ++ X ∧ X.filter Ev.isCtl = L
/-- A test epoch in which the engine makes no error: every trial is on an item
without a unique feature and has SSE 0. -/
def quietObs (_ : Nat) : TestObs := testObs "12312" (GoFloat.fin 0)

/-- A test epoch in which the engine errs on every trial. -/
def failObs (_ : Nat) : TestObs := testObs "12312" (GoFloat.fin 1)

/-- A call of `TrainTrial` at the boundary to epoch `epc`, not in the last
run, with the test epochs `tst`. -/
def boundaryObs (epc : Int) (tst : Nat → TestObs) : TrainObs :=
  { epc := epc, chg := true, last := false, name := "12312", r := GoFloat.fin 0,
    r1 := GoFloat.fin 0, hide := 0,
    m := { cosdiff := GoFloat.fin 1, sse := GoFloat.fin 0, avgsse := GoFloat.fin 0 },
    tstA := tst, tstB := tst }

/-! ## The noise of `SleepCyc` -/

/-- A neuron, as far as the noise of `SleepCyc` looks at it: `IsOff()` and
`Act`. -/
structure Neuron where
  Off : Bool
  Act : GoFloat
deriving DecidableEq

/-- Line 895: 0.8 as a `float64`. -/
def noiseThresh : GoFloat := GoFloat.fin (3602879701896397 / 4503599627370496)

/-- Line 895: the condition under which noise is injected, on the cycle counter
`ss.Time.Cycle` of the engine and on `ss.AvgLaySim`.  Go `%` on `int` is the
truncated remainder. -/
def noiseDue (timeCycle : Int) (avgLaySim : GoFloat) : Bool :=
  decide (timeCycle > 200) && avgLaySim.le noiseThresh
    && (decide (Int.tmod timeCycle 50 = 0) || decide (Int.tmod timeCycle 50 = 1)
      || decide (Int.tmod timeCycle 50 = 2) || decide (Int.tmod timeCycle 50 = 3)
      || decide (Int.tmod timeCycle 50 = 4))

/-- Lines 903-908: the activation computed from the random number `rnd`. -/
def noiseAct (rnd : GoFloat) : GoFloat :=
  let rnd := rnd.sub (GoFloat.fin (1 / 2))
  if rnd.lt (GoFloat.fin 0) = true then GoFloat.fin 0 else rnd

/-- Lines 897-909: the loop over the neurons of a layer.  `rs` is the sequence
of the results of `rand.Float32()` and `k` the number of them used so far. -/
def noiseLayer (rs : Nat → GoFloat) : Nat → List Neuron → Nat × List Neuron
  | k, [] => (k, [])
  | k, nrn :: rest =>
    if nrn.Off = true then
      ((noiseLayer rs k rest).1, nrn :: (noiseLayer rs k rest).2)
    else
      ((noiseLayer rs (k + 1) rest).1,
        { nrn with Act := noiseAct (rs k) } :: (noiseLayer rs (k + 1) rest).2)

/-- Lines 896-910: the loop over the layers. -/
def noiseNet (rs : Nat → GoFloat) : Nat → List (List Neuron) → Nat × List (List Neuron)
  | k, [] => (k, [])
  | k, ly :: rest =>
    ((noiseNet rs (noiseLayer rs k ly).1 rest).1,
      (noiseLayer rs k ly).2 :: (noiseNet rs (noiseLayer rs k ly).1 rest).2)

/-- Lines 893-911: the noise block of one iteration of the loop of `SleepCyc`,
on the neurons of the layers. -/
def sleepNoise (rs : Nat → GoFloat) (timeCycle : Int) (avgLaySim : GoFloat)
    (st : Nat × List (List Neuron)) : Nat × List (List Neuron) :=
  if noiseDue timeCycle avgLaySim = true then noiseNet rs st.1 st.2 else st

/-- The neurons of a list that are not off. -/
def onNeurons (ns : List Neuron) : List Neuron :=
  ns.filter (fun n => !n.Off)

/-- The state after `Init` (lines 390-398) of a simulation with the settings of
`New`, `NZeroStop = 1` and no testing: `NewRun` has initialised the statistics
of the run. -/
def streakStat : StatSim :=
  NewRun { newStat with NZeroStop := 1, TestInterval := 0 }

/-- Call `k` of `TrainTrial` in a run without an error: the 105 calls of the
first epoch, of which every twentieth hides a shared feature, and the call at
the boundary to epoch 1, not in the last run; the engine measures SSE 0 on
every trial. -/
def streakObs (k : Nat) : TrainObs :=
  { epc := if k < 105 then 0 else 1, chg := decide (k = 105), last := false, name := "12312",
    r := if k % 20 = 0 then GoFloat.fin (99 / 100) else GoFloat.fin 0,
    r1 := GoFloat.fin 0, hide := 0,
    m := { cosdiff := GoFloat.fin 1, sse := GoFloat.fin 0, avgsse := GoFloat.fin 0 },
    tstA := quietObs, tstB := quietObs }

/-- The state after the calls `0` to `n - 1` of `TrainTrial`, observed as
`obs`. -/
def trainRun (obs : Nat → TrainObs) (n : Nat) (ss : StatSim) : StatSim :=
  (List.range n).foldl (fun s k => TrainTrial (obs k) s) ss

/-! ## Concrete states -/

/-- The state that `New` (lines 187-225) builds, with the layers `layers`, all
gains at 1 and nothing recorded yet. -/
def newSim (layers : List Layer) : Sim :=
  { Layers := layers
    PerCA1 := fun _ => GoFloat.fin 1
    PerDG := fun _ => GoFloat.fin 1
    PerFmCA1 := fun _ => GoFloat.fin 1
    CA3CA1 := GoFloat.fin 1
    CA3CA3 := GoFloat.fin 1
    ViewOn := true
    TrainUpdt := TimeScales.AlphaCycle
    TestUpdt := TimeScales.AlphaCycle
    SleepUpdt := TimeScales.Cycle
    MaxSlpCyc := 50000
    AvgLaySim := GoFloat.fin 0
    SlpLearn := true
    PlusPhase := false
    MinusPhase := false
    SlpTrls := 0
    StopNow := false
    RunCur := 0
    RndSeed := 0
    DirSeed := 0
    calls := []
    seen := [] }

/-- Ten layers, as `ConfigNet` builds (lines 283-296), all with the similarity
`x`; each has one projection that is on and one that is off. -/
def tenLayers (x : GoFloat) : List Layer :=
  List.replicate 10 { Sim := x, SndPrjns := [{ Off := false }, { Off := true }] }

/-- An engine for examples: at cycle `c` the ten layers have the similarity
`xs[c]`, and `d` once `xs` is used up. -/
def engOf (xs : List GoFloat) (d : GoFloat) (c : Nat) : List Layer :=
  tenLayers (xs.getD c d)

/-- An example session: similarity 1 for five cycles, 0.9995 for one, then 0. -/
def cycleEng : Nat → List Layer :=
  engOf [GoFloat.fin 1, GoFloat.fin 1, GoFloat.fin 1, GoFloat.fin 1, GoFloat.fin 1,
    GoFloat.fin (1999 / 2000)] (GoFloat.fin 0)

/-- An example session: similarity 1 for five cycles, then 0. -/
def abortEng : Nat → List Layer :=
  engOf [GoFloat.fin 1, GoFloat.fin 1, GoFloat.fin 1, GoFloat.fin 1, GoFloat.fin 1]
    (GoFloat.fin 0)

/-- A similarity between the two thresholds: 0.9995. -/
def midSim : GoFloat := GoFloat.fin (1999 / 2000)

/-- The local counters at the start of `SleepCyc` (lines 817-819). -/
def zeroLocals : SlpLocals :=
  { stablecount := 0, pluscount := 0, minuscount := 0 }

/-- Ten layers of which the first has NaN similarity and the nine others have
similarity 1. -/
def nanLayers : List Layer :=
  { Sim := GoFloat.nan, SndPrjns := [{ Off := false }, { Off := true }] }
    :: List.replicate 9 { Sim := GoFloat.fin 1, SndPrjns := [{ Off := false }, { Off := true }] }

/-- An example session: similarity 1 for five cycles, which starts a Plus
phase, then a cycle after which one layer has NaN similarity. -/
def nanPlusEng (c : Nat) : List Layer :=
  if c = 5 then nanLayers else cycleEng c

/-- An example session: similarity 1 for five cycles and 0.9995 for one, which
starts a Minus phase, then a cycle after which one layer has NaN similarity. -/
def nanMinusEng (c : Nat) : List Layer :=
  if c = 6 then nanLayers else cycleEng c

/-! ## Floating point comparisons -/

theorem GoFloat.lt_false_of_ge {a b : GoFloat} (h : a.ge b = true) : a.lt b = false := by
  rcases a with _ | s | a <;> rcases b with _ | t | b <;>
    simp_all [GoFloat.ge, GoFloat.le, GoFloat.lt]
  cases s <;> cases t <;> simp_all

theorem GoFloat.ge_false_of_lt {a b : GoFloat} (h : a.lt b = true) : a.ge b = false := by
  rcases a with _ | s | a <;> rcases b with _ | t | b <;>
    simp_all [GoFloat.ge, GoFloat.le, GoFloat.lt]

theorem minusthresh_lt_plusthresh :
    (35148970028279 / 35184372088832 : ℚ) < 4503596533045033 / 4503599627370496 := by
  norm_num

theorem ge_minus_of_ge_plus {a : GoFloat} (h : a.ge plusthresh = true) :
    a.ge minusthresh = true := by
  have hlt := minusthresh_lt_plusthresh
  cases a <;> simp_all [GoFloat.ge, GoFloat.le, plusthresh, minusthresh]
  exact le_trans hlt.le h

theorem lt_plus_of_lt_minus {a : GoFloat} (h : a.lt minusthresh = true) :
    a.lt plusthresh = true := by
  have hlt := minusthresh_lt_plusthresh
  cases a <;> simp_all [GoFloat.lt, plusthresh, minusthresh]
  exact lt_trans h hlt

/-! ## The loop that issues the weight updates -/

theorem slpDWt_foldl (l : List (Nat × Layer)) (s : Sim) :
    l.foldl (fun s p => ({ s with SlpTrls := s.SlpTrls + 1 }).callAll (slpDWtCalls p.1 p.2)) s
      = { s with SlpTrls := s.SlpTrls + l.length,
                 calls := s.calls ++ (l.map (fun p => slpDWtCalls p.1 p.2)).flatten } := by
  induction l generalizing s with
  | nil => simp
  | cons p l ih =>
    rw [List.foldl_cons, ih]
    simp only [Sim.callAll, List.length_cons, List.map_cons, List.flatten_cons,
      List.append_assoc, Nat.cast_add, Nat.cast_one, add_assoc, add_comm (1 : ℤ)]

theorem slpDWtLoop_eq (ss : Sim) :
    slpDWtLoop ss = { ss with SlpTrls := ss.SlpTrls + ss.Layers.length,
                              calls := ss.calls ++ forLayers ss.Layers slpDWtCalls } := by
  simp [slpDWtLoop, slpDWt_foldl, forLayers]

/-! ## One iteration of the sleep loop: frame lemmas -/

theorem sleepView_fields (v : TimeScales) (cyc : Nat) (ss : Sim) :
    (sleepView v cyc ss).PlusPhase = ss.PlusPhase
    ∧ (sleepView v cyc ss).MinusPhase = ss.MinusPhase
    ∧ (sleepView v cyc ss).SlpTrls = ss.SlpTrls
    ∧ (sleepView v cyc ss).SlpLearn = ss.SlpLearn
    ∧ (sleepView v cyc ss).Layers = ss.Layers
    ∧ (sleepView v cyc ss).ViewOn = ss.ViewOn := by
  unfold sleepView
  split_ifs <;> simp [Sim.call]

theorem sleepView_calls (v : TimeScales) (cyc : Nat) (ss : Sim) :
    ∃ V, (sleepView v cyc ss).calls = ss.calls ++ V ∧ ∀ c ∈ V, c = Call.UpdateView true := by
  unfold sleepView
  split_ifs
  all_goals first
    | exact ⟨[Call.UpdateView true], rfl, by simp⟩
    | exact ⟨[], by simp, by simp⟩

theorem sleepSense_calls (lys : List Layer) (ss : Sim) :
    (sleepSense lys ss).calls = ss.calls
      ++ [Call.WtFmDWt, Call.Cycle true, Call.UpdateView true, Call.LogSlpCyc] := by
  simp [sleepSense, Sim.call, Sim.cycle]

theorem sleepSense_fields (lys : List Layer) (ss : Sim) :
    (sleepSense lys ss).PlusPhase = ss.PlusPhase
    ∧ (sleepSense lys ss).MinusPhase = ss.MinusPhase
    ∧ (sleepSense lys ss).SlpTrls = ss.SlpTrls
    ∧ (sleepSense lys ss).SlpLearn = ss.SlpLearn
    ∧ (sleepSense lys ss).Layers = lys
    ∧ (sleepSense lys ss).AvgLaySim = avgLaySim lys
    ∧ (sleepSense lys ss).ViewOn = ss.ViewOn := by
  simp [sleepSense, Sim.call, Sim.cycle]

theorem mem_forLayers {layers : List Layer} {f : Nat → Layer → List Call} {c : Call}
    (h : c ∈ forLayers layers f) : ∃ i ly, c ∈ f i ly := by
  unfold forLayers at h
  rw [List.mem_flatten] at h
  obtain ⟨L, hL, hc⟩ := h
  rw [List.mem_map] at hL
  obtain ⟨q, _, rfl⟩ := hL
  exact ⟨q.1, q.2, hc⟩

theorem mem_slpDWtCalls {i : Nat} {ly : Layer} {c : Call} (h : c ∈ slpDWtCalls i ly) :
    ∃ j, c = Call.SlpDWt i j := by
  unfold slpDWtCalls at h
  rw [List.mem_map] at h
  obtain ⟨q, _, rfl⟩ := h
  exact ⟨q.1, rfl⟩

theorem markPhase_calls (ss : Sim) (l : SlpLocals) :
    ∃ D, (markPhase ss l).1.calls = ss.calls ++ D ∧ ∀ c ∈ D, c.isLearn = true := by
  unfold markPhase
  split_ifs
  · refine ⟨_, rfl, fun c hc => ?_⟩
    obtain ⟨i, ly, h⟩ := mem_forLayers hc
    simp only [List.mem_singleton] at h
    subst h
    rfl
  · refine ⟨_, rfl, fun c hc => ?_⟩
    obtain ⟨i, ly, h⟩ := mem_forLayers hc
    simp only [List.mem_singleton] at h
    subst h
    rfl
  · refine ⟨_, rfl, fun c hc => ?_⟩
    obtain ⟨i, ly, h⟩ := mem_forLayers hc
    simp only [List.mem_cons, List.mem_singleton, List.not_mem_nil, or_false] at h
    rcases h with rfl | rfl <;> rfl
  · refine ⟨_, rfl, fun c hc => ?_⟩
    obtain ⟨i, ly, h⟩ := mem_forLayers hc
    simp only [List.mem_singleton] at h
    subst h
    rfl
  · refine ⟨forLayers ss.Layers (fun i _ => [Call.CalcActM i l.minuscount])
        ++ forLayers ss.Layers slpDWtCalls, ?_, fun c hc => ?_⟩
    · rw [slpDWtLoop_eq]
      simp [Sim.callAll]
    · rw [List.mem_append] at hc
      rcases hc with hc | hc
      · obtain ⟨i, ly, h⟩ := mem_forLayers hc
        simp only [List.mem_singleton] at h
        subst h
        rfl
      · obtain ⟨i, ly, h⟩ := mem_forLayers hc
        obtain ⟨j, rfl⟩ := mem_slpDWtCalls h
        rfl
  · exact ⟨[], by simp, by simp⟩
  · exact ⟨[], by simp, by simp⟩

theorem slpLearn_calls (ss : Sim) (l : SlpLocals) :
    ∃ D, (slpLearn ss l).1.calls = ss.calls ++ D ∧ ∀ c ∈ D, c.isLearn = true := by
  unfold slpLearn
  split_ifs
  · exact markPhase_calls ss _
  · exact ⟨[], by simp, by simp⟩

theorem filter_eq_nil_of_forall {p : Call → Bool} {V : List Call}
    (h : ∀ c ∈ V, p c = false) : V.filter p = [] := by
  rw [List.filter_eq_nil_iff]
  intro c hc
  simp [h c hc]

theorem filter_eq_self_of_forall {p : Call → Bool} {V : List Call}
    (h : ∀ c ∈ V, p c = true) : V.filter p = V := by
  rw [List.filter_eq_self]
  exact h

/-- The calls on sums, averages and weights of an iteration are those of its
phase detector. -/
theorem learnCalls_sleepBody (lys : List Layer) (v : TimeScales) (cyc : Nat)
    (st : Sim × SlpLocals) :
    learnCalls st.1 (sleepBody lys v cyc st).1
      = callsSince (sleepSense lys st.1) (slpLearn (sleepSense lys st.1) st.2).1 := by
  obtain ⟨D, hD, hDl⟩ := slpLearn_calls (sleepSense lys st.1) st.2
  obtain ⟨V, hV, hVl⟩ := sleepView_calls v cyc
    (((slpLearn (sleepSense lys st.1) st.2).1.call Call.CycleInc).call (Call.UpdateView true))
  have hb : (sleepBody lys v cyc st).1.calls = st.1.calls
      ++ ([Call.WtFmDWt, Call.Cycle true, Call.UpdateView true, Call.LogSlpCyc] ++ D
        ++ [Call.CycleInc, Call.UpdateView true] ++ V) := by
    have hsb : (sleepBody lys v cyc st).1 = sleepView v cyc
        (((slpLearn (sleepSense lys st.1) st.2).1.call Call.CycleInc).call
          (Call.UpdateView true)) := rfl
    rw [hsb, hV]
    simp only [Sim.call, hD, sleepSense_calls, List.append_assoc,
      List.singleton_append, List.cons_append, List.nil_append]
  have hVf : V.filter Call.isLearn = [] :=
    filter_eq_nil_of_forall (fun c hc => by rw [hVl c hc]; rfl)
  simp only [learnCalls, callsSince, hb, hD, List.drop_left, List.filter_append, hVf,
    filter_eq_self_of_forall hDl, List.append_nil]
  simp [Call.isLearn]

theorem sleepBody_fields (lys : List Layer) (v : TimeScales) (cyc : Nat)
    (st : Sim × SlpLocals) :
    (sleepBody lys v cyc st).1.PlusPhase = (slpLearn (sleepSense lys st.1) st.2).1.PlusPhase
    ∧ (sleepBody lys v cyc st).1.MinusPhase = (slpLearn (sleepSense lys st.1) st.2).1.MinusPhase
    ∧ (sleepBody lys v cyc st).1.SlpTrls = (slpLearn (sleepSense lys st.1) st.2).1.SlpTrls
    ∧ (sleepBody lys v cyc st).1.SlpLearn = (slpLearn (sleepSense lys st.1) st.2).1.SlpLearn
    ∧ (sleepBody lys v cyc st).2 = (slpLearn (sleepSense lys st.1) st.2).2 := by
  simp [sleepBody, sleepView_fields, Sim.call]

/-! ## The phase detector, case by case -/

theorem slpLearn_settle_ge {s : Sim} {l : SlpLocals} (hL : s.SlpLearn = true)
    (hP : s.PlusPhase = false) (hM : s.MinusPhase = false)
    (hge : s.AvgLaySim.ge plusthresh = true) (h4 : l.stablecount ≠ 4) :
    slpLearn s l = (s, { l with stablecount := l.stablecount + 1 }) := by
  simp [slpLearn, markPhase, checkStable, hL, hP, hM, hge, h4]

theorem slpLearn_enter_plus {s : Sim} {l : SlpLocals} (hL : s.SlpLearn = true)
    (hP : s.PlusPhase = false) (hM : s.MinusPhase = false)
    (hge : s.AvgLaySim.ge plusthresh = true) (h4 : l.stablecount = 4) :
    slpLearn s l = (({ s with PlusPhase := true }).callAll
        (forLayers s.Layers (fun i _ => [Call.RunSumUpdt i true])),
      { stablecount := 0, minuscount := 0, pluscount := l.pluscount + 1 }) := by
  simp [slpLearn, markPhase, checkStable, hL, hP, hM, hge, h4]

theorem slpLearn_settle_lt {s : Sim} {l : SlpLocals} (hL : s.SlpLearn = true)
    (hP : s.PlusPhase = false) (hM : s.MinusPhase = false)
    (hlt : s.AvgLaySim.lt plusthresh = true) :
    slpLearn s l = (s, { l with stablecount := 0 }) := by
  simp [slpLearn, markPhase, checkStable, hL, hP, hM, hlt, GoFloat.ge_false_of_lt hlt]

theorem slpLearn_plus_ge {s : Sim} {l : SlpLocals} (hL : s.SlpLearn = true)
    (hP : s.PlusPhase = true) (hpc : 0 < l.pluscount)
    (hge : s.AvgLaySim.ge plusthresh = true) :
    slpLearn s l = (s.callAll (forLayers s.Layers (fun i _ => [Call.RunSumUpdt i false])),
      { l with pluscount := l.pluscount + 1 }) := by
  simp [slpLearn, markPhase, checkStable, hL, hP, hge, hpc]

theorem slpLearn_plus_mid {s : Sim} {l : SlpLocals} (hL : s.SlpLearn = true)
    (hP : s.PlusPhase = true)
    (hlt : s.AvgLaySim.lt plusthresh = true) (hge : s.AvgLaySim.ge minusthresh = true) :
    slpLearn s l = (({ s with PlusPhase := false, MinusPhase := true }).callAll
        (forLayers s.Layers
          (fun i _ => [Call.CalcActP i l.pluscount, Call.RunSumUpdt i true])),
      { l with minuscount := l.minuscount + 1, pluscount := 0 }) := by
  simp [slpLearn, markPhase, checkStable, hL, hP, hlt, hge, GoFloat.ge_false_of_lt hlt]

theorem slpLearn_plus_low {s : Sim} {l : SlpLocals} (hL : s.SlpLearn = true)
    (hP : s.PlusPhase = true) (hM : s.MinusPhase = false)
    (hlt : s.AvgLaySim.lt minusthresh = true) :
    slpLearn s l = ({ s with PlusPhase := false },
      { pluscount := 0, stablecount := 0, minuscount := 0 }) := by
  simp [slpLearn, markPhase, checkStable, hL, hP, hM, hlt, GoFloat.ge_false_of_lt hlt,
    GoFloat.ge_false_of_lt (lt_plus_of_lt_minus hlt)]

theorem slpLearn_minus_ge {s : Sim} {l : SlpLocals} (hL : s.SlpLearn = true)
    (hP : s.PlusPhase = false) (hM : s.MinusPhase = true)
    (hge : s.AvgLaySim.ge minusthresh = true) :
    slpLearn s l = (s.callAll (forLayers s.Layers (fun i _ => [Call.RunSumUpdt i false])),
      { l with minuscount := l.minuscount + 1 }) := by
  simp [slpLearn, markPhase, checkStable, hL, hP, hM, hge]

theorem slpLearn_minus_low {s : Sim} {l : SlpLocals} (hL : s.SlpLearn = true)
    (hP : s.PlusPhase = false) (hM : s.MinusPhase = true)
    (hlt : s.AvgLaySim.lt minusthresh = true) :
    slpLearn s l = (slpDWtLoop (({ s with MinusPhase := false }).callAll
        (forLayers s.Layers (fun i _ => [Call.CalcActM i l.minuscount]))),
      { l with minuscount := 0, stablecount := 0 }) := by
  simp [slpLearn, markPhase, checkStable, hL, hP, hM, hlt, GoFloat.ge_false_of_lt hlt]

theorem avgLaySim_tenLayers (q : ℚ) : avgLaySim (tenLayers (GoFloat.fin q)) = GoFloat.fin q := by
  simp [avgLaySim, sumLaySim, tenLayers, List.replicate, GoFloat.isNaN, GoFloat.add, GoFloat.div]
  ring

theorem one_ge_plusthresh : (GoFloat.fin 1).ge plusthresh = true := by
  simp [GoFloat.ge, GoFloat.le, plusthresh]
  norm_num

theorem zero_lt_minusthresh : (GoFloat.fin 0).lt minusthresh = true := by
  simp [GoFloat.lt, minusthresh]

theorem zero_lt_plusthresh : (GoFloat.fin 0).lt plusthresh = true :=
  lt_plus_of_lt_minus zero_lt_minusthresh

/-! ## Settling -/

theorem sleepLoop_succ (eng : Nat → List Layer) (v : TimeScales) (c0 n : Nat)
    (st : Sim × SlpLocals) :
    sleepLoop eng v c0 (n + 1) st
      = sleepBody (eng (c0 + n)) v (c0 + n) (sleepLoop eng v c0 n st) := rfl

theorem sleepLoop_SlpLearn (eng : Nat → List Layer) (v : TimeScales) (c0 n : Nat)
    (st : Sim × SlpLocals) :
    (sleepLoop eng v c0 n st).1.SlpLearn = st.1.SlpLearn := by
  induction n with
  | zero => rfl
  | succ n ih =>
    rw [sleepLoop_succ, (sleepBody_fields _ _ _ _).2.2.2.1, ← ih]
    generalize sleepLoop eng v c0 n st = r
    have h := (sleepSense_fields (eng (c0 + n)) r.1).2.2.2.1
    rw [← h]
    generalize sleepSense (eng (c0 + n)) r.1 = s
    unfold slpLearn markPhase
    split_ifs <;> simp [Sim.callAll, slpDWtLoop_eq]

/-- While the similarity stays at or above `plusthresh`, a detector that starts
in Settling with `stablecount = 0` is still in Settling after `n <= 4`
iterations, with `stablecount = n`. -/
theorem settling_run (eng : Nat → List Layer) (v : TimeScales) (c0 : Nat)
    (st : Sim × SlpLocals) (hL : st.1.SlpLearn = true) (hP : st.1.PlusPhase = false)
    (hM : st.1.MinusPhase = false) (h0 : st.2.stablecount = 0) (n : Nat) (hn : n ≤ 4)
    (hge : ∀ j, j < n → (avgLaySim (eng (c0 + j))).ge plusthresh = true) :
    (sleepLoop eng v c0 n st).1.PlusPhase = false
    ∧ (sleepLoop eng v c0 n st).1.MinusPhase = false
    ∧ (sleepLoop eng v c0 n st).2.stablecount = n := by
  induction n with
  | zero => exact ⟨hP, hM, h0⟩
  | succ n ih =>
    obtain ⟨iP, iM, iS⟩ := ih (by omega) (fun j hj => hge j (by omega))
    have iL := sleepLoop_SlpLearn eng v c0 n st
    rw [hL] at iL
    obtain ⟨fP, fM, _, fL, _, fA, _⟩ := sleepSense_fields (eng (c0 + n)) (sleepLoop eng v c0 n st).1
    have hstep := slpLearn_settle_ge (s := sleepSense (eng (c0 + n)) (sleepLoop eng v c0 n st).1)
      (l := (sleepLoop eng v c0 n st).2) (by rw [fL, iL]) (by rw [fP, iP]) (by rw [fM, iM])
      (by rw [fA]; exact hge n (by omega)) (by omega)
    obtain ⟨bP, bM, _, _, bl⟩ := sleepBody_fields (eng (c0 + n)) v (c0 + n) (sleepLoop eng v c0 n st)
    rw [sleepLoop_succ, bP, bM, bl, hstep]
    exact ⟨by rw [fP, iP], by rw [fM, iM], by simp [iS]⟩

/-- Five iterations at or above `plusthresh`, from Settling with
`stablecount = 0`, put the detector in Plus with `pluscount` one more than
before. -/
theorem plus_after_five (eng : Nat → List Layer) (v : TimeScales) (c0 : Nat)
    (st : Sim × SlpLocals) (hL : st.1.SlpLearn = true) (hP : st.1.PlusPhase = false)
    (hM : st.1.MinusPhase = false) (h0 : st.2.stablecount = 0)
    (hge : ∀ j, j < 5 → (avgLaySim (eng (c0 + j))).ge plusthresh = true) :
    (sleepLoop eng v c0 5 st).1.PlusPhase = true
    ∧ (sleepLoop eng v c0 5 st).1.MinusPhase = false := by
  obtain ⟨iP, iM, iS⟩ := settling_run eng v c0 st hL hP hM h0 4 (by omega)
    (fun j hj => hge j (by omega))
  have iL := sleepLoop_SlpLearn eng v c0 4 st
  rw [hL] at iL
  obtain ⟨fP, fM, _, fL, _, fA, _⟩ := sleepSense_fields (eng (c0 + 4)) (sleepLoop eng v c0 4 st).1
  have hstep := slpLearn_enter_plus (s := sleepSense (eng (c0 + 4)) (sleepLoop eng v c0 4 st).1)
    (l := (sleepLoop eng v c0 4 st).2) (by rw [fL, iL]) (by rw [fP, iP]) (by rw [fM, iM])
    (by rw [fA]; exact hge 4 (by omega)) iS
  obtain ⟨bP, bM, _, _, _⟩ := sleepBody_fields (eng (c0 + 4)) v (c0 + 4) (sleepLoop eng v c0 4 st)
  rw [sleepLoop_succ, bP, bM, hstep]
  exact ⟨rfl, by simp [Sim.callAll, fM, iM]⟩

/-- C1: from Settling with `stablecount = 0`, while `AvgLaySim >= plusthresh`
step after step, the detector is still in Settling after each of the first four
iterations (with `stablecount` the number of iterations) and `PlusPhase` is true
after the fifth; and when `n` such iterations, `1 <= n <= 4`, are followed by one
with `AvgLaySim < plusthresh`, the detector is in Settling after it with
`stablecount = 0`. -/
theorem C1_debounce (eng : Nat → List Layer) (v : TimeScales) (c0 : Nat)
    (st : Sim × SlpLocals) (hL : st.1.SlpLearn = true) (hP : st.1.PlusPhase = false)
    (hM : st.1.MinusPhase = false) (h0 : st.2.stablecount = 0) (n : Nat) (hn : n ≤ 5)
    (hge : ∀ j, j < n → (avgLaySim (eng (c0 + j))).ge plusthresh = true) :
    (n < 5 → (sleepLoop eng v c0 n st).1.PlusPhase = false
      ∧ (sleepLoop eng v c0 n st).1.MinusPhase = false
      ∧ (sleepLoop eng v c0 n st).2.stablecount = n)
    ∧ (n = 5 → (sleepLoop eng v c0 n st).1.PlusPhase = true
      ∧ (sleepLoop eng v c0 n st).1.MinusPhase = false)
    ∧ (1 ≤ n → n ≤ 4 → (avgLaySim (eng (c0 + n))).lt plusthresh = true →
      (sleepLoop eng v c0 (n + 1) st).1.PlusPhase = false
      ∧ (sleepLoop eng v c0 (n + 1) st).1.MinusPhase = false
      ∧ (sleepLoop eng v c0 (n + 1) st).2.stablecount = 0) := by
  refine ⟨fun h5 => settling_run eng v c0 st hL hP hM h0 n (by omega) hge, ?_, ?_⟩
  · intro h5
    subst h5
    exact plus_after_five eng v c0 st hL hP hM h0 hge
  · intro _ h4 hlt
    obtain ⟨iP, iM, _⟩ := settling_run eng v c0 st hL hP hM h0 n h4 hge
    have iL := sleepLoop_SlpLearn eng v c0 n st
    rw [hL] at iL
    obtain ⟨fP, fM, _, fL, _, fA, _⟩ := sleepSense_fields (eng (c0 + n)) (sleepLoop eng v c0 n st).1
    have hstep := slpLearn_settle_lt (s := sleepSense (eng (c0 + n)) (sleepLoop eng v c0 n st).1)
      (l := (sleepLoop eng v c0 n st).2) (by rw [fL, iL]) (by rw [fP, iP]) (by rw [fM, iM])
      (by rw [fA]; exact hlt)
    obtain ⟨bP, bM, _, _, bl⟩ := sleepBody_fields (eng (c0 + n)) v (c0 + n) (sleepLoop eng v c0 n st)
    rw [sleepLoop_succ, bP, bM, bl, hstep]
    exact ⟨by rw [fP, iP], by rw [fM, iM], rfl⟩

/-- C1 on two sessions of a ten-layer network: similarity 1 for five cycles,
and similarity 1 for three cycles followed by one cycle at 0. -/
theorem C1_debounce_witness :
    (sleepLoop (fun _ => tenLayers (GoFloat.fin 1)) TimeScales.Cycle 0 5
        (newSim [], zeroLocals)).1.PlusPhase = true
    ∧ (sleepLoop (fun c => if c < 3 then tenLayers (GoFloat.fin 1) else tenLayers (GoFloat.fin 0))
        TimeScales.Cycle 0 4 (newSim [], zeroLocals)).2.stablecount = 0 :=
  ⟨((C1_debounce (fun _ => tenLayers (GoFloat.fin 1)) TimeScales.Cycle 0
      (newSim [], zeroLocals) rfl rfl rfl rfl 5 (le_refl 5)
      (fun _ _ => by rw [avgLaySim_tenLayers]; exact one_ge_plusthresh)).2.1 rfl).1,
   ((C1_debounce (fun c => if c < 3 then tenLayers (GoFloat.fin 1) else tenLayers (GoFloat.fin 0))
      TimeScales.Cycle 0 (newSim [], zeroLocals) rfl rfl rfl rfl 3 (by decide)
      (fun j hj => by
        have h : 0 + j < 3 := by omega
        simp only [if_pos h, avgLaySim_tenLayers]
        exact one_ge_plusthresh)).2.2 (by decide) (by decide)
      (by
        have h : ¬ (0 + 3 < 3) := by decide
        simp only [if_neg h, avgLaySim_tenLayers]
        exact zero_lt_plusthresh)).2.2⟩

/-! ## The invariant of the phase detector -/

theorem thresh_cases (a : GoFloat) :
    a.ge plusthresh = true
    ∨ (a.lt plusthresh = true ∧ a.ge minusthresh = true)
    ∨ a.lt minusthresh = true
    ∨ (a.ge plusthresh = false ∧ a.lt plusthresh = false ∧ a.ge minusthresh = false
        ∧ a.lt minusthresh = false) := by
  rcases a with _ | s | q
  · right; right; right
    simp [GoFloat.ge, GoFloat.le, GoFloat.lt, plusthresh, minusthresh]
  · cases s
    · left
      simp [GoFloat.ge, GoFloat.le, plusthresh]
    · right; right; left
      simp [GoFloat.lt, minusthresh]
  · simp only [GoFloat.ge, GoFloat.le, GoFloat.lt, plusthresh, minusthresh, decide_eq_true_eq]
    by_cases h1 : (4503596533045033 / 4503599627370496 : ℚ) ≤ q
    · exact Or.inl h1
    · by_cases h2 : (35148970028279 / 35184372088832 : ℚ) ≤ q
      · exact Or.inr (Or.inl ⟨lt_of_not_le h1, h2⟩)
      · exact Or.inr (Or.inr (Or.inl (lt_of_not_le h2)))

theorem slpLearn_idle {s : Sim} {l : SlpLocals}
    (h1 : s.AvgLaySim.ge plusthresh = false) (h2 : s.AvgLaySim.lt plusthresh = false)
    (h3 : s.AvgLaySim.ge minusthresh = false) (h4 : s.AvgLaySim.lt minusthresh = false) :
    slpLearn s l = (s, l) := by
  simp [slpLearn, markPhase, checkStable, h1, h2, h3, h4]

theorem slpLearn_off {s : Sim} {l : SlpLocals} (hL : s.SlpLearn = false) :
    slpLearn s l = (s, l) := by
  simp [slpLearn, hL]

theorem slpLearn_inv (s : Sim) (l : SlpLocals) (h : PhaseInv (s, l)) :
    PhaseInv (slpLearn s l) := by
  cases hL : s.SlpLearn
  · rw [slpLearn_off hL]
    exact h
  obtain ⟨hp, hm, hs⟩ := h
  simp only at hp hm hs
  rcases thresh_cases s.AvgLaySim with c | ⟨c1, c2⟩ | c | ⟨c1, c2, c3, c4⟩
  · cases hP : s.PlusPhase
    · cases hM : s.MinusPhase
      · obtain ⟨a1, a2, a3⟩ := hs hP hM
        by_cases h4 : l.stablecount = 4
        · rw [slpLearn_enter_plus hL hP hM c h4]
          simp [PhaseInv, Sim.callAll, hM]
        · rw [slpLearn_settle_ge hL hP hM c h4]
          simp only [PhaseInv, hP, hM]
          simp
          omega
      · obtain ⟨_, a1, a2, a3⟩ := hm hM
        rw [slpLearn_minus_ge hL hP hM (ge_minus_of_ge_plus c)]
        simp only [PhaseInv, Sim.callAll, hP, hM]
        simp
        omega
    · obtain ⟨a0, a1, a2, a3⟩ := hp hP
      rw [slpLearn_plus_ge hL hP (by omega) c]
      simp only [PhaseInv, Sim.callAll, hP, a0]
      simp
      omega
  · cases hP : s.PlusPhase
    · cases hM : s.MinusPhase
      · obtain ⟨a1, a2, a3⟩ := hs hP hM
        rw [slpLearn_settle_lt hL hP hM c1]
        simp only [PhaseInv, hP, hM]
        simp
        omega
      · obtain ⟨_, a1, a2, a3⟩ := hm hM
        rw [slpLearn_minus_ge hL hP hM c2]
        simp only [PhaseInv, Sim.callAll, hP, hM]
        simp
        omega
    · obtain ⟨a0, a1, a2, a3⟩ := hp hP
      rw [slpLearn_plus_mid hL hP c1 c2]
      simp only [PhaseInv, Sim.callAll]
      simp
      omega
  · cases hP : s.PlusPhase
    · cases hM : s.MinusPhase
      · obtain ⟨a1, a2, a3⟩ := hs hP hM
        rw [slpLearn_settle_lt hL hP hM (lt_plus_of_lt_minus c)]
        simp only [PhaseInv, hP, hM]
        simp
        omega
      · obtain ⟨_, a1, a2, a3⟩ := hm hM
        rw [slpLearn_minus_low hL hP hM c, slpDWtLoop_eq]
        simp only [PhaseInv, Sim.callAll, hP]
        simp
        omega
    · obtain ⟨a0, a1, a2, a3⟩ := hp hP
      rw [slpLearn_plus_low hL hP a0 c]
      simp [PhaseInv, a0]
  · rw [slpLearn_idle c1 c2 c3 c4]
    exact ⟨hp, hm, hs⟩

theorem sleepBody_inv (lys : List Layer) (v : TimeScales) (cyc : Nat) (st : Sim × SlpLocals)
    (h : PhaseInv st) : PhaseInv (sleepBody lys v cyc st) := by
  obtain ⟨fP, fM, _⟩ := sleepSense_fields lys st.1
  have h1 : PhaseInv (sleepSense lys st.1, st.2) := by
    unfold PhaseInv at h ⊢
    simp only [fP, fM]
    exact h
  have h2 := slpLearn_inv _ _ h1
  obtain ⟨bP, bM, _, _, bl⟩ := sleepBody_fields lys v cyc st
  unfold PhaseInv at h2 ⊢
  rw [bP, bM, bl]
  exact h2

theorem sleepLoop_inv (eng : Nat → List Layer) (v : TimeScales) (c0 n : Nat)
    (st : Sim × SlpLocals) (h : PhaseInv st) : PhaseInv (sleepLoop eng v c0 n st) := by
  induction n with
  | zero => exact h
  | succ n ih => exact sleepBody_inv _ _ _ _ ih

theorem sleepPre_fields (ss : Sim) :
    (sleepPre ss).1.PlusPhase = ss.PlusPhase
    ∧ (sleepPre ss).1.MinusPhase = ss.MinusPhase
    ∧ (sleepPre ss).1.SlpLearn = ss.SlpLearn
    ∧ (sleepPre ss).1.SlpTrls = 0
    ∧ (sleepPre ss).2 = zeroLocals := by
  simp [sleepPre, Sim.call, perlys, zeroLocals]

theorem sleepAt_inv (eng : Nat → List Layer) (ss : Sim) (hP : ss.PlusPhase = false)
    (hM : ss.MinusPhase = false) (n : Nat) : PhaseInv (sleepAt eng ss n) := by
  apply sleepLoop_inv
  obtain ⟨pP, pM, _, _, pl⟩ := sleepPre_fields ss
  unfold PhaseInv
  rw [pP, pM, pl, hP, hM]
  simp [zeroLocals]

/-! ## The calls of one iteration -/

theorem callsSince_of_eq {a b : Sim} {X : List Call} (h : b.calls = a.calls ++ X) :
    callsSince a b = X := by
  simp [callsSince, h]

theorem sleepBody_calls (lys : List Layer) (v : TimeScales) (cyc : Nat)
    (st : Sim × SlpLocals) :
    ∃ V, (∀ c ∈ V, c = Call.UpdateView true)
      ∧ (sleepBody lys v cyc st).1.calls = st.1.calls
        ++ ([Call.WtFmDWt, Call.Cycle true, Call.UpdateView true, Call.LogSlpCyc]
          ++ callsSince (sleepSense lys st.1) (slpLearn (sleepSense lys st.1) st.2).1
          ++ [Call.CycleInc, Call.UpdateView true] ++ V) := by
  obtain ⟨D, hD, _⟩ := slpLearn_calls (sleepSense lys st.1) st.2
  obtain ⟨V, hV, hVl⟩ := sleepView_calls v cyc
    (((slpLearn (sleepSense lys st.1) st.2).1.call Call.CycleInc).call (Call.UpdateView true))
  refine ⟨V, hVl, ?_⟩
  have hsb : (sleepBody lys v cyc st).1 = sleepView v cyc
      (((slpLearn (sleepSense lys st.1) st.2).1.call Call.CycleInc).call
        (Call.UpdateView true)) := rfl
  rw [hsb, hV, callsSince_of_eq hD]
  simp only [Sim.call, hD, sleepSense_calls, List.append_assoc,
    List.singleton_append, List.cons_append, List.nil_append]

/-- A filter that lets none of the bookkeeping calls through sees, in an
iteration, only the calls of the phase detector. -/
theorem filter_sleepBody (p : Call → Bool) (h1 : p Call.WtFmDWt = false)
    (h2 : p (Call.Cycle true) = false) (h3 : p (Call.UpdateView true) = false)
    (h4 : p Call.LogSlpCyc = false) (h5 : p Call.CycleInc = false)
    (lys : List Layer) (v : TimeScales) (cyc : Nat) (st : Sim × SlpLocals) :
    (callsSince st.1 (sleepBody lys v cyc st).1).filter p
      = (callsSince (sleepSense lys st.1) (slpLearn (sleepSense lys st.1) st.2).1).filter p := by
  obtain ⟨V, hVl, hb⟩ := sleepBody_calls lys v cyc st
  have hVf : V.filter p = [] :=
    filter_eq_nil_of_forall (fun c hc => by rw [hVl c hc]; exact h3)
  rw [callsSince_of_eq hb]
  simp [List.filter_append, hVf, h1, h2, h3, h4, h5]

theorem filter_forLayers (p : Call → Bool) (layers : List Layer)
    (f : Nat → Layer → List Call) :
    (forLayers layers f).filter p = forLayers layers (fun i ly => (f i ly).filter p) := by
  unfold forLayers
  generalize layers.enum = L
  induction L with
  | nil => rfl
  | cons a L ih => simp [List.filter_append, ih]

theorem forLayers_nil (layers : List Layer) :
    forLayers layers (fun _ _ => []) = [] := by
  unfold forLayers
  generalize layers.enum = L
  induction L with
  | nil => rfl
  | cons a L ih => simp [ih]

theorem forLayers_singleton (layers : List Layer) (g : Nat → Call) :
    forLayers layers (fun i _ => [g i]) = layers.enum.map (fun q => g q.1) := by
  unfold forLayers
  generalize layers.enum = L
  induction L with
  | nil => rfl
  | cons a L ih => simpa using ih

theorem sleepAt_succ (eng : Nat → List Layer) (ss : Sim) (n : Nat) :
    sleepAt eng ss (n + 1) = sleepBody (eng n) ss.SleepUpdt n (sleepAt eng ss n) := by
  simp [sleepAt, sleepLoop]

theorem sleepAt_SlpLearn (eng : Nat → List Layer) (ss : Sim) (n : Nat) :
    (sleepAt eng ss n).1.SlpLearn = ss.SlpLearn := by
  unfold sleepAt
  rw [sleepLoop_SlpLearn, (sleepPre_fields ss).2.2.1]

/-- What one iteration of a session does, in terms of the state `s` that its
phase detector starts from. -/
theorem sleepAt_step (eng : Nat → List Layer) (ss : Sim) (n : Nat) :
    ∃ s : Sim, s.PlusPhase = (sleepAt eng ss n).1.PlusPhase
      ∧ s.MinusPhase = (sleepAt eng ss n).1.MinusPhase
      ∧ s.SlpTrls = (sleepAt eng ss n).1.SlpTrls
      ∧ s.SlpLearn = ss.SlpLearn
      ∧ eng n = s.Layers
      ∧ avgLaySim (eng n) = s.AvgLaySim
      ∧ (sleepAt eng ss (n + 1)).1.PlusPhase = (slpLearn s (sleepAt eng ss n).2).1.PlusPhase
      ∧ (sleepAt eng ss (n + 1)).1.MinusPhase = (slpLearn s (sleepAt eng ss n).2).1.MinusPhase
      ∧ (sleepAt eng ss (n + 1)).1.SlpTrls = (slpLearn s (sleepAt eng ss n).2).1.SlpTrls
      ∧ (sleepAt eng ss (n + 1)).2 = (slpLearn s (sleepAt eng ss n).2).2
      ∧ ∀ p : Call → Bool, p Call.WtFmDWt = false → p (Call.Cycle true) = false →
          p (Call.UpdateView true) = false → p Call.LogSlpCyc = false →
          p Call.CycleInc = false →
          (callsSince (sleepAt eng ss n).1 (sleepAt eng ss (n + 1)).1).filter p
            = (callsSince s (slpLearn s (sleepAt eng ss n).2).1).filter p := by
  obtain ⟨fP, fM, fT, fL, fLy, fA, _⟩ := sleepSense_fields (eng n) (sleepAt eng ss n).1
  obtain ⟨bP, bM, bT, _, bl⟩ := sleepBody_fields (eng n) ss.SleepUpdt n (sleepAt eng ss n)
  refine ⟨sleepSense (eng n) (sleepAt eng ss n).1, fP, fM, fT, ?_, fLy.symm, fA.symm, ?_, ?_,
    ?_, ?_, ?_⟩
  · rw [fL, sleepAt_SlpLearn]
  · rw [sleepAt_succ, bP]
  · rw [sleepAt_succ, bM]
  · rw [sleepAt_succ, bT]
  · rw [sleepAt_succ, bl]
  · intro p h1 h2 h3 h4 h5
    rw [sleepAt_succ]
    exact filter_sleepBody p h1 h2 h3 h4 h5 _ _ _ _

theorem callsSince_self (s : Sim) : callsSince s s = [] := by
  simp [callsSince]

theorem callsSince_callAll (s t : Sim) (X : List Call) (h : t.calls = s.calls) :
    callsSince s (t.callAll X) = X := by
  simp [callsSince, Sim.callAll, h]

theorem filter_slpDWtCalls_of (p : Call → Bool) (h : ∀ i j, p (Call.SlpDWt i j) = false)
    (i : Nat) (ly : Layer) : (slpDWtCalls i ly).filter p = [] := by
  apply filter_eq_nil_of_forall
  intro c hc
  obtain ⟨j, rfl⟩ := mem_slpDWtCalls hc
  exact h i j

/-! ## Plus to Minus -/

/-- An iteration that starts in Minus makes no `CalcActP` call. -/
theorem minus_step_no_CalcActP (eng : Nat → List Layer) (ss : Sim)
    (hP0 : ss.PlusPhase = false) (hM0 : ss.MinusPhase = false) (m : Nat)
    (hM : (sleepAt eng ss m).1.MinusPhase = true) :
    (callsSince (sleepAt eng ss m).1 (sleepAt eng ss (m + 1)).1).filter Call.isCalcActP = [] := by
  obtain ⟨hP, _, _, _⟩ := (sleepAt_inv eng ss hP0 hM0 m).2.1 hM
  obtain ⟨s, fP, fM, _, _, _, _, _, _, _, _, hf⟩ := sleepAt_step eng ss m
  rw [hf Call.isCalcActP rfl rfl rfl rfl rfl]
  generalize (sleepAt eng ss m).2 = l at *
  rw [hP] at fP
  rw [hM] at fM
  cases hL : s.SlpLearn
  · rw [slpLearn_off hL, callsSince_self]
    rfl
  rcases thresh_cases s.AvgLaySim with c | ⟨_, c⟩ | c | ⟨c1, c2, c3, c4⟩
  · rw [slpLearn_minus_ge hL fP fM (ge_minus_of_ge_plus c), callsSince_callAll _ _ _ rfl,
      filter_forLayers]
    simp [Call.isCalcActP, forLayers_nil]
  · rw [slpLearn_minus_ge hL fP fM c, callsSince_callAll _ _ _ rfl, filter_forLayers]
    simp [Call.isCalcActP, forLayers_nil]
  · rw [slpLearn_minus_low hL fP fM c, slpDWtLoop_eq,
      callsSince_of_eq (X := forLayers s.Layers (fun i _ => [Call.CalcActM i l.minuscount])
        ++ forLayers s.Layers slpDWtCalls) (by simp [Sim.callAll]),
      List.filter_append, filter_forLayers, filter_forLayers]
    simp [Call.isCalcActP, forLayers_nil, filter_slpDWtCalls_of Call.isCalcActP (fun _ _ => rfl)]
  · rw [slpLearn_idle c1 c2 c3 c4, callsSince_self]
    rfl

/-- C2: in a session started in Settling, an iteration that starts in Plus
leaves the detector in Minus if and only if
`minusthresh <= AvgLaySim < plusthresh`; that iteration then calls `CalcActP`
exactly once for every layer, with the number of cycles of the plus phase; and
no iteration that starts in Minus calls `CalcActP`. -/
theorem C2_plus_to_minus (eng : Nat → List Layer) (ss : Sim) (n : Nat)
    (hP0 : ss.PlusPhase = false) (hM0 : ss.MinusPhase = false) (hL : ss.SlpLearn = true)
    (hP : (sleepAt eng ss n).1.PlusPhase = true) :
    ((sleepAt eng ss (n + 1)).1.MinusPhase = true
      ↔ ((avgLaySim (eng n)).ge minusthresh = true ∧ (avgLaySim (eng n)).lt plusthresh = true))
    ∧ ((sleepAt eng ss (n + 1)).1.MinusPhase = true →
        (sleepAt eng ss (n + 1)).1.PlusPhase = false
        ∧ (callsSince (sleepAt eng ss n).1 (sleepAt eng ss (n + 1)).1).filter Call.isCalcActP
          = (eng n).enum.map (fun q => Call.CalcActP q.1 (sleepAt eng ss n).2.pluscount))
    ∧ (∀ m, (sleepAt eng ss m).1.MinusPhase = true →
        (callsSince (sleepAt eng ss m).1 (sleepAt eng ss (m + 1)).1).filter Call.isCalcActP
          = []) := by
  obtain ⟨hM, hpc, _, _⟩ := (sleepAt_inv eng ss hP0 hM0 n).1 hP
  obtain ⟨s, fP, fM, _, fL, fLy, fA, bP, bM, _, _, hf⟩ := sleepAt_step eng ss n
  rw [hP] at fP
  rw [hM] at fM
  rw [hL] at fL
  refine ⟨?_, ?_, fun m hm => minus_step_no_CalcActP eng ss hP0 hM0 m hm⟩
  all_goals
    rw [bM]
    try rw [fA]
    try rw [bP, hf Call.isCalcActP rfl rfl rfl rfl rfl, fLy]
    generalize (sleepAt eng ss n).2 = l at *
    rcases thresh_cases s.AvgLaySim with c | ⟨c1, c2⟩ | c | ⟨c1, c2, c3, c4⟩
  · rw [slpLearn_plus_ge fL fP (by omega) c]
    simp [Sim.callAll, fM, GoFloat.lt_false_of_ge c]
  · rw [slpLearn_plus_mid fL fP c1 c2]
    simp [Sim.callAll, c1, c2]
  · rw [slpLearn_plus_low fL fP fM c]
    simp [fM, GoFloat.ge_false_of_lt c]
  · rw [slpLearn_idle c1 c2 c3 c4]
    simp [fM, c3]
  · rw [slpLearn_plus_ge fL fP (by omega) c]
    simp [Sim.callAll, fM]
  · rw [slpLearn_plus_mid fL fP c1 c2]
    intro _
    refine ⟨rfl, ?_⟩
    simp [callsSince, Sim.callAll, filter_forLayers, Call.isCalcActP, forLayers_singleton]
  · rw [slpLearn_plus_low fL fP fM c]
    simp [fM]
  · rw [slpLearn_idle c1 c2 c3 c4]
    simp [fM]

/-! ## Counting the weight updates -/

theorem count_slpDWt_ne (i j k : Nat) (hi : k ≠ i) (L : List (Nat × Prjn)) :
    List.count (Call.SlpDWt i j) (L.map (fun q => Call.SlpDWt k q.1)) = 0 := by
  rw [List.count_eq_zero]
  intro h
  rw [List.mem_map] at h
  obtain ⟨q, _, hq⟩ := h
  injection hq with h1 h2
  exact hi h1

theorem count_slpDWt_prjns (i j : Nat) (P : List Prjn) (k : Nat) :
    List.count (Call.SlpDWt i j)
      (((List.enumFrom k P).filter (fun q => !q.2.Off)).map (fun q => Call.SlpDWt i q.1))
      = if k ≤ j ∧ (match P[j - k]? with | some pj => !pj.Off | none => false) = true
        then 1 else 0 := by
  induction P generalizing k with
  | nil => simp
  | cons p P ih =>
    rw [List.enumFrom_cons, List.filter_cons]
    by_cases hjk : j = k
    · subst hjk
      have h0 : ¬ (j + 1 ≤ j) := by omega
      cases hp : p.Off <;> simp [ih, hp, h0, List.count_cons]
    · by_cases hlt : k ≤ j
      · have h1 : k + 1 ≤ j := by omega
        have h2 : j - k = (j - (k + 1)) + 1 := by omega
        have h3 : ¬ (k = j) := fun h => hjk h.symm
        cases hp : p.Off <;> simp [ih, hp, h1, hlt, h2, h3, List.count_cons]
      · have h1 : ¬ (k + 1 ≤ j) := by omega
        have h3 : ¬ (k = j) := fun h => hjk h.symm
        cases hp : p.Off <;> simp [ih, hp, h1, hlt, h3, List.count_cons]

theorem count_slpDWtCalls (i j : Nat) (ly : Layer) :
    List.count (Call.SlpDWt i j) (slpDWtCalls i ly)
      = if (match ly.SndPrjns[j]? with | some pj => !pj.Off | none => false) = true
        then 1 else 0 := by
  have h := count_slpDWt_prjns i j ly.SndPrjns 0
  simpa [slpDWtCalls, List.enum] using h

theorem count_slpDWt_layers (i j : Nat) (L : List Layer) (k : Nat) :
    List.count (Call.SlpDWt i j)
      (((List.enumFrom k L).map (fun q => slpDWtCalls q.1 q.2)).flatten)
      = if k ≤ i ∧ (match L[i - k]? with
          | some ly =>
            (match ly.SndPrjns[j]? with
              | some pj => !pj.Off
              | none => false)
          | none => false) = true
        then 1 else 0 := by
  induction L generalizing k with
  | nil => simp
  | cons ly L ih =>
    rw [List.enumFrom_cons, List.map_cons, List.flatten_cons, List.count_append, ih]
    by_cases hik : k = i
    · subst hik
      have h0 : ¬ (k + 1 ≤ k) := by omega
      rw [count_slpDWtCalls]
      simp [h0]
    · have hc : List.count (Call.SlpDWt i j) (slpDWtCalls k ly) = 0 :=
        count_slpDWt_ne i j k hik _
      rw [hc]
      by_cases hlt : k ≤ i
      · have h1 : k + 1 ≤ i := by omega
        have h2 : i - k = (i - (k + 1)) + 1 := by omega
        simp [h1, hlt, h2]
      · have h1 : ¬ (k + 1 ≤ i) := by omega
        simp [h1, hlt]

/-- The loop of lines 974-983 calls `SlpDWt` exactly once on every sending
projection that is not off, and on nothing else. -/
theorem count_forLayers_slpDWt (i j : Nat) (L : List Layer) :
    List.count (Call.SlpDWt i j) (forLayers L slpDWtCalls)
      = if prjnOn L i j = true then 1 else 0 := by
  have h := count_slpDWt_layers i j L 0
  simpa [forLayers, List.enum, prjnOn] using h

/-! ## The weight updates of an iteration -/

theorem filter_slpDWtCalls_self (i : Nat) (ly : Layer) :
    (slpDWtCalls i ly).filter Call.isSlpDWt = slpDWtCalls i ly := by
  apply filter_eq_self_of_forall
  intro c hc
  obtain ⟨j, rfl⟩ := mem_slpDWtCalls hc
  rfl

theorem filter_isSlpDWt_forLayers (L : List Layer) :
    (forLayers L slpDWtCalls).filter Call.isSlpDWt = forLayers L slpDWtCalls := by
  rw [filter_forLayers]
  simp only [filter_slpDWtCalls_self]

theorem slpLearn_slpDWt_cases (s : Sim) (l : SlpLocals) :
    (s.MinusPhase = true ∧ (slpLearn s l).1.MinusPhase = false
      ∧ (callsSince s (slpLearn s l).1).filter Call.isSlpDWt = forLayers s.Layers slpDWtCalls
      ∧ (slpLearn s l).1.SlpTrls = s.SlpTrls + (s.Layers.length : Int))
    ∨ (¬ (s.MinusPhase = true ∧ (slpLearn s l).1.MinusPhase = false)
      ∧ (callsSince s (slpLearn s l).1).filter Call.isSlpDWt = []
      ∧ (slpLearn s l).1.SlpTrls = s.SlpTrls) := by
  unfold slpLearn
  split_ifs with hL
  swap
  · right
    simp [callsSince_self]
  unfold markPhase
  split_ifs with h1 h2 h3 h4 h5 h6
  · right
    simp [callsSince, Sim.callAll, filter_forLayers, Call.isSlpDWt, forLayers_nil, h1.2.2.2]
  · right
    cases hM : s.MinusPhase <;>
      simp [callsSince, Sim.callAll, filter_forLayers, Call.isSlpDWt, forLayers_nil, hM]
  · right
    simp [callsSince, Sim.callAll, filter_forLayers, Call.isSlpDWt, forLayers_nil]
  · right
    simp [callsSince, Sim.callAll, filter_forLayers, Call.isSlpDWt, forLayers_nil, h4.2]
  · left
    rw [slpDWtLoop_eq]
    simp [callsSince, Sim.callAll, filter_forLayers, Call.isSlpDWt, forLayers_nil, h5.2,
      List.filter_append, filter_slpDWtCalls_self]
  · right
    cases hM : s.MinusPhase <;> simp [callsSince, hM]
  · right
    cases hM : s.MinusPhase <;> simp [callsSince_self, hM]

/-- An iteration of a session issues weight updates, and counts `SlpTrls` up,
exactly when it completes a Minus phase. -/
theorem sleepAt_slpDWt (eng : Nat → List Layer) (ss : Sim) (n : Nat) :
    (callsSince (sleepAt eng ss n).1 (sleepAt eng ss (n + 1)).1).filter Call.isSlpDWt
        = (if completes eng ss n = true then forLayers (eng n) slpDWtCalls else [])
    ∧ (sleepAt eng ss (n + 1)).1.SlpTrls
        = (sleepAt eng ss n).1.SlpTrls
          + (if completes eng ss n = true then ((eng n).length : Int) else 0) := by
  obtain ⟨s, _, fM, fT, _, fLy, _, _, bM, bT, _, hf⟩ := sleepAt_step eng ss n
  have hc : completes eng ss n = true
      ↔ (s.MinusPhase = true ∧ (slpLearn s (sleepAt eng ss n).2).1.MinusPhase = false) := by
    simp [completes, bM, fM]
  rw [hf Call.isSlpDWt rfl rfl rfl rfl rfl, bT, fLy, ← fT]
  rcases slpLearn_slpDWt_cases s (sleepAt eng ss n).2 with ⟨a1, a2, a3, a4⟩ | ⟨a1, a2, a3⟩
  · rw [if_pos (hc.mpr ⟨a1, a2⟩), if_pos (hc.mpr ⟨a1, a2⟩), a3, a4]
    exact ⟨rfl, rfl⟩
  · have hn : ¬ (completes eng ss n = true) := fun h => a1 (hc.mp h)
    rw [if_neg hn, if_neg hn, a2, a3]
    simp

/-! ## Steps of a session -/

theorem sleepAt_zero (eng : Nat → List Layer) (ss : Sim) : sleepAt eng ss 0 = sleepPre ss := rfl

/-- Plus, then `minusthresh <= AvgLaySim < plusthresh`: Minus. -/
theorem step_plus_mid (eng : Nat → List Layer) (ss : Sim) (n : Nat) (hL : ss.SlpLearn = true)
    (hP : (sleepAt eng ss n).1.PlusPhase = true)
    (hlt : (avgLaySim (eng n)).lt plusthresh = true)
    (hge : (avgLaySim (eng n)).ge minusthresh = true) :
    (sleepAt eng ss (n + 1)).1.PlusPhase = false
    ∧ (sleepAt eng ss (n + 1)).1.MinusPhase = true := by
  obtain ⟨s, fP, _, _, fL, _, fA, bP, bM, _, _, _⟩ := sleepAt_step eng ss n
  rw [bP, bM, slpLearn_plus_mid (by rw [fL, hL]) (by rw [fP, hP]) (by rw [← fA]; exact hlt)
    (by rw [← fA]; exact hge)]
  exact ⟨rfl, rfl⟩

/-- Plus, then `AvgLaySim < minusthresh`: Settling, all counters 0, `SlpTrls`
as before. -/
theorem step_plus_low (eng : Nat → List Layer) (ss : Sim) (n : Nat) (hL : ss.SlpLearn = true)
    (hP : (sleepAt eng ss n).1.PlusPhase = true) (hM : (sleepAt eng ss n).1.MinusPhase = false)
    (hlt : (avgLaySim (eng n)).lt minusthresh = true) :
    (sleepAt eng ss (n + 1)).1.PlusPhase = false
    ∧ (sleepAt eng ss (n + 1)).1.MinusPhase = false
    ∧ (sleepAt eng ss (n + 1)).2 = zeroLocals
    ∧ (sleepAt eng ss (n + 1)).1.SlpTrls = (sleepAt eng ss n).1.SlpTrls
    ∧ (callsSince (sleepAt eng ss n).1 (sleepAt eng ss (n + 1)).1).filter Call.isLearn = [] := by
  obtain ⟨s, fP, fM, fT, fL, _, fA, bP, bM, bT, bl, hf⟩ := sleepAt_step eng ss n
  rw [bP, bM, bT, bl, hf Call.isLearn rfl rfl rfl rfl rfl,
    slpLearn_plus_low (by rw [fL, hL]) (by rw [fP, hP]) (by rw [fM, hM])
      (by rw [← fA]; exact hlt)]
  refine ⟨rfl, by rw [← hM, ← fM], rfl, fT, ?_⟩
  simp [callsSince]

/-- Minus, then `AvgLaySim < minusthresh`: Settling. -/
theorem step_minus_low (eng : Nat → List Layer) (ss : Sim) (n : Nat) (hL : ss.SlpLearn = true)
    (hP : (sleepAt eng ss n).1.PlusPhase = false) (hM : (sleepAt eng ss n).1.MinusPhase = true)
    (hlt : (avgLaySim (eng n)).lt minusthresh = true) :
    (sleepAt eng ss (n + 1)).1.PlusPhase = false
    ∧ (sleepAt eng ss (n + 1)).1.MinusPhase = false := by
  obtain ⟨s, fP, fM, _, fL, _, fA, bP, bM, _, _, _⟩ := sleepAt_step eng ss n
  rw [bP, bM, slpLearn_minus_low (by rw [fL, hL]) (by rw [fP, hP]) (by rw [fM, hM])
    (by rw [← fA]; exact hlt), slpDWtLoop_eq]
  exact ⟨by rw [← hP, ← fP]; rfl, rfl⟩

/-- Minus, then `AvgLaySim >= minusthresh`: still Minus. -/
theorem step_minus_ge (eng : Nat → List Layer) (ss : Sim) (n : Nat) (hL : ss.SlpLearn = true)
    (hP : (sleepAt eng ss n).1.PlusPhase = false) (hM : (sleepAt eng ss n).1.MinusPhase = true)
    (hge : (avgLaySim (eng n)).ge minusthresh = true) :
    (sleepAt eng ss (n + 1)).1.PlusPhase = false
    ∧ (sleepAt eng ss (n + 1)).1.MinusPhase = true := by
  obtain ⟨s, fP, fM, _, fL, _, fA, bP, bM, _, _, _⟩ := sleepAt_step eng ss n
  rw [bP, bM, slpLearn_minus_ge (by rw [fL, hL]) (by rw [fP, hP]) (by rw [fM, hM])
    (by rw [← fA]; exact hge)]
  exact ⟨by rw [← hP, ← fP]; rfl, by rw [← hM, ← fM]; rfl⟩

/-- Settling, then `AvgLaySim < plusthresh`: Settling. -/
theorem step_settle_lt (eng : Nat → List Layer) (ss : Sim) (n : Nat) (hL : ss.SlpLearn = true)
    (hP : (sleepAt eng ss n).1.PlusPhase = false) (hM : (sleepAt eng ss n).1.MinusPhase = false)
    (hlt : (avgLaySim (eng n)).lt plusthresh = true) :
    (sleepAt eng ss (n + 1)).1.PlusPhase = false
    ∧ (sleepAt eng ss (n + 1)).1.MinusPhase = false := by
  obtain ⟨s, fP, fM, _, fL, _, fA, bP, bM, _, _, _⟩ := sleepAt_step eng ss n
  rw [bP, bM, slpLearn_settle_lt (by rw [fL, hL]) (by rw [fP, hP]) (by rw [fM, hM])
    (by rw [← fA]; exact hlt)]
  exact ⟨by rw [← hP, ← fP], by rw [← hM, ← fM]⟩

/-- The first five iterations of a session, when all are at or above
`plusthresh`: Settling before each of them, Plus after the fifth. -/
theorem session_plus_after_five (eng : Nat → List Layer) (ss : Sim)
    (hP0 : ss.PlusPhase = false) (hM0 : ss.MinusPhase = false) (hL : ss.SlpLearn = true)
    (hge : ∀ j, j < 5 → (avgLaySim (eng j)).ge plusthresh = true) :
    (∀ k, k ≤ 4 → (sleepAt eng ss k).1.PlusPhase = false
      ∧ (sleepAt eng ss k).1.MinusPhase = false)
    ∧ (sleepAt eng ss 5).1.PlusPhase = true
    ∧ (sleepAt eng ss 5).1.MinusPhase = false := by
  obtain ⟨pP, pM, pL, _, pl⟩ := sleepPre_fields ss
  have h1 : (sleepPre ss).1.SlpLearn = true := by rw [pL, hL]
  have h2 : (sleepPre ss).1.PlusPhase = false := by rw [pP, hP0]
  have h3 : (sleepPre ss).1.MinusPhase = false := by rw [pM, hM0]
  have h4 : (sleepPre ss).2.stablecount = 0 := by rw [pl]; rfl
  have hge' : ∀ j, j < 5 → (avgLaySim (eng (0 + j))).ge plusthresh = true := by
    intro j hj
    rw [Nat.zero_add]
    exact hge j hj
  refine ⟨fun k hk => ?_, plus_after_five eng ss.SleepUpdt 0 (sleepPre ss) h1 h2 h3 h4 hge'⟩
  obtain ⟨a, b, _⟩ := settling_run eng ss.SleepUpdt 0 (sleepPre ss) h1 h2 h3 h4 k hk
    (fun j hj => hge' j (by omega))
  exact ⟨a, b⟩

theorem midSim_lt_plusthresh : midSim.lt plusthresh = true := by
  simp [GoFloat.lt, plusthresh, midSim]
  norm_num

theorem midSim_ge_minusthresh : midSim.ge minusthresh = true := by
  simp [GoFloat.ge, GoFloat.le, minusthresh, midSim]
  norm_num

theorem avgLaySim_engOf (xs : List GoFloat) (d : GoFloat) (c : Nat) (q : ℚ)
    (h : xs.getD c d = GoFloat.fin q) : avgLaySim (engOf xs d c) = GoFloat.fin q := by
  rw [engOf, h, avgLaySim_tenLayers]

/-- Neither comparison with a threshold holds (a NaN): nothing changes. -/
theorem step_idle (eng : Nat → List Layer) (ss : Sim) (n : Nat)
    (h1 : (avgLaySim (eng n)).ge plusthresh = false)
    (h2 : (avgLaySim (eng n)).lt plusthresh = false)
    (h3 : (avgLaySim (eng n)).ge minusthresh = false)
    (h4 : (avgLaySim (eng n)).lt minusthresh = false) :
    (sleepAt eng ss (n + 1)).1.PlusPhase = (sleepAt eng ss n).1.PlusPhase
    ∧ (sleepAt eng ss (n + 1)).1.MinusPhase = (sleepAt eng ss n).1.MinusPhase := by
  obtain ⟨s, fP, fM, _, _, _, fA, bP, bM, _, _, _⟩ := sleepAt_step eng ss n
  rw [fA] at h1 h2 h3 h4
  rw [bP, bM, slpLearn_idle h1 h2 h3 h4]
  exact ⟨fP, fM⟩

/-! ## The example sessions -/

theorem cycleEng_ge (j : Nat) (hj : j < 5) : (avgLaySim (cycleEng j)).ge plusthresh = true := by
  have h : avgLaySim (cycleEng j) = GoFloat.fin 1 := by
    interval_cases j <;> exact avgLaySim_engOf _ _ _ 1 rfl
  rw [h]
  exact one_ge_plusthresh

theorem cycleEng_five : avgLaySim (cycleEng 5) = midSim :=
  avgLaySim_engOf _ _ _ (1999 / 2000) rfl

theorem cycleEng_late (c : Nat) (hc : 6 ≤ c) : avgLaySim (cycleEng c) = GoFloat.fin 0 := by
  apply avgLaySim_engOf
  rw [List.getD_eq_default]
  simpa using hc

theorem abortEng_ge (j : Nat) (hj : j < 5) : (avgLaySim (abortEng j)).ge plusthresh = true := by
  have h : avgLaySim (abortEng j) = GoFloat.fin 1 := by
    interval_cases j <;> exact avgLaySim_engOf _ _ _ 1 rfl
  rw [h]
  exact one_ge_plusthresh

theorem abortEng_late (c : Nat) (hc : 5 ≤ c) : avgLaySim (abortEng c) = GoFloat.fin 0 := by
  apply avgLaySim_engOf
  rw [List.getD_eq_default]
  simpa using hc

theorem cycleEng_plus (L : List Layer) :
    (sleepAt cycleEng (newSim L) 5).1.PlusPhase = true
    ∧ (sleepAt cycleEng (newSim L) 5).1.MinusPhase = false :=
  (session_plus_after_five cycleEng (newSim L) rfl rfl rfl cycleEng_ge).2

theorem cycleEng_minus (L : List Layer) :
    (sleepAt cycleEng (newSim L) 6).1.PlusPhase = false
    ∧ (sleepAt cycleEng (newSim L) 6).1.MinusPhase = true :=
  step_plus_mid cycleEng (newSim L) 5 rfl (cycleEng_plus L).1
    (by rw [cycleEng_five]; exact midSim_lt_plusthresh)
    (by rw [cycleEng_five]; exact midSim_ge_minusthresh)

theorem abortEng_plus (L : List Layer) :
    (sleepAt abortEng (newSim L) 5).1.PlusPhase = true
    ∧ (sleepAt abortEng (newSim L) 5).1.MinusPhase = false :=
  (session_plus_after_five abortEng (newSim L) rfl rfl rfl abortEng_ge).2

/-- C2 on the example session: Plus after five cycles at similarity 1, Minus
after the sixth at 0.9995. -/
theorem C2_plus_to_minus_witness :
    (sleepAt cycleEng (newSim []) 5).1.PlusPhase = true
    ∧ (sleepAt cycleEng (newSim []) 6).1.MinusPhase = true :=
  ⟨(cycleEng_plus []).1,
   (C2_plus_to_minus cycleEng (newSim []) 5 rfl rfl rfl (cycleEng_plus []).1).1.mpr
     ⟨by rw [cycleEng_five]; exact midSim_ge_minusthresh,
      by rw [cycleEng_five]; exact midSim_lt_plusthresh⟩⟩

/-! ## Minus to Settling -/

/-- C3: in a session started in Settling, an iteration that starts in Minus
leaves the detector in Settling if and only if `AvgLaySim < minusthresh`; that
iteration then calls `CalcActM` exactly once for every layer, and `SlpDWt`
exactly once on every sending projection that is not off and on no other. -/
theorem C3_minus_to_settling (eng : Nat → List Layer) (ss : Sim) (n : Nat)
    (hP0 : ss.PlusPhase = false) (hM0 : ss.MinusPhase = false) (hL : ss.SlpLearn = true)
    (hM : (sleepAt eng ss n).1.MinusPhase = true) :
    (((sleepAt eng ss (n + 1)).1.PlusPhase = false
        ∧ (sleepAt eng ss (n + 1)).1.MinusPhase = false)
      ↔ (avgLaySim (eng n)).lt minusthresh = true)
    ∧ ((avgLaySim (eng n)).lt minusthresh = true →
        (callsSince (sleepAt eng ss n).1 (sleepAt eng ss (n + 1)).1).filter Call.isCalcActM
          = (eng n).enum.map (fun q => Call.CalcActM q.1 (sleepAt eng ss n).2.minuscount)
        ∧ ∀ i j, (callsSince (sleepAt eng ss n).1 (sleepAt eng ss (n + 1)).1).count
            (Call.SlpDWt i j) = if prjnOn (eng n) i j = true then 1 else 0) := by
  obtain ⟨hP, _, _, _⟩ := (sleepAt_inv eng ss hP0 hM0 n).2.1 hM
  refine ⟨⟨fun h => ?_, fun h => step_minus_low eng ss n hL hP hM h⟩, fun h => ⟨?_, ?_⟩⟩
  · rcases thresh_cases (avgLaySim (eng n)) with c | ⟨_, c⟩ | c | ⟨c1, c2, c3, c4⟩
    · have h2 := (step_minus_ge eng ss n hL hP hM (ge_minus_of_ge_plus c)).2
      rw [h.2] at h2
      exact absurd h2 (by decide)
    · have h2 := (step_minus_ge eng ss n hL hP hM c).2
      rw [h.2] at h2
      exact absurd h2 (by decide)
    · exact c
    · have h2 := (step_idle eng ss n c1 c2 c3 c4).2
      rw [h.2, hM] at h2
      exact absurd h2 (by decide)
  · obtain ⟨s, fP, fM, _, fL, fLy, fA, _, _, _, _, hf⟩ := sleepAt_step eng ss n
    rw [hf Call.isCalcActM rfl rfl rfl rfl rfl, fLy,
      slpLearn_minus_low (by rw [fL, hL]) (by rw [fP, hP]) (by rw [fM, hM])
        (by rw [← fA]; exact h), slpDWtLoop_eq]
    simp [callsSince, Sim.callAll, List.filter_append, filter_forLayers, Call.isCalcActM,
      forLayers_singleton, forLayers_nil,
      filter_slpDWtCalls_of Call.isCalcActM (fun _ _ => rfl)]
    intro a x ly _ ha
    subst ha
    rfl
  · intro i j
    have hc : completes eng ss n = true := by
      simp [completes, hM, (step_minus_low eng ss n hL hP hM h).2]
    have h1 := (sleepAt_slpDWt eng ss n).1
    rw [if_pos hc] at h1
    rw [← List.count_filter (p := Call.isSlpDWt) (a := Call.SlpDWt i j) rfl, h1,
      count_forLayers_slpDWt]

/-- C3 on the example session: Minus after the sixth cycle, Settling after the
seventh, at similarity 0. -/
theorem C3_minus_to_settling_witness :
    (sleepAt cycleEng (newSim []) 6).1.MinusPhase = true
    ∧ (sleepAt cycleEng (newSim []) 7).1.PlusPhase = false
    ∧ (sleepAt cycleEng (newSim []) 7).1.MinusPhase = false :=
  ⟨(cycleEng_minus []).2,
   (C3_minus_to_settling cycleEng (newSim []) 6 rfl rfl rfl (cycleEng_minus []).2).1.mpr
     (by rw [cycleEng_late 6 (le_refl 6)]; exact zero_lt_minusthresh)⟩

/-! ## The calls and the trial counter over a session -/

theorem sleepPre_calls (ss : Sim) :
    (sleepPre ss).1.calls = ss.calls ++ [Call.WtFmDWt, Call.GScaleFmAvgAct, Call.InitGInc] := by
  simp [sleepPre, Sim.call, perlys]

theorem sleepAt_extends (eng : Nat → List Layer) (ss : Sim) (n : Nat) :
    ∃ X, (sleepAt eng ss (n + 1)).1.calls = (sleepAt eng ss n).1.calls ++ X := by
  obtain ⟨V, _, hb⟩ := sleepBody_calls (eng n) ss.SleepUpdt n (sleepAt eng ss n)
  rw [sleepAt_succ]
  exact ⟨_, hb⟩

theorem sleepAt_prefix (eng : Nat → List Layer) (ss : Sim) (n : Nat) :
    ∃ X, (sleepAt eng ss n).1.calls = ss.calls ++ X := by
  induction n with
  | zero => exact ⟨_, sleepPre_calls ss⟩
  | succ n ih =>
    obtain ⟨X, hX⟩ := ih
    obtain ⟨Y, hY⟩ := sleepAt_extends eng ss n
    exact ⟨X ++ Y, by rw [hY, hX, List.append_assoc]⟩

theorem callsSince_split {a b c : Sim} {X Y : List Call} (h1 : b.calls = a.calls ++ X)
    (h2 : c.calls = b.calls ++ Y) : callsSince a c = callsSince a b ++ callsSince b c := by
  rw [callsSince_of_eq h1, callsSince_of_eq h2,
    callsSince_of_eq (X := X ++ Y) (by rw [h2, h1, List.append_assoc])]

/-- The weight updates of the first `m` iterations are those of the iterations
that complete a Minus phase, in order. -/
theorem session_slpDWt (eng : Nat → List Layer) (ss : Sim) (m : Nat) :
    (callsSince ss (sleepAt eng ss m).1).filter Call.isSlpDWt
      = (((List.range m).filter (fun c => completes eng ss c)).map
          (fun c => forLayers (eng c) slpDWtCalls)).flatten := by
  induction m with
  | zero =>
    rw [sleepAt_zero, callsSince_of_eq (sleepPre_calls ss)]
    rfl
  | succ m ih =>
    obtain ⟨X, hX⟩ := sleepAt_prefix eng ss m
    obtain ⟨Y, hY⟩ := sleepAt_extends eng ss m
    rw [callsSince_split hX hY, List.filter_append, ih, (sleepAt_slpDWt eng ss m).1,
      List.range_succ, List.filter_append, List.map_append, List.flatten_append]
    congr 1
    cases hc : completes eng ss m <;> simp [hc]

/-- `SlpTrls` does not change over iterations that do not start in Minus. -/
theorem slpTrls_no_minus (eng : Nat → List Layer) (ss : Sim) (n d : Nat)
    (h : ∀ k, n ≤ k → k < n + d → (sleepAt eng ss k).1.MinusPhase = false) :
    (sleepAt eng ss (n + d)).1.SlpTrls = (sleepAt eng ss n).1.SlpTrls := by
  induction d with
  | zero => rfl
  | succ d ih =>
    have hc : ¬ (completes eng ss (n + d) = true) := by
      simp [completes, h (n + d) (by omega) (by omega)]
    rw [← Nat.add_assoc, (sleepAt_slpDWt eng ss (n + d)).2, if_neg hc,
      ih (fun k h1 h2 => h k h1 (by omega))]
    simp

/-- Once in Settling, the detector stays there as long as `AvgLaySim` stays
below `plusthresh`. -/
theorem settling_stays (eng : Nat → List Layer) (ss : Sim) (hL : ss.SlpLearn = true) (n d : Nat)
    (hP : (sleepAt eng ss n).1.PlusPhase = false) (hM : (sleepAt eng ss n).1.MinusPhase = false)
    (h : ∀ k, n ≤ k → k < n + d → (avgLaySim (eng k)).lt plusthresh = true) :
    (sleepAt eng ss (n + d)).1.PlusPhase = false
    ∧ (sleepAt eng ss (n + d)).1.MinusPhase = false := by
  induction d with
  | zero => exact ⟨hP, hM⟩
  | succ d ih =>
    obtain ⟨iP, iM⟩ := ih (fun k h1 h2 => h k h1 (by omega))
    rw [← Nat.add_assoc]
    exact step_settle_lt eng ss (n + d) hL iP iM (h (n + d) (by omega) (by omega))

theorem sleepPost_fields (st : Sim × SlpLocals) :
    (sleepPost st).PlusPhase = false
    ∧ (sleepPost st).MinusPhase = false
    ∧ (sleepPost st).SlpTrls = st.1.SlpTrls := by
  cases hV : st.1.ViewOn <;> simp [sleepPost, Sim.call, perlysCA1, hV]

theorem sleepPost_calls (st : Sim × SlpLocals) :
    ∃ V, (sleepPost st).calls = st.1.calls ++ V ∧ ∀ c ∈ V, c.isLearn = false := by
  cases hV : st.1.ViewOn
  · refine ⟨[Call.GScaleFmAvgAct, Call.InitGInc], ?_, ?_⟩
    · simp [sleepPost, Sim.call, perlysCA1, hV]
    · intro c hc
      simp only [List.mem_cons, List.mem_singleton, List.not_mem_nil, or_false] at hc
      rcases hc with rfl | rfl <;> rfl
  · refine ⟨[Call.GScaleFmAvgAct, Call.InitGInc, Call.UpdateView true], ?_, ?_⟩
    · simp [sleepPost, Sim.call, perlysCA1, hV]
    · intro c hc
      simp only [List.mem_cons, List.mem_singleton, List.not_mem_nil, or_false] at hc
      rcases hc with rfl | rfl | rfl <;> rfl

theorem SleepCyc_eq (eng : Nat → List Layer) (ss : Sim) :
    SleepCyc eng ss = sleepPost (sleepAt eng ss sleepCycles) := rfl

theorem isLearn_of_isSlpDWt (c : Call) (h : c.isLearn = false) : c.isSlpDWt = false := by
  cases c <;> first | rfl | exact absurd h (by simp [Call.isLearn])

theorem SleepCyc_slpDWt (eng : Nat → List Layer) (ss : Sim) :
    (callsSince ss (SleepCyc eng ss)).filter Call.isSlpDWt
      = (callsSince ss (sleepAt eng ss sleepCycles).1).filter Call.isSlpDWt := by
  obtain ⟨X, hX⟩ := sleepAt_prefix eng ss sleepCycles
  obtain ⟨V, hV, hVl⟩ := sleepPost_calls (sleepAt eng ss sleepCycles)
  rw [SleepCyc_eq, callsSince_split hX hV, List.filter_append, callsSince_of_eq hV,
    filter_eq_nil_of_forall (fun c hc => isLearn_of_isSlpDWt c (hVl c hc)), List.append_nil]

/-- Over iterations none of which starts in Minus there is no weight update,
and `SlpTrls` stays 0. -/
theorem session_no_minus (eng : Nat → List Layer) (ss : Sim) (m : Nat)
    (h : ∀ k, k < m → (sleepAt eng ss k).1.MinusPhase = false) :
    (callsSince ss (sleepAt eng ss m).1).filter Call.isSlpDWt = []
    ∧ (sleepAt eng ss m).1.SlpTrls = 0 := by
  constructor
  · rw [session_slpDWt]
    have hf : (List.range m).filter (fun c => completes eng ss c) = [] := by
      rw [List.filter_eq_nil_iff]
      intro c hc
      rw [List.mem_range] at hc
      simp [completes, h c hc]
    rw [hf]
    rfl
  · have h1 := slpTrls_no_minus eng ss 0 m (fun k _ hk => h k (by omega))
    rw [Nat.zero_add] at h1
    rw [h1, sleepAt_zero, (sleepPre_fields ss).2.2.2.1]

/-! ## Abort -/

/-- C5: in a session started in Settling, an iteration that starts in Plus with
`AvgLaySim < minusthresh` leaves the detector in Settling with the three
counters at 0, makes no call on sums, averages or weights and leaves `SlpTrls`
as it is; so after five iterations at or above `plusthresh` and one below
`minusthresh` there has been no `SlpDWt` and `SlpTrls = 0`, and the same holds
at the end of `SleepCyc` when the similarity stays below `plusthresh` from
then on. -/
theorem C5_abort (eng : Nat → List Layer) (ss : Sim)
    (hP0 : ss.PlusPhase = false) (hM0 : ss.MinusPhase = false) (hL : ss.SlpLearn = true) :
    (∀ n, (sleepAt eng ss n).1.PlusPhase = true →
      (avgLaySim (eng n)).lt minusthresh = true →
      (sleepAt eng ss (n + 1)).1.PlusPhase = false
      ∧ (sleepAt eng ss (n + 1)).1.MinusPhase = false
      ∧ (sleepAt eng ss (n + 1)).2 = zeroLocals
      ∧ (sleepAt eng ss (n + 1)).1.SlpTrls = (sleepAt eng ss n).1.SlpTrls
      ∧ (callsSince (sleepAt eng ss n).1 (sleepAt eng ss (n + 1)).1).filter Call.isLearn = [])
    ∧ ((∀ j, j < 5 → (avgLaySim (eng j)).ge plusthresh = true) →
      (avgLaySim (eng 5)).lt minusthresh = true →
      ((sleepAt eng ss 6).1.PlusPhase = false
        ∧ (sleepAt eng ss 6).1.MinusPhase = false
        ∧ (callsSince ss (sleepAt eng ss 6).1).filter Call.isSlpDWt = []
        ∧ (sleepAt eng ss 6).1.SlpTrls = 0)
      ∧ ((∀ k, 6 ≤ k → k < sleepCycles → (avgLaySim (eng k)).lt plusthresh = true) →
        (callsSince ss (SleepCyc eng ss)).filter Call.isSlpDWt = []
        ∧ (SleepCyc eng ss).SlpTrls = 0)) := by
  refine ⟨fun n hP hlt => ?_, fun hge hlt => ?_⟩
  · obtain ⟨hM, _, _, _⟩ := (sleepAt_inv eng ss hP0 hM0 n).1 hP
    exact step_plus_low eng ss n hL hP hM hlt
  · obtain ⟨h4, h5P, h5M⟩ := session_plus_after_five eng ss hP0 hM0 hL hge
    obtain ⟨a1, a2, _, _, _⟩ := step_plus_low eng ss 5 hL h5P h5M hlt
    have hno : ∀ k, k < 6 → (sleepAt eng ss k).1.MinusPhase = false := by
      intro k hk
      by_cases h : k ≤ 4
      · exact (h4 k h).2
      · have : k = 5 := by omega
        subst this
        exact h5M
    refine ⟨⟨a1, a2, session_no_minus eng ss 6 hno⟩, fun hrest => ?_⟩
    have hall : ∀ k, k < sleepCycles → (sleepAt eng ss k).1.MinusPhase = false := by
      intro k hk
      by_cases h : k < 6
      · exact hno k h
      · have hk6 : k = 6 + (k - 6) := by omega
        rw [hk6]
        exact (settling_stays eng ss hL 6 (k - 6) a1 a2
          (fun j h1 h2 => hrest j h1 (by omega))).2
    obtain ⟨b1, b2⟩ := session_no_minus eng ss sleepCycles hall
    rw [SleepCyc_slpDWt, b1, SleepCyc_eq, (sleepPost_fields _).2.2, b2]
    exact ⟨rfl, rfl⟩

/-- C5 on the example session whose similarity is 1 for five cycles and 0 from
then on: the whole session issues no `SlpDWt` and ends with `SlpTrls = 0`. -/
theorem C5_abort_witness :
    (sleepAt abortEng (newSim []) 5).1.PlusPhase = true
    ∧ (sleepAt abortEng (newSim []) 6).1.PlusPhase = false
    ∧ (callsSince (newSim []) (SleepCyc abortEng (newSim []))).filter Call.isSlpDWt = []
    ∧ (SleepCyc abortEng (newSim [])).SlpTrls = 0 :=
  ⟨(abortEng_plus []).1,
   ((C5_abort abortEng (newSim []) rfl rfl rfl).1 5 (abortEng_plus []).1
      (by rw [abortEng_late 5 (le_refl 5)]; exact zero_lt_minusthresh)).1,
   ((C5_abort abortEng (newSim []) rfl rfl rfl).2 abortEng_ge
      (by rw [abortEng_late 5 (le_refl 5)]; exact zero_lt_minusthresh)).2
      (fun k hk _ => by rw [abortEng_late k (by omega)]; exact zero_lt_plusthresh)⟩

/-! ## The end of the session -/

/-- C6: after `SleepCyc` both phase flags are false; what `SleepCyc` does after
its loop makes no call on sums, averages or weights, whatever phase the loop
ended in; and the `SlpDWt` calls of the whole session are exactly those of the
iterations that complete a Minus phase, one round for each of them. -/
theorem C6_session_end (eng : Nat → List Layer) (ss : Sim) :
    (SleepCyc eng ss).PlusPhase = false
    ∧ (SleepCyc eng ss).MinusPhase = false
    ∧ (callsSince (sleepAt eng ss sleepCycles).1 (SleepCyc eng ss)).filter Call.isLearn = []
    ∧ (callsSince ss (SleepCyc eng ss)).filter Call.isSlpDWt
        = (((List.range sleepCycles).filter (fun c => completes eng ss c)).map
            (fun c => forLayers (eng c) slpDWtCalls)).flatten := by
  obtain ⟨V, hV, hVl⟩ := sleepPost_calls (sleepAt eng ss sleepCycles)
  refine ⟨(sleepPost_fields _).1, (sleepPost_fields _).2.1, ?_, ?_⟩
  · rw [SleepCyc_eq, callsSince_of_eq hV]
    exact filter_eq_nil_of_forall hVl
  · rw [SleepCyc_slpDWt, session_slpDWt]

/-! ## The trial counter -/

/-- C4, at the session of a ten-layer network whose similarity is 1 for five
cycles, 0.9995 for one cycle and 0 from then on: the session completes one
Plus-Minus cycle and `SleepCyc` ends with `SlpTrls = 10`, one count for each
layer of the loop of lines 974-983. -/
theorem C4_slpTrls_ten :
    (SleepCyc cycleEng (newSim (tenLayers (GoFloat.fin 0)))).SlpTrls = 10 := by
  have hL : (newSim (tenLayers (GoFloat.fin 0))).SlpLearn = true := rfl
  obtain ⟨h4, _, _⟩ := session_plus_after_five cycleEng (newSim (tenLayers (GoFloat.fin 0)))
    rfl rfl rfl cycleEng_ge
  obtain ⟨h5P, h5M⟩ := cycleEng_plus (tenLayers (GoFloat.fin 0))
  obtain ⟨h6P, h6M⟩ := cycleEng_minus (tenLayers (GoFloat.fin 0))
  obtain ⟨h7P, h7M⟩ := step_minus_low cycleEng _ 6 hL h6P h6M
    (by rw [cycleEng_late 6 (le_refl 6)]; exact zero_lt_minusthresh)
  have hno : ∀ k, k < 6 → (sleepAt cycleEng (newSim (tenLayers (GoFloat.fin 0))) k).1.MinusPhase
      = false := by
    intro k hk
    by_cases h : k ≤ 4
    · exact (h4 k h).2
    · have : k = 5 := by omega
      subst this
      exact h5M
  have e6 := (session_no_minus cycleEng _ 6 hno).2
  have hc : completes cycleEng (newSim (tenLayers (GoFloat.fin 0))) 6 = true := by
    simp [completes, h6M, h7M]
  have e7 := (sleepAt_slpDWt cycleEng (newSim (tenLayers (GoFloat.fin 0))) 6).2
  rw [if_pos hc, e6] at e7
  have hlate : ∀ k, 7 ≤ k → k < 7 + 29993 →
      (sleepAt cycleEng (newSim (tenLayers (GoFloat.fin 0))) k).1.MinusPhase = false := by
    intro k h1 _
    have hk7 : k = 7 + (k - 7) := by omega
    rw [hk7]
    exact (settling_stays cycleEng _ hL 7 (k - 7) h7P h7M
      (fun j h1 _ => by rw [cycleEng_late j (by omega)]; exact zero_lt_plusthresh)).2
  have e := slpTrls_no_minus cycleEng (newSim (tenLayers (GoFloat.fin 0))) 7 29993 hlate
  rw [SleepCyc_eq, (sleepPost_fields _).2.2]
  show (sleepAt cycleEng (newSim (tenLayers (GoFloat.fin 0))) (7 + 29993)).1.SlpTrls = 10
  rw [e, e7]
  simp [cycleEng, engOf, tenLayers]

/-! ## The stability signal -/

theorem goAdd_zero (a : GoFloat) : a.add (GoFloat.fin 0) = a := by
  cases a <;> simp [GoFloat.add]

theorem goZero_add (a : GoFloat) : (GoFloat.fin 0).add a = a := by
  cases a <;> simp [GoFloat.add]

theorem goAdd_assoc (a b c : GoFloat) : (a.add b).add c = a.add (b.add c) := by
  rcases a with _ | (_ | _) | a <;> rcases b with _ | (_ | _) | b <;>
    rcases c with _ | (_ | _) | c <;> simp [GoFloat.add, add_assoc]

theorem foldl_goAdd (l : List GoFloat) (a : GoFloat) :
    l.foldl GoFloat.add a = a.add (l.foldr GoFloat.add (GoFloat.fin 0)) := by
  induction l generalizing a with
  | nil => simp [goAdd_zero]
  | cons x l ih => rw [List.foldl_cons, ih, List.foldr_cons, goAdd_assoc]

theorem sumLaySim_eq (layers : List Layer) :
    sumLaySim layers
      = (layers.map (fun ly => clampSim ly.Sim)).foldr GoFloat.add (GoFloat.fin 0) := by
  have h : sumLaySim layers
      = (layers.map (fun ly => clampSim ly.Sim)).foldl GoFloat.add (GoFloat.fin 0) := by
    rw [List.foldl_map]
    rfl
  rw [h, foldl_goAdd, goZero_add]

/-- C7: on a sleep step of the network that `ConfigNet` builds (lines 283-296),
which has ten layers, `AvgLaySim` is the arithmetic mean over all layers of the
similarity `Sim`, a NaN counted as 0: the sum of the clamped similarities
divided by the number of layers.  `SleepCyc` runs on no other network: it
looks the layers of `ConfigNet` up by name (lines 822-838) before it averages,
and line 891 divides by the constant 10. -/
theorem C7_mean_of_ten (ss : Sim) (layers : List Layer) (h : layers.length = 10) :
    (sleepSense layers ss).AvgLaySim = specMeanSim layers := by
  rw [(sleepSense_fields _ _).2.2.2.2.2.1, avgLaySim, sumLaySim_eq, specMeanSim, h]
  rfl

/-- C7 on ten layers of similarity 1. -/
theorem C7_mean_of_ten_witness :
    (sleepSense (tenLayers (GoFloat.fin 1)) (newSim [])).AvgLaySim
      = specMeanSim (tenLayers (GoFloat.fin 1)) :=
  C7_mean_of_ten (newSim []) (tenLayers (GoFloat.fin 1)) rfl

/-- The sum of the clamped similarities of layers that are NaN or in `[-1, 1]`
is finite and at most the number of layers in absolute value. -/
theorem foldl_clamp_bound (layers : List Layer)
    (h : ∀ ly ∈ layers, ly.Sim = GoFloat.nan ∨ ∃ q, ly.Sim = GoFloat.fin q ∧ -1 ≤ q ∧ q ≤ 1)
    (a : ℚ) :
    ∃ q, layers.foldl (fun avesim ly =>
        let tmpsim := ly.Sim
        let tmpsim := if tmpsim.isNaN then GoFloat.fin 0 else tmpsim
        avesim.add tmpsim) (GoFloat.fin a) = GoFloat.fin q
      ∧ a - layers.length ≤ q ∧ q ≤ a + layers.length := by
  induction layers generalizing a with
  | nil => exact ⟨a, rfl, by simp, by simp⟩
  | cons ly L ih =>
    have hL : ∀ ly ∈ L, ly.Sim = GoFloat.nan ∨ ∃ q, ly.Sim = GoFloat.fin q ∧ -1 ≤ q ∧ q ≤ 1 :=
      fun x hx => h x (List.mem_cons_of_mem _ hx)
    rcases h ly (List.mem_cons_self _ _) with hn | ⟨x, hx, h1, h2⟩
    · obtain ⟨q, hq, b1, b2⟩ := ih hL (a + 0)
      refine ⟨q, ?_, ?_, ?_⟩
      · rw [List.foldl_cons]
        simp only [hn, GoFloat.isNaN, if_true, GoFloat.add]
        exact hq
      · simp only [List.length_cons, Nat.cast_add, Nat.cast_one]
        linarith
      · simp only [List.length_cons, Nat.cast_add, Nat.cast_one]
        linarith
    · obtain ⟨q, hq, b1, b2⟩ := ih hL (a + x)
      refine ⟨q, ?_, ?_, ?_⟩
      · rw [List.foldl_cons]
        simp only [hx, GoFloat.isNaN, GoFloat.add]
        exact hq
      · simp only [List.length_cons, Nat.cast_add, Nat.cast_one]
        linarith
      · simp only [List.length_cons, Nat.cast_add, Nat.cast_one]
        linarith

/-- C8: when the similarity of every layer is NaN or a number in `[-1, 1]`, the
`AvgLaySim` that a sleep step hands to the phase detector is a finite number,
never NaN, of absolute value at most a tenth of the number of layers; for a
network of at most ten layers, as `ConfigNet` builds, it lies in `[-1, 1]`. -/
theorem C8_avg_bounded (ss : Sim) (layers : List Layer)
    (h : ∀ ly ∈ layers, ly.Sim = GoFloat.nan ∨ ∃ q, ly.Sim = GoFloat.fin q ∧ -1 ≤ q ∧ q ≤ 1) :
    ∃ q, (sleepSense layers ss).AvgLaySim = GoFloat.fin q
      ∧ (sleepSense layers ss).AvgLaySim.isNaN = false
      ∧ -(layers.length : ℚ) ≤ 10 * q ∧ 10 * q ≤ layers.length
      ∧ (layers.length ≤ 10 → -1 ≤ q ∧ q ≤ 1) := by
  obtain ⟨q, hq, b1, b2⟩ := foldl_clamp_bound layers h 0
  have hA : (sleepSense layers ss).AvgLaySim = GoFloat.fin (q / 10) := by
    rw [(sleepSense_fields _ _).2.2.2.2.2.1, avgLaySim, sumLaySim, hq]
    simp [GoFloat.div]
  refine ⟨q / 10, hA, by rw [hA]; rfl, by linarith, by linarith, fun h10 => ?_⟩
  have h10' : (layers.length : ℚ) ≤ 10 := by exact_mod_cast h10
  constructor <;> linarith

/-- C8 on a network with one layer at NaN and one at 1. -/
theorem C8_avg_bounded_witness :
    ∃ q, (sleepSense [{ Sim := GoFloat.nan, SndPrjns := [] }, { Sim := GoFloat.fin 1, SndPrjns := [] }]
        (newSim [])).AvgLaySim = GoFloat.fin q
      ∧ -1 ≤ q ∧ q ≤ 1 := by
  obtain ⟨q, h1, _, _, _, h5⟩ := C8_avg_bounded (newSim [])
    [{ Sim := GoFloat.nan, SndPrjns := [] }, { Sim := GoFloat.fin 1, SndPrjns := [] }]
    (by
      intro ly hly
      simp only [List.mem_cons, List.mem_singleton, List.not_mem_nil, or_false] at hly
      rcases hly with rfl | rfl
      · exact Or.inl rfl
      · exact Or.inr ⟨1, rfl, by norm_num, by norm_num⟩)
  exact ⟨q, h1, h5 (by decide)⟩

/-! ## The alpha cycle: the calls -/

theorem Adds.refl (p : Call → Bool) (a : Sim) : Adds p a a [] :=
  ⟨[], by simp, rfl⟩

theorem Adds.trans {p : Call → Bool} {a b c : Sim} {L M : List Call}
    (h1 : Adds p a b L) (h2 : Adds p b c M) : Adds p a c (L ++ M) := by
  obtain ⟨X, hX, hL⟩ := h1
  obtain ⟨Y, hY, hM⟩ := h2
  exact ⟨X ++ Y, by rw [hY, hX, List.append_assoc], by rw [List.filter_append, hL, hM]⟩

theorem Adds.call (p : Call → Bool) (a : Sim) (c : Call) :
    Adds p a (a.call c) (if p c = true then [c] else []) := by
  refine ⟨[c], rfl, ?_⟩
  cases h : p c <;> simp [h]

theorem Adds.of_calls_eq {p : Call → Bool} {a b : Sim} (h : b.calls = a.calls) :
    Adds p a b [] :=
  ⟨[], by simp [h], rfl⟩

theorem Adds.filter_callsSince {p : Call → Bool} {a b : Sim} {L : List Call}
    (h : Adds p a b L) : (callsSince a b).filter p = L := by
  obtain ⟨X, hX, hL⟩ := h
  rw [callsSince_of_eq hX, hL]

theorem Adds.foldl {p : Call → Bool} (f : Sim → Nat → Sim) (L0 : List Call)
    (h : ∀ s x, Adds p s (f s x) L0) (l : List Nat) (s : Sim) :
    Adds p s (l.foldl f s) (List.replicate l.length L0).flatten := by
  induction l generalizing s with
  | nil => exact Adds.refl p s
  | cons x l ih =>
    have h2 := Adds.trans (h s x) (ih (f s x))
    simpa [List.replicate_succ] using h2

theorem alphaCycle_adds (train : Bool) (v : TimeScales) (s : Sim) (cyc : Nat) :
    Adds Call.isCycleOrQF s (alphaCycle train v s cyc) [Call.Cycle false] := by
  have h1 : Adds Call.isCycleOrQF s (s.cycle false) [Call.Cycle false] := ⟨[_], rfl, rfl⟩
  have h2 : Adds Call.isCycleOrQF (s.cycle false)
      (if train = false then (s.cycle false).call Call.LogTstCyc else s.cycle false) [] := by
    split_ifs
    · exact Adds.call _ _ _
    · exact Adds.refl _ _
  have h3 := Adds.call Call.isCycleOrQF
    (if train = false then (s.cycle false).call Call.LogTstCyc else s.cycle false)
    Call.CycleInc
  have h4 : Adds Call.isCycleOrQF
      ((if train = false then (s.cycle false).call Call.LogTstCyc else s.cycle false).call
        Call.CycleInc)
      (alphaCycle train v s cyc) [] := by
    unfold alphaCycle
    simp only
    split_ifs
    all_goals first
      | exact Adds.call _ _ _
      | exact Adds.refl _ _
  simpa using Adds.trans (Adds.trans (Adds.trans h1 h2) h3) h4

theorem setPerCA1_eq (v : GoFloat) (s : Sim) :
    setPerCA1 v s = { s with PerCA1 := fun _ => v } := by
  have h : (setPerCA1 v s).PerCA1 = fun _ => v := by
    funext q
    cases q <;> simp [setPerCA1, perlysCA1, Function.update]
  have h2 : setPerCA1 v s = { s with PerCA1 := (setPerCA1 v s).PerCA1 } := by
    simp [setPerCA1, perlysCA1]
  rw [h2, h]

theorem alphaQuarterGains_adds (train : Bool) (qtr : Nat) (s : Sim) :
    Adds Call.isCycleOrQF s (alphaQuarterGains train qtr s) [] := by
  unfold alphaQuarterGains
  split_ifs <;>
    first
      | exact Adds.refl _ _
      | exact ⟨[Call.GScaleFmAvgAct, Call.InitGInc], by simp [Sim.call, setPerCA1_eq], rfl⟩

theorem alphaQuarter_adds (train : Bool) (v : TimeScales) (s : Sim) (qtr : Nat) :
    Adds Call.isCycleOrQF s (alphaQuarter train v s qtr)
      (List.replicate 25 (Call.Cycle false) ++ [Call.QuarterFinal]) := by
  have h1 := Adds.foldl (p := Call.isCycleOrQF) (alphaCycle train v) [Call.Cycle false]
    (alphaCycle_adds train v) (List.range 25) s
  have h2 := alphaQuarterGains_adds train qtr ((List.range 25).foldl (alphaCycle train v) s)
  have h3 := Adds.call Call.isCycleOrQF
    (alphaQuarterGains train qtr ((List.range 25).foldl (alphaCycle train v) s))
    Call.QuarterFinal
  have h4 := Adds.call Call.isCycleOrQF
    ((alphaQuarterGains train qtr ((List.range 25).foldl (alphaCycle train v) s)).call
      Call.QuarterFinal) Call.QuarterInc
  have h5 : Adds Call.isCycleOrQF
      (((alphaQuarterGains train qtr ((List.range 25).foldl (alphaCycle train v) s)).call
        Call.QuarterFinal).call Call.QuarterInc)
      (alphaQuarter train v s qtr) [] := by
    unfold alphaQuarter
    simp only
    split_ifs
    all_goals first
      | exact Adds.call _ _ _
      | exact Adds.refl _ _
  have h := Adds.trans (Adds.trans (Adds.trans (Adds.trans h1 h2) h3) h4) h5
  have e : (List.replicate (List.range 25).length [Call.Cycle false]).flatten
      = List.replicate 25 (Call.Cycle false) := by decide
  rw [e] at h
  simpa [Call.isCycleOrQF] using h

theorem alphaPreGains_calls (train : Bool) (s : Sim) :
    (alphaPreGains train s).calls = s.calls := by
  cases train <;> simp [alphaPreGains, setPerCA1_eq]

theorem alphaPostGains_eq (s : Sim) :
    alphaPostGains s = { s with PerDG := fun _ => GoFloat.fin 1,
                                PerCA1 := fun _ => GoFloat.fin 1,
                                CA3CA1 := GoFloat.fin 1 } := by
  have h1 : (alphaPostGains s).PerDG = fun _ => GoFloat.fin 1 := by
    funext q
    cases q <;> simp [alphaPostGains, perlysCA1, Function.update]
  have h2 : (alphaPostGains s).PerCA1 = fun _ => GoFloat.fin 1 := by
    funext q
    cases q <;> simp [alphaPostGains, perlysCA1, Function.update]
  have h3 : alphaPostGains s = { s with PerDG := (alphaPostGains s).PerDG,
                                        PerCA1 := (alphaPostGains s).PerCA1,
                                        CA3CA1 := GoFloat.fin 1 } := by
    simp [alphaPostGains, perlysCA1]
  rw [h3, h1, h2]

theorem alphaTail_adds (train : Bool) (v : TimeScales) (s : Sim) :
    Adds Call.isCycleOrQF s (alphaTail train v s) [] := by
  unfold alphaTail
  simp only [alphaPostGains_eq]
  cases train <;> cases hV : s.ViewOn <;> by_cases hv : v = TimeScales.AlphaCycle <;>
    by_cases hr : s.RunCur = 0 <;>
    simp [hV, hv, hr, Sim.call, Adds, Call.isCycleOrQF]

theorem alphaHead_adds (train : Bool) (s : Sim) :
    Adds Call.isCycleOrQF s (alphaHead train s) [] := by
  cases train <;>
    simp [alphaHead, alphaPreGains, setPerCA1_eq, Sim.call, Adds, Call.isCycleOrQF]

theorem AlphaCyc_adds (train : Bool) (ss : Sim) :
    Adds Call.isCycleOrQF ss (AlphaCyc train ss)
      (List.replicate 4 (List.replicate 25 (Call.Cycle false) ++ [Call.QuarterFinal])).flatten := by
  have h1 := alphaHead_adds train ss
  have h2 := Adds.foldl (p := Call.isCycleOrQF)
    (alphaQuarter train (alphaViewUpdt train ss))
    (List.replicate 25 (Call.Cycle false) ++ [Call.QuarterFinal])
    (alphaQuarter_adds train _) (List.range 4) (alphaHead train ss)
  have h3 := alphaTail_adds train (alphaViewUpdt train ss)
    ((List.range 4).foldl (alphaQuarter train (alphaViewUpdt train ss)) (alphaHead train ss))
  have h := Adds.trans (Adds.trans h1 h2) h3
  have e : (List.range 4).length = 4 := List.length_range 4
  rw [e, List.nil_append, List.append_nil] at h
  exact h

/-! ## The alpha cycle: the stop flag -/

theorem foldl_setStop (b : Bool) (f : Sim → Nat → Sim)
    (h : ∀ s x, f (setStop b s) x = setStop b (f s x)) (l : List Nat) (s : Sim) :
    l.foldl f (setStop b s) = setStop b (l.foldl f s) := by
  induction l generalizing s with
  | nil => rfl
  | cons x l ih => rw [List.foldl_cons, h, ih, List.foldl_cons]

theorem alphaCycle_setStop (b train : Bool) (v : TimeScales) (s : Sim) (cyc : Nat) :
    alphaCycle train v (setStop b s) cyc = setStop b (alphaCycle train v s cyc) := by
  unfold alphaCycle setStop
  simp only [Sim.cycle, Sim.call]
  split_ifs <;> rfl

theorem alphaQuarterGains_setStop (b train : Bool) (qtr : Nat) (s : Sim) :
    alphaQuarterGains train qtr (setStop b s) = setStop b (alphaQuarterGains train qtr s) := by
  unfold alphaQuarterGains
  simp only [setPerCA1_eq, setStop, Sim.call]
  split_ifs <;> rfl

theorem alphaQuarter_setStop (b train : Bool) (v : TimeScales) (s : Sim) (qtr : Nat) :
    alphaQuarter train v (setStop b s) qtr = setStop b (alphaQuarter train v s qtr) := by
  unfold alphaQuarter
  rw [foldl_setStop b (alphaCycle train v) (alphaCycle_setStop b train v)]
  dsimp only
  rw [alphaQuarterGains_setStop]
  generalize alphaQuarterGains train qtr (List.foldl (alphaCycle train v) s (List.range 25)) = t
  simp only [setStop, Sim.call]
  split_ifs <;> rfl

theorem alphaHead_setStop (b train : Bool) (ss : Sim) :
    alphaHead train (setStop b ss) = setStop b (alphaHead train ss) := by
  cases train <;> simp [alphaHead, alphaPreGains, setPerCA1_eq, setStop, Sim.call]

theorem alphaTail_setStop (b train : Bool) (v : TimeScales) (t : Sim) :
    alphaTail train v (setStop b t) = setStop b (alphaTail train v t) := by
  unfold alphaTail
  simp only [alphaPostGains_eq, setStop, Sim.call]
  split_ifs <;> rfl

theorem AlphaCyc_setStop (b train : Bool) (ss : Sim) :
    AlphaCyc train (setStop b ss) = setStop b (AlphaCyc train ss) := by
  unfold AlphaCyc
  have hv : alphaViewUpdt train (setStop b ss) = alphaViewUpdt train ss := rfl
  simp only [hv]
  rw [alphaHead_setStop, foldl_setStop b _ (alphaQuarter_setStop b train _), alphaTail_setStop]

theorem count_cycle_false :
    List.count (Call.Cycle false)
      (List.replicate 4 (List.replicate 25 (Call.Cycle false) ++ [Call.QuarterFinal])).flatten
      = 100 := by
  have e : (List.replicate 4 (List.replicate 25 (Call.Cycle false) ++ [Call.QuarterFinal])).flatten
      = (List.replicate 25 (Call.Cycle false) ++ [Call.QuarterFinal])
        ++ ((List.replicate 25 (Call.Cycle false) ++ [Call.QuarterFinal])
        ++ ((List.replicate 25 (Call.Cycle false) ++ [Call.QuarterFinal])
        ++ ((List.replicate 25 (Call.Cycle false) ++ [Call.QuarterFinal]) ++ []))) := rfl
  rw [e]
  simp only [List.count_append, List.count_replicate, List.count_cons, List.count_nil]
  decide

theorem count_cycle_true :
    List.count (Call.Cycle true)
      (List.replicate 4 (List.replicate 25 (Call.Cycle false) ++ [Call.QuarterFinal])).flatten
      = 0 := by
  rw [List.count_eq_zero]
  intro h
  rw [List.mem_flatten] at h
  obtain ⟨l, hl, hc⟩ := h
  rw [List.eq_of_mem_replicate hl, List.mem_append] at hc
  rcases hc with hc | hc
  · exact absurd (List.eq_of_mem_replicate hc) (by decide)
  · simp at hc

/-! ## The alpha cycle: one hundred engine cycles -/

/-- C9: whatever `train` and the stop flag, `AlphaCyc` runs the engine `Cycle`
exactly 100 times, as four runs of 25 cycles each followed by one
`QuarterFinal`; and the stop flag is not read: setting it before the call
changes nothing but the flag itself. -/
theorem C9_hundred_cycles (train : Bool) (ss : Sim) :
    (callsSince ss (AlphaCyc train ss)).filter Call.isCycleOrQF
      = (List.replicate 4
          (List.replicate 25 (Call.Cycle false) ++ [Call.QuarterFinal])).flatten
    ∧ (callsSince ss (AlphaCyc train ss)).count (Call.Cycle false) = 100
    ∧ (callsSince ss (AlphaCyc train ss)).count (Call.Cycle true) = 0
    ∧ ∀ b : Bool, AlphaCyc train { ss with StopNow := b }
        = { AlphaCyc train ss with StopNow := b } := by
  have h := (AlphaCyc_adds train ss).filter_callsSince
  refine ⟨h, ?_, ?_, fun b => AlphaCyc_setStop b train ss⟩
  · rw [← List.count_filter (p := Call.isCycleOrQF) (a := Call.Cycle false) rfl, h]
    exact count_cycle_false
  · rw [← List.count_filter (p := Call.isCycleOrQF) (a := Call.Cycle true) rfl, h]
    exact count_cycle_true

/-! ## The alpha cycle: the gains under which the engine runs -/

theorem alphaCycle_seen (train : Bool) (v : TimeScales) (s : Sim) (cyc : Nat) :
    (alphaCycle train v s cyc).seen = s.seen ++ [{ PerCA1 := s.PerCA1, CA3CA1 := s.CA3CA1 }]
    ∧ (alphaCycle train v s cyc).PerCA1 = s.PerCA1
    ∧ (alphaCycle train v s cyc).CA3CA1 = s.CA3CA1 := by
  unfold alphaCycle
  simp only [Sim.cycle, Sim.call]
  split_ifs <;> exact ⟨rfl, rfl, rfl⟩

theorem alphaCycles_seen (train : Bool) (v : TimeScales) (l : List Nat) (s : Sim) :
    (l.foldl (alphaCycle train v) s).seen
      = s.seen ++ List.replicate l.length { PerCA1 := s.PerCA1, CA3CA1 := s.CA3CA1 }
    ∧ (l.foldl (alphaCycle train v) s).PerCA1 = s.PerCA1
    ∧ (l.foldl (alphaCycle train v) s).CA3CA1 = s.CA3CA1 := by
  induction l generalizing s with
  | nil => simp
  | cons x l ih =>
    obtain ⟨a1, a2, a3⟩ := alphaCycle_seen train v s x
    obtain ⟨b1, b2, b3⟩ := ih (alphaCycle train v s x)
    rw [List.foldl_cons, b1, b2, b3, a1, a2, a3]
    simp [List.replicate_succ]

theorem alphaQuarterGains_seen (train : Bool) (qtr : Nat) (t : Sim) :
    (alphaQuarterGains train qtr t).seen = t.seen := by
  unfold alphaQuarterGains
  simp only [setPerCA1_eq, Sim.call]
  split_ifs <;> rfl

theorem alphaQuarterGains_train (qtr : Nat) (t : Sim) :
    (alphaQuarterGains true qtr t).PerCA1
        = (if qtr = 0 then fun _ => GoFloat.fin 0
           else if qtr = 2 then fun _ => GoFloat.fin 1 else t.PerCA1)
    ∧ (alphaQuarterGains true qtr t).CA3CA1
        = (if qtr = 0 then GoFloat.fin 1 else if qtr = 2 then GoFloat.fin 0 else t.CA3CA1) := by
  unfold alphaQuarterGains
  simp only [setPerCA1_eq, Sim.call]
  by_cases h0 : qtr = 0
  · subst h0
    exact ⟨rfl, rfl⟩
  · by_cases h2 : qtr = 2
    · subst h2
      exact ⟨rfl, rfl⟩
    · have e1 : ¬ (qtr + 1 = 1) := by omega
      have e3 : ¬ (qtr + 1 = 3) := by omega
      simp [h0, h2, e1, e3]

theorem alphaQuarter_train (v : TimeScales) (s : Sim) (qtr : Nat) :
    (alphaQuarter true v s qtr).seen
        = s.seen ++ List.replicate 25 { PerCA1 := s.PerCA1, CA3CA1 := s.CA3CA1 }
    ∧ (alphaQuarter true v s qtr).PerCA1
        = (if qtr = 0 then fun _ => GoFloat.fin 0
           else if qtr = 2 then fun _ => GoFloat.fin 1 else s.PerCA1)
    ∧ (alphaQuarter true v s qtr).CA3CA1
        = (if qtr = 0 then GoFloat.fin 1 else if qtr = 2 then GoFloat.fin 0 else s.CA3CA1) := by
  obtain ⟨a1, a2, a3⟩ := alphaCycles_seen true v (List.range 25) s
  obtain ⟨b1, b2⟩ := alphaQuarterGains_train qtr ((List.range 25).foldl (alphaCycle true v) s)
  have b3 := alphaQuarterGains_seen true qtr ((List.range 25).foldl (alphaCycle true v) s)
  rw [a2] at b1
  rw [a3] at b2
  rw [a1] at b3
  rw [← b1, ← b2]
  have e : (List.range 25).length = 25 := List.length_range 25
  rw [e] at b3
  rw [← b3]
  unfold alphaQuarter
  dsimp only
  generalize alphaQuarterGains true qtr (List.foldl (alphaCycle true v) s (List.range 25)) = t
  simp only [Sim.call]
  split_ifs <;> exact ⟨rfl, rfl, rfl⟩

theorem alphaTail_seen (train : Bool) (v : TimeScales) (s : Sim) :
    (alphaTail train v s).seen = s.seen := by
  unfold alphaTail
  simp only [alphaPostGains_eq]
  cases train <;> cases hV : s.ViewOn <;> by_cases hv : v = TimeScales.AlphaCycle <;>
    by_cases hr : s.RunCur = 0 <;>
    simp [hV, hv, hr, Sim.call]

theorem alphaQuarters_train_seen (v : TimeScales) (s0 : Sim)
    (h1 : s0.PerCA1 = fun _ => GoFloat.fin 1) (h2 : s0.CA3CA1 = GoFloat.fin 0) :
    (alphaQuarter true v (alphaQuarter true v (alphaQuarter true v
        (alphaQuarter true v s0 0) 1) 2) 3).seen
      = s0.seen ++ (List.replicate 25 gainsPer ++ List.replicate 50 gainsCA3
          ++ List.replicate 25 gainsPer) := by
  obtain ⟨a1, a2, a3⟩ := alphaQuarter_train v s0 0
  obtain ⟨b1, b2, b3⟩ := alphaQuarter_train v (alphaQuarter true v s0 0) 1
  obtain ⟨c1, c2, c3⟩ := alphaQuarter_train v (alphaQuarter true v (alphaQuarter true v s0 0) 1) 2
  obtain ⟨d1, _, _⟩ := alphaQuarter_train v
    (alphaQuarter true v (alphaQuarter true v (alphaQuarter true v s0 0) 1) 2) 3
  simp only [if_true] at a2 a3
  have n10 : ¬ ((1 : Nat) = 0) := by decide
  have n12 : ¬ ((1 : Nat) = 2) := by decide
  have n20 : ¬ ((2 : Nat) = 0) := by decide
  simp only [if_neg n10, if_neg n12] at b2 b3
  simp only [if_neg n20, if_true] at c2 c3
  rw [d1, c1, b1, a1, c2, c3, b2, b3, a2, a3, h1, h2]
  have e : List.replicate 50 gainsCA3 = List.replicate 25 gainsCA3 ++ List.replicate 25 gainsCA3 :=
    (List.replicate_add 25 25 gainsCA3)
  rw [e]
  simp only [List.append_assoc]
  rfl

theorem AlphaCyc_train_seen (ss : Sim) :
    (AlphaCyc true ss).seen = ss.seen
      ++ (List.replicate 25 gainsPer ++ List.replicate 50 gainsCA3 ++ List.replicate 25 gainsPer) := by
  have hr : List.range 4 = [0, 1, 2, 3] := by decide
  unfold AlphaCyc
  simp only [alphaTail_seen, hr, List.foldl_cons, List.foldl_nil]
  rw [alphaQuarters_train_seen _ _
    (by simp [alphaHead, alphaPreGains, setPerCA1_eq, Sim.call])
    (by simp [alphaHead, alphaPreGains, setPerCA1_eq, Sim.call])]
  simp [alphaHead, alphaPreGains, setPerCA1_eq, Sim.call]

/-- C10: `AlphaCyc(true)` runs the engine through 100 cycles; whatever the gains
before the call, at the 0-based cycle `k` every gain from a peripheral layer to
CA1 is 1 and the gain from CA3 to CA1 is 0 when `k < 25` or `75 <= k`, and
every gain from a peripheral layer to CA1 is 0 and the gain from CA3 to CA1 is
1 when `25 <= k < 75`. -/
theorem C10_train_gains (ss : Sim) :
    ((AlphaCyc true ss).seen.drop ss.seen.length).length = 100
    ∧ ∀ (k : Nat) (g : GainView), ((AlphaCyc true ss).seen.drop ss.seen.length)[k]? = some g →
        k < 100
        ∧ ((k < 25 ∨ 75 ≤ k) → (∀ q, g.PerCA1 q = GoFloat.fin 1) ∧ g.CA3CA1 = GoFloat.fin 0)
        ∧ ((25 ≤ k ∧ k < 75) → (∀ q, g.PerCA1 q = GoFloat.fin 0) ∧ g.CA3CA1 = GoFloat.fin 1) := by
  rw [AlphaCyc_train_seen, List.drop_left]
  refine ⟨by simp, fun k g hg => ?_⟩
  have hk : k < 100 := by
    by_contra hn
    have hlen : (List.replicate 25 gainsPer ++ List.replicate 50 gainsCA3
        ++ List.replicate 25 gainsPer).length ≤ k := by
      simp only [List.length_append, List.length_replicate]
      omega
    rw [List.getElem?_eq_none hlen] at hg
    exact absurd hg (by simp)
  refine ⟨hk, fun h => ?_, fun h => ?_⟩
  · have hg2 : g = gainsPer := by
      rcases h with h | h
      · rw [List.append_assoc, List.getElem?_append_left (by simp; omega),
          List.getElem?_replicate, if_pos h] at hg
        exact (Option.some.inj hg).symm
      · rw [List.getElem?_append_right (by simp; omega), List.getElem?_replicate] at hg
        split_ifs at hg
        exact (Option.some.inj hg).symm
    rw [hg2]
    exact ⟨fun _ => rfl, rfl⟩
  · have hg2 : g = gainsCA3 := by
      rw [List.getElem?_append_left (by simp; omega),
        List.getElem?_append_right (by simp; omega), List.getElem?_replicate] at hg
      split_ifs at hg
      exact (Option.some.inj hg).symm
    rw [hg2]
    exact ⟨fun _ => rfl, rfl⟩

/-! ## The alpha cycle: testing mode and the end of the cycle -/

theorem alphaQuarterGains_test (qtr : Nat) (t : Sim) :
    (alphaQuarterGains false qtr t).PerCA1 = t.PerCA1
    ∧ (alphaQuarterGains false qtr t).CA3CA1 = t.CA3CA1
    ∧ (alphaQuarterGains false qtr t).PerDG = t.PerDG
    ∧ (alphaQuarterGains false qtr t).PerFmCA1 = t.PerFmCA1
    ∧ (alphaQuarterGains false qtr t).CA3CA3 = t.CA3CA3 := by
  unfold alphaQuarterGains
  simp only [Sim.call, Bool.false_eq_true, if_false]
  split_ifs <;> exact ⟨rfl, rfl, rfl, rfl, rfl⟩

theorem alphaQuarter_after (train : Bool) (v : TimeScales) (s : Sim) (qtr : Nat) :
    (alphaQuarter train v s qtr).seen
        = (alphaQuarterGains train qtr ((List.range 25).foldl (alphaCycle train v) s)).seen
    ∧ (alphaQuarter train v s qtr).PerCA1
        = (alphaQuarterGains train qtr ((List.range 25).foldl (alphaCycle train v) s)).PerCA1
    ∧ (alphaQuarter train v s qtr).CA3CA1
        = (alphaQuarterGains train qtr ((List.range 25).foldl (alphaCycle train v) s)).CA3CA1 := by
  unfold alphaQuarter
  dsimp only
  generalize alphaQuarterGains train qtr (List.foldl (alphaCycle train v) s (List.range 25)) = t
  simp only [Sim.call]
  split_ifs <;> exact ⟨rfl, rfl, rfl⟩

theorem alphaQuarter_test (v : TimeScales) (s : Sim) (qtr : Nat) :
    (alphaQuarter false v s qtr).seen
        = s.seen ++ List.replicate 25 { PerCA1 := s.PerCA1, CA3CA1 := s.CA3CA1 }
    ∧ (alphaQuarter false v s qtr).PerCA1 = s.PerCA1
    ∧ (alphaQuarter false v s qtr).CA3CA1 = s.CA3CA1 := by
  obtain ⟨a1, a2, a3⟩ := alphaCycles_seen false v (List.range 25) s
  obtain ⟨b1, b2, _⟩ := alphaQuarterGains_test qtr ((List.range 25).foldl (alphaCycle false v) s)
  have b3 := alphaQuarterGains_seen false qtr ((List.range 25).foldl (alphaCycle false v) s)
  obtain ⟨c1, c2, c3⟩ := alphaQuarter_after false v s qtr
  have e : (List.range 25).length = 25 := List.length_range 25
  rw [e] at a1
  rw [c1, c2, c3, b1, b2, b3, a1, a2, a3]
  exact ⟨rfl, rfl, rfl⟩

theorem alphaQuarters_test_seen (v : TimeScales) (s0 : Sim)
    (h1 : s0.PerCA1 = fun _ => GoFloat.fin 1) (h2 : s0.CA3CA1 = GoFloat.fin 1) :
    (alphaQuarter false v (alphaQuarter false v (alphaQuarter false v
        (alphaQuarter false v s0 0) 1) 2) 3).seen
      = s0.seen ++ List.replicate 100 gainsOne := by
  obtain ⟨a1, a2, a3⟩ := alphaQuarter_test v s0 0
  obtain ⟨b1, b2, b3⟩ := alphaQuarter_test v (alphaQuarter false v s0 0) 1
  obtain ⟨c1, c2, c3⟩ := alphaQuarter_test v (alphaQuarter false v (alphaQuarter false v s0 0) 1) 2
  obtain ⟨d1, _, _⟩ := alphaQuarter_test v
    (alphaQuarter false v (alphaQuarter false v (alphaQuarter false v s0 0) 1) 2) 3
  rw [d1, c1, b1, a1, c2, c3, b2, b3, a2, a3, h1, h2]
  have e : List.replicate 100 gainsOne
      = List.replicate 25 gainsOne ++ (List.replicate 25 gainsOne
        ++ (List.replicate 25 gainsOne ++ List.replicate 25 gainsOne)) := by
    rw [← List.replicate_add, ← List.replicate_add, ← List.replicate_add]
  rw [e]
  simp only [List.append_assoc]
  rfl

theorem AlphaCyc_test_seen (ss : Sim) :
    (AlphaCyc false ss).seen = ss.seen ++ List.replicate 100 gainsOne := by
  have hr : List.range 4 = [0, 1, 2, 3] := by decide
  unfold AlphaCyc
  simp only [alphaTail_seen, hr, List.foldl_cons, List.foldl_nil]
  rw [alphaQuarters_test_seen _ _
    (by simp [alphaHead, alphaPreGains, setPerCA1_eq, Sim.call])
    (by simp [alphaHead, alphaPreGains, setPerCA1_eq, Sim.call])]
  simp [alphaHead, alphaPreGains, setPerCA1_eq, Sim.call]

/-- C11: `AlphaCyc(false)` runs the engine through 100 cycles; whatever the
gains before the call, at every one of these cycles every gain from a peripheral
layer to CA1 and the gain from CA3 to CA1 are 1; and the quarter boundaries of
the testing mode, those after quarter 1 and after quarter 3 included, change no
gain. -/
theorem C11_test_gains (ss : Sim) :
    ((AlphaCyc false ss).seen.drop ss.seen.length).length = 100
    ∧ (∀ (k : Nat) (g : GainView),
        ((AlphaCyc false ss).seen.drop ss.seen.length)[k]? = some g →
        k < 100 ∧ (∀ q, g.PerCA1 q = GoFloat.fin 1) ∧ g.CA3CA1 = GoFloat.fin 1)
    ∧ (∀ (qtr : Nat) (t : Sim),
        (alphaQuarterGains false qtr t).PerCA1 = t.PerCA1
        ∧ (alphaQuarterGains false qtr t).CA3CA1 = t.CA3CA1
        ∧ (alphaQuarterGains false qtr t).PerDG = t.PerDG
        ∧ (alphaQuarterGains false qtr t).PerFmCA1 = t.PerFmCA1
        ∧ (alphaQuarterGains false qtr t).CA3CA3 = t.CA3CA3) := by
  rw [AlphaCyc_test_seen, List.drop_left]
  refine ⟨by simp, fun k g hg => ?_, alphaQuarterGains_test⟩
  rw [List.getElem?_replicate] at hg
  split_ifs at hg with hk
  have hg2 : g = gainsOne := (Option.some.inj hg).symm
  rw [hg2]
  exact ⟨hk, fun _ => rfl, rfl⟩

theorem alphaTail_gains (train : Bool) (v : TimeScales) (s : Sim) :
    (alphaTail train v s).PerCA1 = (fun _ => GoFloat.fin 1)
    ∧ (alphaTail train v s).PerDG = (fun _ => GoFloat.fin 1)
    ∧ (alphaTail train v s).CA3CA1 = GoFloat.fin 1 := by
  unfold alphaTail
  simp only [alphaPostGains_eq]
  cases train <;> cases hV : s.ViewOn <;> by_cases hv : v = TimeScales.AlphaCycle <;>
    by_cases hr : s.RunCur = 0 <;>
    simp [hV, hv, hr, Sim.call]

/-- C12: after `AlphaCyc` returns, in either mode and whatever the gains before
the call, every gain from a peripheral layer to CA1, every gain from a
peripheral layer to DG and the gain from CA3 to CA1 are 1. -/
theorem C12_end_gains (train : Bool) (ss : Sim) :
    (∀ q, (AlphaCyc train ss).PerCA1 q = GoFloat.fin 1)
    ∧ (∀ q, (AlphaCyc train ss).PerDG q = GoFloat.fin 1)
    ∧ (AlphaCyc train ss).CA3CA1 = GoFloat.fin 1 := by
  have e : AlphaCyc train ss = alphaTail train (alphaViewUpdt train ss)
      ((List.range 4).foldl (alphaQuarter train (alphaViewUpdt train ss))
        (alphaHead train ss)) := rfl
  obtain ⟨h1, h2, h3⟩ := alphaTail_gains train (alphaViewUpdt train ss)
    ((List.range 4).foldl (alphaQuarter train (alphaViewUpdt train ss)) (alphaHead train ss))
  rw [e]
  exact ⟨fun q => by rw [h1], fun q => by rw [h2], h3⟩

/-! ## The alpha cycle: the weight calls -/

theorem alphaCycle_addsW (train : Bool) (v : TimeScales) (s : Sim) (cyc : Nat) :
    Adds Call.isWeightOrCycle s (alphaCycle train v s cyc) [Call.Cycle false] := by
  have h1 : Adds Call.isWeightOrCycle s (s.cycle false) [Call.Cycle false] := ⟨[_], rfl, rfl⟩
  have h2 : Adds Call.isWeightOrCycle (s.cycle false)
      (if train = false then (s.cycle false).call Call.LogTstCyc else s.cycle false) [] := by
    split_ifs
    · exact Adds.call _ _ _
    · exact Adds.refl _ _
  have h3 := Adds.call Call.isWeightOrCycle
    (if train = false then (s.cycle false).call Call.LogTstCyc else s.cycle false)
    Call.CycleInc
  have h4 : Adds Call.isWeightOrCycle
      ((if train = false then (s.cycle false).call Call.LogTstCyc else s.cycle false).call
        Call.CycleInc)
      (alphaCycle train v s cyc) [] := by
    unfold alphaCycle
    simp only
    split_ifs
    all_goals first
      | exact Adds.call _ _ _
      | exact Adds.refl _ _
  simpa using Adds.trans (Adds.trans (Adds.trans h1 h2) h3) h4

theorem alphaQuarterGains_addsW (train : Bool) (qtr : Nat) (s : Sim) :
    Adds Call.isWeightOrCycle s (alphaQuarterGains train qtr s) [] := by
  unfold alphaQuarterGains
  split_ifs <;>
    first
      | exact Adds.refl _ _
      | exact ⟨[Call.GScaleFmAvgAct, Call.InitGInc], by simp [Sim.call, setPerCA1_eq], rfl⟩

theorem alphaQuarter_addsW (train : Bool) (v : TimeScales) (s : Sim) (qtr : Nat) :
    Adds Call.isWeightOrCycle s (alphaQuarter train v s qtr)
      (List.replicate 25 (Call.Cycle false)) := by
  have h1 := Adds.foldl (p := Call.isWeightOrCycle) (alphaCycle train v) [Call.Cycle false]
    (alphaCycle_addsW train v) (List.range 25) s
  have h2 := alphaQuarterGains_addsW train qtr ((List.range 25).foldl (alphaCycle train v) s)
  have h3 := Adds.call Call.isWeightOrCycle
    (alphaQuarterGains train qtr ((List.range 25).foldl (alphaCycle train v) s))
    Call.QuarterFinal
  have h4 := Adds.call Call.isWeightOrCycle
    ((alphaQuarterGains train qtr ((List.range 25).foldl (alphaCycle train v) s)).call
      Call.QuarterFinal) Call.QuarterInc
  have h5 : Adds Call.isWeightOrCycle
      (((alphaQuarterGains train qtr ((List.range 25).foldl (alphaCycle train v) s)).call
        Call.QuarterFinal).call Call.QuarterInc)
      (alphaQuarter train v s qtr) [] := by
    unfold alphaQuarter
    simp only
    split_ifs
    all_goals first
      | exact Adds.call _ _ _
      | exact Adds.refl _ _
  have h := Adds.trans (Adds.trans (Adds.trans (Adds.trans h1 h2) h3) h4) h5
  have e : (List.replicate (List.range 25).length [Call.Cycle false]).flatten
      = List.replicate 25 (Call.Cycle false) := by decide
  rw [e] at h
  simpa [Call.isWeightOrCycle] using h

theorem alphaHead_addsW (train : Bool) (s : Sim) :
    Adds Call.isWeightOrCycle s (alphaHead train s)
      (if train = true then [Call.WtFmDWt] else []) := by
  cases train <;>
    simp [alphaHead, alphaPreGains, setPerCA1_eq, Sim.call, Adds, Call.isWeightOrCycle]

theorem alphaTail_addsW (train : Bool) (v : TimeScales) (s : Sim) :
    Adds Call.isWeightOrCycle s (alphaTail train v s)
      (if train = true then [Call.DWt] else []) := by
  unfold alphaTail
  simp only [alphaPostGains_eq]
  cases train <;> cases hV : s.ViewOn <;> by_cases hv : v = TimeScales.AlphaCycle <;>
    by_cases hr : s.RunCur = 0 <;>
    simp [hV, hv, hr, Sim.call, Adds, Call.isWeightOrCycle]

theorem flatten_quarters :
    (List.replicate 4 (List.replicate 25 (Call.Cycle false))).flatten
      = List.replicate 100 (Call.Cycle false) := by
  rfl

theorem AlphaCyc_addsW (train : Bool) (ss : Sim) :
    Adds Call.isWeightOrCycle ss (AlphaCyc train ss)
      ((if train = true then [Call.WtFmDWt] else [])
        ++ List.replicate 100 (Call.Cycle false)
        ++ (if train = true then [Call.DWt] else [])) := by
  have h1 := alphaHead_addsW train ss
  have h2 := Adds.foldl (p := Call.isWeightOrCycle)
    (alphaQuarter train (alphaViewUpdt train ss))
    (List.replicate 25 (Call.Cycle false))
    (alphaQuarter_addsW train _) (List.range 4) (alphaHead train ss)
  have h3 := alphaTail_addsW train (alphaViewUpdt train ss)
    ((List.range 4).foldl (alphaQuarter train (alphaViewUpdt train ss)) (alphaHead train ss))
  have h := Adds.trans (Adds.trans h1 h2) h3
  have e : (List.range 4).length = 4 := List.length_range 4
  rw [e, flatten_quarters] at h
  exact h

/-- C13: of the calls that change weights and the engine cycles, `AlphaCyc(true)`
makes `WtFmDWt` once, then the 100 engine cycles, then `DWt` once, and nothing
else; `AlphaCyc(false)` makes the 100 engine cycles only, so neither `WtFmDWt`
nor `DWt` (nor `SlpDWt`) is called. -/
theorem C13_weight_calls (ss : Sim) :
    (callsSince ss (AlphaCyc true ss)).filter Call.isWeightOrCycle
      = [Call.WtFmDWt] ++ List.replicate 100 (Call.Cycle false) ++ [Call.DWt]
    ∧ (callsSince ss (AlphaCyc false ss)).filter Call.isWeightOrCycle
      = List.replicate 100 (Call.Cycle false)
    ∧ (callsSince ss (AlphaCyc true ss)).count Call.WtFmDWt = 1
    ∧ (callsSince ss (AlphaCyc true ss)).count Call.DWt = 1
    ∧ (callsSince ss (AlphaCyc false ss)).count Call.WtFmDWt = 0
    ∧ (callsSince ss (AlphaCyc false ss)).count Call.DWt = 0 := by
  have ht := (AlphaCyc_addsW true ss).filter_callsSince
  have hf := (AlphaCyc_addsW false ss).filter_callsSince
  simp only [if_true, Bool.false_eq_true, if_false, List.nil_append, List.append_nil] at ht hf
  refine ⟨ht, hf, ?_, ?_, ?_, ?_⟩
  · rw [← List.count_filter (p := Call.isWeightOrCycle) (a := Call.WtFmDWt) rfl, ht]
    simp only [List.count_append, List.count_replicate, List.count_cons, List.count_nil]
    decide
  · rw [← List.count_filter (p := Call.isWeightOrCycle) (a := Call.DWt) rfl, ht]
    simp only [List.count_append, List.count_replicate, List.count_cons, List.count_nil]
    decide
  · rw [← List.count_filter (p := Call.isWeightOrCycle) (a := Call.WtFmDWt) rfl, hf]
    simp only [List.count_append, List.count_replicate, List.count_cons, List.count_nil]
    decide
  · rw [← List.count_filter (p := Call.isWeightOrCycle) (a := Call.DWt) rfl, hf]
    simp only [List.count_append, List.count_replicate, List.count_cons, List.count_nil]
    decide

/-! ## The sleep session: the fixed budget of iterations -/

theorem isCommit_of_isLearn (c : Call) (h : c.isLearn = true) : c.isCommitOrCycle = false := by
  cases c <;> first | rfl | exact absurd h (by simp [Call.isLearn])

theorem sleepBody_commit (lys : List Layer) (v : TimeScales) (cyc : Nat)
    (st : Sim × SlpLocals) :
    (callsSince st.1 (sleepBody lys v cyc st).1).filter Call.isCommitOrCycle
      = [Call.WtFmDWt, Call.Cycle true] := by
  obtain ⟨D, hD, hDl⟩ := slpLearn_calls (sleepSense lys st.1) st.2
  obtain ⟨V, hVl, hb⟩ := sleepBody_calls lys v cyc st
  have hVf : V.filter Call.isCommitOrCycle = [] :=
    filter_eq_nil_of_forall (fun c hc => by rw [hVl c hc]; rfl)
  have hDf : D.filter Call.isCommitOrCycle = [] :=
    filter_eq_nil_of_forall (fun c hc => isCommit_of_isLearn c (hDl c hc))
  rw [callsSince_of_eq hb, callsSince_of_eq hD]
  simp [List.filter_append, hVf, hDf, Call.isCommitOrCycle]

theorem session_commit (eng : Nat → List Layer) (ss : Sim) (m : Nat) :
    (callsSince ss (sleepAt eng ss m).1).filter Call.isCommitOrCycle
      = Call.WtFmDWt :: (List.replicate m [Call.WtFmDWt, Call.Cycle true]).flatten := by
  induction m with
  | zero =>
    have e : sleepAt eng ss 0 = sleepPre ss := rfl
    rw [e, callsSince_of_eq (sleepPre_calls ss)]
    rfl
  | succ m ih =>
    obtain ⟨X, hX⟩ := sleepAt_prefix eng ss m
    obtain ⟨Y, hY⟩ := sleepAt_extends eng ss m
    rw [callsSince_split hX hY, List.filter_append, ih, sleepAt_succ, sleepBody_commit,
      List.replicate_succ', List.flatten_append]
    simp

theorem sleepPost_commit (st : Sim × SlpLocals) :
    ∃ V, (sleepPost st).calls = st.1.calls ++ V ∧ V.filter Call.isCommitOrCycle = [] := by
  cases hV : st.1.ViewOn
  · exact ⟨[Call.GScaleFmAvgAct, Call.InitGInc],
      by simp [sleepPost, Sim.call, perlysCA1, hV], rfl⟩
  · exact ⟨[Call.GScaleFmAvgAct, Call.InitGInc, Call.UpdateView true],
      by simp [sleepPost, Sim.call, perlysCA1, hV], rfl⟩

theorem SleepCyc_commit (eng : Nat → List Layer) (ss : Sim) :
    (callsSince ss (SleepCyc eng ss)).filter Call.isCommitOrCycle
      = Call.WtFmDWt :: (List.replicate sleepCycles [Call.WtFmDWt, Call.Cycle true]).flatten := by
  obtain ⟨X, hX⟩ := sleepAt_prefix eng ss sleepCycles
  obtain ⟨V, hV, hVf⟩ := sleepPost_commit (sleepAt eng ss sleepCycles)
  rw [SleepCyc_eq, callsSince_split hX hV, List.filter_append, callsSince_of_eq hV, hVf,
    List.append_nil, session_commit]

theorem count_flatten_replicate (a : Call) (L : List Call) (n : Nat) :
    (List.replicate n L).flatten.count a = n * L.count a := by
  induction n with
  | zero => simp
  | succ n ih =>
    rw [List.replicate_succ, List.flatten_cons, List.count_append, ih]
    ring

theorem checkStable_setStopMax (b : Bool) (m : Int) (s : Sim) (l : SlpLocals) :
    checkStable (setStopMax b m s) l = checkStable s l := rfl

theorem markPhase_setStopMax (b : Bool) (m : Int) (s : Sim) (l : SlpLocals) :
    markPhase (setStopMax b m s) l = (setStopMax b m (markPhase s l).1, (markPhase s l).2) := by
  unfold markPhase
  simp only [slpDWtLoop_eq, setStopMax, Sim.callAll]
  split_ifs <;> rfl

theorem slpLearn_setStopMax (b : Bool) (m : Int) (s : Sim) (l : SlpLocals) :
    slpLearn (setStopMax b m s) l = (setStopMax b m (slpLearn s l).1, (slpLearn s l).2) := by
  unfold slpLearn
  rw [checkStable_setStopMax, markPhase_setStopMax]
  have e : (setStopMax b m s).SlpLearn = s.SlpLearn := rfl
  rw [e]
  split_ifs <;> rfl

theorem sleepView_setStopMax (b : Bool) (m : Int) (v : TimeScales) (cyc : Nat) (s : Sim) :
    sleepView v cyc (setStopMax b m s) = setStopMax b m (sleepView v cyc s) := by
  unfold sleepView
  simp only [setStopMax, Sim.call]
  split_ifs <;> rfl

theorem sleepBody_setStopMax (b : Bool) (m : Int) (lys : List Layer) (v : TimeScales)
    (cyc : Nat) (st : Sim × SlpLocals) :
    sleepBody lys v cyc (setStopMax b m st.1, st.2)
      = (setStopMax b m (sleepBody lys v cyc st).1, (sleepBody lys v cyc st).2) := by
  have e1 : sleepSense lys (setStopMax b m st.1) = setStopMax b m (sleepSense lys st.1) := rfl
  unfold sleepBody
  dsimp only
  rw [e1, slpLearn_setStopMax]
  dsimp only
  have e2 : ((setStopMax b m (slpLearn (sleepSense lys st.1) st.2).1).call Call.CycleInc).call
      (Call.UpdateView true)
      = setStopMax b m ((((slpLearn (sleepSense lys st.1) st.2).1).call Call.CycleInc).call
          (Call.UpdateView true)) := rfl
  rw [e2, sleepView_setStopMax]

theorem sleepLoop_setStopMax (b : Bool) (m : Int) (eng : Nat → List Layer) (v : TimeScales)
    (c0 n : Nat) (st : Sim × SlpLocals) :
    sleepLoop eng v c0 n (setStopMax b m st.1, st.2)
      = (setStopMax b m (sleepLoop eng v c0 n st).1, (sleepLoop eng v c0 n st).2) := by
  induction n with
  | zero => rfl
  | succ n ih =>
    have e : ∀ t, sleepLoop eng v c0 (n + 1) t
        = sleepBody (eng (c0 + n)) v (c0 + n) (sleepLoop eng v c0 n t) := fun _ => rfl
    rw [e, e, ih, sleepBody_setStopMax]

theorem sleepPre_setStopMax (b : Bool) (m : Int) (ss : Sim) :
    sleepPre (setStopMax b m ss) = (setStopMax b m (sleepPre ss).1, (sleepPre ss).2) := by
  simp [sleepPre, setStopMax, Sim.call, perlys]

theorem sleepPost_setStopMax (b : Bool) (m : Int) (st : Sim × SlpLocals) :
    sleepPost (setStopMax b m st.1, st.2) = setStopMax b m (sleepPost st) := by
  cases hV : st.1.ViewOn <;> simp [sleepPost, setStopMax, Sim.call, perlysCA1, hV]

theorem SleepCyc_setStopMax (b : Bool) (m : Int) (eng : Nat → List Layer) (ss : Sim) :
    SleepCyc eng (setStopMax b m ss) = setStopMax b m (SleepCyc eng ss) := by
  unfold SleepCyc
  have e : (setStopMax b m ss).SleepUpdt = ss.SleepUpdt := rfl
  rw [e, sleepPre_setStopMax, sleepLoop_setStopMax, sleepPost_setStopMax]

/-- C14: whatever the stability trace `eng` and the state, `SleepCyc` commits
the pending weight changes once before its loop and then runs exactly 30000
iterations, each of which calls `WtFmDWt` once and then the engine `Cycle`
once: there are 30000 sleep cycles and no other engine cycle.  `StopNow` and
`MaxSlpCyc` are not read: setting them before the call changes nothing but
these two fields, so there is no early exit. -/
theorem C14_fixed_budget (eng : Nat → List Layer) (ss : Sim) :
    (callsSince ss (SleepCyc eng ss)).filter Call.isCommitOrCycle
      = Call.WtFmDWt :: (List.replicate 30000 [Call.WtFmDWt, Call.Cycle true]).flatten
    ∧ (callsSince ss (SleepCyc eng ss)).count (Call.Cycle true) = 30000
    ∧ (callsSince ss (SleepCyc eng ss)).count (Call.Cycle false) = 0
    ∧ (callsSince ss (SleepCyc eng ss)).count Call.WtFmDWt = 30001
    ∧ ∀ (b : Bool) (m : Int), SleepCyc eng { ss with StopNow := b, MaxSlpCyc := m }
        = { SleepCyc eng ss with StopNow := b, MaxSlpCyc := m } := by
  have h := SleepCyc_commit eng ss
  have hn : sleepCycles = 30000 := rfl
  rw [hn] at h
  refine ⟨h, ?_, ?_, ?_, fun b m => SleepCyc_setStopMax b m eng ss⟩
  · rw [← List.count_filter (p := Call.isCommitOrCycle) (a := Call.Cycle true) rfl, h,
      List.count_cons, count_flatten_replicate]
    decide
  · rw [← List.count_filter (p := Call.isCommitOrCycle) (a := Call.Cycle false) rfl, h,
      List.count_cons, count_flatten_replicate]
    decide
  · rw [← List.count_filter (p := Call.isCommitOrCycle) (a := Call.WtFmDWt) rfl, h,
      List.count_cons, count_flatten_replicate]
    decide

/-! ## The sleep session: the gains before and after the loop -/

theorem sleepPre_gains (ss : Sim) :
    (sleepPre ss).1
      = (({ ss with SlpTrls := 0,
                    CA3CA3 := GoFloat.fin 2,
                    PerFmCA1 := fun _ => GoFloat.fin 2,
                    calls := ss.calls ++ [Call.WtFmDWt] }).call Call.GScaleFmAvgAct).call
          Call.InitGInc := by
  have h : (sleepPre ss).1.PerFmCA1 = fun _ => GoFloat.fin 2 := by
    funext q
    cases q <;> simp [sleepPre, Sim.call, perlys, Function.update]
  have h2 : (sleepPre ss).1 = { (sleepPre ss).1 with PerFmCA1 := (sleepPre ss).1.PerFmCA1 } := rfl
  rw [h2, h]
  simp [sleepPre, Sim.call, perlys]

/-- C17, as the claim states it, fails: started from the state that `New`
builds, where the gain from CA3 to CA1 is 1, `SleepCyc` enters its loop with
that gain still 1, not 2. -/
theorem C17_counterexample :
    ¬ ((sleepPre (newSim [])).1.CA3CA3 = GoFloat.fin 2
        ∧ (sleepPre (newSim [])).1.CA3CA1 = GoFloat.fin 2) := by
  rw [sleepPre_gains]
  simp [newSim, Sim.call]

/-- C17, amended: before its loop `SleepCyc` sets the gain of the recurrent
projection from CA3 to CA3 and the gains of the seven projections from CA1 back
to the peripheral layers to 2, leaves the gain from CA3 to CA1 and the gains
from the peripheral layers to CA1 and to DG as they were, and then calls
`GScaleFmAvgAct` and `InitGInc`, with which it enters the loop. -/
theorem C17_pre_gains (eng : Nat → List Layer) (ss : Sim) :
    ∃ s : Sim, s.CA3CA3 = GoFloat.fin 2
      ∧ (∀ q, s.PerFmCA1 q = GoFloat.fin 2)
      ∧ s.CA3CA1 = ss.CA3CA1 ∧ s.PerCA1 = ss.PerCA1 ∧ s.PerDG = ss.PerDG
      ∧ s.calls = ss.calls ++ [Call.WtFmDWt]
      ∧ (sleepPre ss).1 = (s.call Call.GScaleFmAvgAct).call Call.InitGInc
      ∧ (sleepPre ss).1.CA3CA3 = GoFloat.fin 2
      ∧ (∀ q, (sleepPre ss).1.PerFmCA1 q = GoFloat.fin 2)
      ∧ (sleepPre ss).1.CA3CA1 = ss.CA3CA1
      ∧ sleepAt eng ss 0 = sleepPre ss :=
  ⟨{ ss with SlpTrls := 0,
             CA3CA3 := GoFloat.fin 2,
             PerFmCA1 := fun _ => GoFloat.fin 2,
             calls := ss.calls ++ [Call.WtFmDWt] },
    rfl, fun _ => rfl, rfl, rfl, rfl, rfl, sleepPre_gains ss,
    by rw [sleepPre_gains]; rfl, fun _ => by rw [sleepPre_gains]; rfl,
    by rw [sleepPre_gains]; rfl, rfl⟩

theorem sleepPost_gains (st : Sim × SlpLocals) :
    (sleepPost st).CA3CA3 = GoFloat.fin 1
    ∧ (∀ q, (sleepPost st).PerFmCA1 q = GoFloat.fin 1)
    ∧ (∀ q, (sleepPost st).PerCA1 q = GoFloat.fin 1)
    ∧ (∀ q, (sleepPost st).PerDG q = GoFloat.fin 1) := by
  cases hV : st.1.ViewOn
  · refine ⟨?_, fun q => ?_, fun q => ?_, fun q => ?_⟩
    · simp [sleepPost, Sim.call, perlysCA1, hV]
    all_goals cases q <;> simp [sleepPost, Sim.call, perlysCA1, hV, Function.update]
  · refine ⟨?_, fun q => ?_, fun q => ?_, fun q => ?_⟩
    · simp [sleepPost, Sim.call, perlysCA1, hV]
    all_goals cases q <;> simp [sleepPost, Sim.call, perlysCA1, hV, Function.update]

/-- C18: after `SleepCyc` returns, whatever the stability trace `eng` and the
state it was called in (so whatever phase the detector ended in), the gain of
the projection from CA3 to CA3 and the gains of the projections from CA1 to the
peripheral layers, which it had set to 2 before the loop, are 1, and so are the
gains of the projections from every peripheral layer to CA1 and to DG. -/
theorem C18_gains_restored (eng : Nat → List Layer) (ss : Sim) :
    ((sleepPre ss).1.CA3CA3 = GoFloat.fin 2 ∧ ∀ q, (sleepPre ss).1.PerFmCA1 q = GoFloat.fin 2)
    ∧ (SleepCyc eng ss).CA3CA3 = GoFloat.fin 1
    ∧ (∀ q, (SleepCyc eng ss).PerFmCA1 q = GoFloat.fin 1)
    ∧ (∀ q, (SleepCyc eng ss).PerCA1 q = GoFloat.fin 1)
    ∧ (∀ q, (SleepCyc eng ss).PerDG q = GoFloat.fin 1) := by
  refine ⟨⟨by rw [sleepPre_gains]; rfl, fun _ => by rw [sleepPre_gains]; rfl⟩, ?_⟩
  rw [SleepCyc_eq]
  exact sleepPost_gains _

/-! ## The inhibition oscillation -/

theorem saveGi_base (n : GiNet) (ly : LayNm) :
    (saveGi n).base ly = n.Gi (baseLayer ly) := by
  cases ly <;> rfl

theorem inhibOscil_eq (mul32 : GoFloat → GoFloat → GoFloat) (inhibs : List (List GoFloat))
    (sv : SavedGi) (cyc : Nat) (n : GiNet) (r0 r1 : List GoFloat) (f0 f1 : GoFloat)
    (hO : n.InhibOscil = true) (h0 : inhibs[0]? = some r0) (h1 : inhibs[1]? = some r1)
    (hf0 : r0[cyc]? = some f0) (hf1 : r1[cyc]? = some f1) :
    inhibOscil mul32 inhibs sv cyc n
      = some { Gi := fun ly => mul32 (sv.base ly) (groupFactor f0 f1 ly)
               InhibOscil := true
               InhibFactor := f0 } := by
  unfold inhibOscil
  simp only [hO, if_true, h0, h1, hf0, hf1, Option.bind_eq_bind, Option.some_bind, Option.pure_def,
    bind_pure_comp]
  simp only [resetGi, setGi, lowlayers, highlayers, List.foldl_cons, List.foldl_nil]
  congr 2
  funext ly
  cases ly <;> simp [Function.update, SavedGi.base, groupFactor, lowlayers]

theorem inhibOscil_off (mul32 : GoFloat → GoFloat → GoFloat) (inhibs : List (List GoFloat))
    (sv : SavedGi) (cyc : Nat) (n : GiNet) (hO : n.InhibOscil = false) :
    inhibOscil mul32 inhibs sv cyc n = some n := by
  simp [inhibOscil, hO]

theorem sleepGiLoop_succ (mul32 : GoFloat → GoFloat → GoFloat) (inhibs : List (List GoFloat))
    (sv : SavedGi) (k : Nat) (n : GiNet) :
    sleepGiLoop mul32 inhibs sv (k + 1) n
      = (sleepGiLoop mul32 inhibs sv k n).bind (inhibOscil mul32 inhibs sv k) := rfl

/-- With the oscillation on and a schedule long enough, the loop reaches every
iteration, and the state after iteration `k` is given by the saved gains and
the factors at index `k` alone. -/
theorem sleepGiLoop_eq (mul32 : GoFloat → GoFloat → GoFloat) (inhibs : List (List GoFloat))
    (sv : SavedGi) (n : GiNet) (r0 r1 : List GoFloat)
    (hO : n.InhibOscil = true) (h0 : inhibs[0]? = some r0) (h1 : inhibs[1]? = some r1)
    (k : Nat) (f0 f1 : GoFloat) (hf0 : r0[k]? = some f0) (hf1 : r1[k]? = some f1) :
    sleepGiLoop mul32 inhibs sv (k + 1) n
      = some { Gi := fun ly => mul32 (sv.base ly) (groupFactor f0 f1 ly)
               InhibOscil := true
               InhibFactor := f0 } := by
  induction k generalizing f0 f1 with
  | zero =>
    rw [sleepGiLoop_succ]
    exact inhibOscil_eq mul32 inhibs sv 0 n r0 r1 f0 f1 hO h0 h1 hf0 hf1
  | succ k ih =>
    have hk0 : k < r0.length := by
      have := (List.getElem?_eq_some_iff.mp hf0).1
      omega
    have hk1 : k < r1.length := by
      have := (List.getElem?_eq_some_iff.mp hf1).1
      omega
    rw [sleepGiLoop_succ, ih r0[k] r1[k] (List.getElem?_eq_getElem hk0)
      (List.getElem?_eq_getElem hk1)]
    exact inhibOscil_eq mul32 inhibs sv (k + 1) _ r0 r1 f0 f1 rfl h0 h1 hf0 hf1
theorem restoreGi_Gi (sv : SavedGi) (n : GiNet) (ly : LayNm) :
    (restoreGi sv n).Gi ly = if ly = LayNm.CA3 then n.Gi LayNm.CA3 else sv.base ly := by
  cases ly <;> simp [restoreGi, setGi, Function.update, SavedGi.base]

/-- With the oscillation on and a schedule of at least 30000 entries per group,
`SleepCyc` returns, and leaves every layer but CA3 at its saved baseline and
CA3 at its baseline times the last factor of the high group. -/
theorem SleepCycGi_eq (mul32 : GoFloat → GoFloat → GoFloat) (inhibs : List (List GoFloat))
    (n0 : GiNet) (r0 r1 : List GoFloat) (f0 f1 : GoFloat)
    (hO : n0.InhibOscil = true) (h0 : inhibs[0]? = some r0) (h1 : inhibs[1]? = some r1)
    (hf0 : r0[29999]? = some f0) (hf1 : r1[29999]? = some f1) :
    ∃ n', SleepCycGi mul32 inhibs n0 = some n'
      ∧ (∀ ly, ly ≠ LayNm.CA3 → n'.Gi ly = n0.Gi (baseLayer ly))
      ∧ n'.Gi LayNm.CA3 = mul32 (n0.Gi LayNm.CA3) f1 := by
  have e : sleepCycles = 29999 + 1 := rfl
  unfold SleepCycGi
  rw [e, sleepGiLoop_eq mul32 inhibs (saveGi n0) n0 r0 r1 hO h0 h1 29999 f0 f1 hf0 hf1]
  refine ⟨_, rfl, fun ly hly => ?_, ?_⟩
  · rw [restoreGi_Gi, if_neg hly, saveGi_base]
  · rw [restoreGi_Gi, if_pos rfl]
    rfl

theorem constSchedule_rows (f : GoFloat) :
    (constSchedule f)[0]? = some (List.replicate 30000 f)
    ∧ (constSchedule f)[1]? = some (List.replicate 30000 f) :=
  ⟨rfl, rfl⟩

theorem replicate_entry (f : GoFloat) (k : Nat) (h : k < 30000) :
    (List.replicate 30000 f)[k]? = some f := by
  rw [List.getElem?_replicate, if_pos h]

/-- C15, as the claim states it, fails: with the inhibitory gain of F2 at 2,
that of F1 at 1 and a schedule of factors 1, the first oscillation update
leaves the gain of F2 at 1, which is not its own gain at session start times
the factor. -/
theorem C15_counterexample :
    ∃ n', sleepGiLoop GoFloat.mul (constSchedule (GoFloat.fin 1)) (saveGi giNet12) 1 giNet12
        = some n'
      ∧ n'.Gi LayNm.F2 = GoFloat.fin 1
      ∧ GoFloat.mul (giNet12.Gi LayNm.F2)
          (groupFactor (GoFloat.fin 1) (GoFloat.fin 1) LayNm.F2) = GoFloat.fin 2
      ∧ n'.Gi LayNm.F2 ≠ GoFloat.mul (giNet12.Gi LayNm.F2)
          (groupFactor (GoFloat.fin 1) (GoFloat.fin 1) LayNm.F2) := by
  refine ⟨_, sleepGiLoop_eq GoFloat.mul (constSchedule (GoFloat.fin 1)) (saveGi giNet12) giNet12
    _ _ rfl (constSchedule_rows _).1 (constSchedule_rows _).2 0 _ _
    (replicate_entry _ 0 (by decide)) (replicate_entry _ 0 (by decide)), ?_, ?_, ?_⟩
  · simp [SavedGi.base, saveGi, giNet12, groupFactor, lowlayers, GoFloat.mul]
  · simp [giNet12, groupFactor, lowlayers, GoFloat.mul]
  · simp [SavedGi.base, saveGi, giNet12, groupFactor, lowlayers, GoFloat.mul]

/-- C15, amended: with `InhibOscil` on and a schedule that has entries at index
`cyc`, the loop of `SleepCyc` reaches the iteration `cyc`, and after its
oscillation update the inhibitory gain of every layer is the gain at session
start of its baseline layer (F1 for F1-F5, the layer itself for ClassName,
CodeName, DG, CA1 and CA3) times the factor of its group at index `cyc` (low:
ClassName, CA1, CodeName; high: F1-F5, DG, CA3).  The update gives this result
from whatever gains the earlier iterations left, so the factors never
compound. -/
theorem C15_oscillation (mul32 : GoFloat → GoFloat → GoFloat) (inhibs : List (List GoFloat))
    (n0 : GiNet) (r0 r1 : List GoFloat) (cyc : Nat) (f0 f1 : GoFloat)
    (hO : n0.InhibOscil = true) (h0 : inhibs[0]? = some r0) (h1 : inhibs[1]? = some r1)
    (hf0 : r0[cyc]? = some f0) (hf1 : r1[cyc]? = some f1) :
    ∃ n', sleepGiLoop mul32 inhibs (saveGi n0) (cyc + 1) n0 = some n'
      ∧ (∀ ly, n'.Gi ly = mul32 (n0.Gi (baseLayer ly)) (groupFactor f0 f1 ly))
      ∧ (∀ ly, ly ∉ [LayNm.F2, LayNm.F3, LayNm.F4, LayNm.F5] →
          n'.Gi ly = mul32 (n0.Gi ly) (groupFactor f0 f1 ly))
      ∧ (∀ n : GiNet, n.InhibOscil = true →
          inhibOscil mul32 inhibs (saveGi n0) cyc n = some n') := by
  refine ⟨_, sleepGiLoop_eq mul32 inhibs (saveGi n0) n0 r0 r1 hO h0 h1 cyc f0 f1 hf0 hf1,
    fun ly => ?_, fun ly hly => ?_,
    fun n hn => inhibOscil_eq mul32 inhibs (saveGi n0) cyc n r0 r1 f0 f1 hn h0 h1 hf0 hf1⟩
  · simp only [saveGi_base]
  · simp only [saveGi_base]
    cases ly <;> first | rfl | simp at hly

/-- C15 at the last iteration of a session on the example network, with all
factors 1. -/
theorem C15_oscillation_witness :
    ∃ n', sleepGiLoop GoFloat.mul (constSchedule (GoFloat.fin 1)) (saveGi giNet12) (29999 + 1)
        giNet12 = some n'
      ∧ (∀ ly, n'.Gi ly = GoFloat.mul (giNet12.Gi (baseLayer ly))
          (groupFactor (GoFloat.fin 1) (GoFloat.fin 1) ly))
      ∧ (∀ ly, ly ∉ [LayNm.F2, LayNm.F3, LayNm.F4, LayNm.F5] →
          n'.Gi ly = GoFloat.mul (giNet12.Gi ly)
            (groupFactor (GoFloat.fin 1) (GoFloat.fin 1) ly))
      ∧ (∀ n : GiNet, n.InhibOscil = true →
          inhibOscil GoFloat.mul (constSchedule (GoFloat.fin 1)) (saveGi giNet12) 29999 n
            = some n') :=
  C15_oscillation GoFloat.mul (constSchedule (GoFloat.fin 1)) giNet12
    (List.replicate 30000 (GoFloat.fin 1)) (List.replicate 30000 (GoFloat.fin 1)) 29999
    (GoFloat.fin 1) (GoFloat.fin 1) rfl (constSchedule_rows _).1 (constSchedule_rows _).2
    (replicate_entry _ 29999 (by decide)) (replicate_entry _ 29999 (by decide))

/-- C16, as the claim states it, fails: on the example network, whose gain of
F2 is 2 and whose other gains are 1, and with a schedule of factors 2,
`SleepCyc` returns with the gain of F2 at 1 and that of CA3 at 2. -/
theorem C16_counterexample :
    ∃ n', SleepCycGi GoFloat.mul (constSchedule (GoFloat.fin 2)) giNet12 = some n'
      ∧ n'.Gi LayNm.F2 ≠ giNet12.Gi LayNm.F2
      ∧ n'.Gi LayNm.CA3 ≠ giNet12.Gi LayNm.CA3 := by
  obtain ⟨n', h, hb, hc⟩ := SleepCycGi_eq GoFloat.mul (constSchedule (GoFloat.fin 2)) giNet12
    (List.replicate 30000 (GoFloat.fin 2)) (List.replicate 30000 (GoFloat.fin 2))
    (GoFloat.fin 2) (GoFloat.fin 2) rfl (constSchedule_rows _).1 (constSchedule_rows _).2
    (replicate_entry _ 29999 (by decide)) (replicate_entry _ 29999 (by decide))
  refine ⟨n', h, ?_, ?_⟩
  · rw [hb LayNm.F2 (by decide)]
    simp [giNet12, baseLayer]
  · rw [hc]
    simp [giNet12, GoFloat.mul]

/-- C16, amended: with `InhibOscil` on and a schedule of at least 30000 entries
per group, `SleepCyc` returns, and then the inhibitory gain of each of
ClassName, CodeName, DG and CA1 is its value before the session, and that of
each of F1-F5 is the value that F1 had before the session.  (Nothing is said
of CA3, which the code does not put back after the loop.) -/
theorem C16_gi_restored (mul32 : GoFloat → GoFloat → GoFloat) (inhibs : List (List GoFloat))
    (n0 : GiNet) (r0 r1 : List GoFloat) (f0 f1 : GoFloat)
    (hO : n0.InhibOscil = true) (h0 : inhibs[0]? = some r0) (h1 : inhibs[1]? = some r1)
    (hf0 : r0[29999]? = some f0) (hf1 : r1[29999]? = some f1) :
    ∃ n', SleepCycGi mul32 inhibs n0 = some n'
      ∧ (∀ ly ∈ [LayNm.ClassName, LayNm.CodeName, LayNm.DG, LayNm.CA1], n'.Gi ly = n0.Gi ly)
      ∧ (∀ ly ∈ [LayNm.F1, LayNm.F2, LayNm.F3, LayNm.F4, LayNm.F5],
          n'.Gi ly = n0.Gi LayNm.F1) := by
  obtain ⟨n', h, hb, _⟩ := SleepCycGi_eq mul32 inhibs n0 r0 r1 f0 f1 hO h0 h1 hf0 hf1
  refine ⟨n', h, fun ly hly => ?_, fun ly hly => ?_⟩
  · simp only [List.mem_cons, List.mem_singleton, List.not_mem_nil, or_false] at hly
    rcases hly with rfl | rfl | rfl | rfl <;> exact hb _ (by decide)
  · simp only [List.mem_cons, List.mem_singleton, List.not_mem_nil, or_false] at hly
    rcases hly with rfl | rfl | rfl | rfl | rfl <;> exact hb _ (by decide)

/-- C16 on the example network with a schedule of factors 2. -/
theorem C16_gi_restored_witness :
    ∃ n', SleepCycGi GoFloat.mul (constSchedule (GoFloat.fin 2)) giNet12 = some n'
      ∧ (∀ ly ∈ [LayNm.ClassName, LayNm.CodeName, LayNm.DG, LayNm.CA1],
          n'.Gi ly = giNet12.Gi ly)
      ∧ (∀ ly ∈ [LayNm.F1, LayNm.F2, LayNm.F3, LayNm.F4, LayNm.F5],
          n'.Gi ly = giNet12.Gi LayNm.F1) :=
  C16_gi_restored GoFloat.mul (constSchedule (GoFloat.fin 2)) giNet12
    (List.replicate 30000 (GoFloat.fin 2)) (List.replicate 30000 (GoFloat.fin 2))
    (GoFloat.fin 2) (GoFloat.fin 2) rfl (constSchedule_rows _).1 (constSchedule_rows _).2
    (replicate_entry _ 29999 (by decide)) (replicate_entry _ 29999 (by decide))

/-! ## The oscillation schedule -/

theorem oscRange_eq :
    oscRange = some ((List.range 100000).map
      (fun (x : Nat) => GoFloat.fin (3602879701896397 / 36028797018963968 * (x : ℚ)))) := by
  have hc : ⌈((10000 : ℚ) - 0) / (3602879701896397 / 36028797018963968)⌉ = 100000 := by
    rw [Int.ceil_eq_iff]
    constructor <;> norm_num
  have hd : ((3602879701896397 : ℚ) / 36028797018963968) ≠ 0 := by norm_num
  simp only [oscRange, oscStop, oscStart, oscStep, GoFloat.sub, GoFloat.div, if_neg hd,
    GoFloat.ceil, hc, GoFloat.toInt, Option.bind_eq_bind, Option.some_bind]
  have ht : (100000 : Int).toNat = 100000 := rfl
  have hp : (0 : ℚ) ≤ ((100000 : Int) : ℚ) := by norm_num
  have hn : ¬ (if (0 : ℚ) ≤ ((100000 : Int) : ℚ) then ⌊((100000 : Int) : ℚ)⌋
      else ⌈((100000 : Int) : ℚ)⌉) < 0 := by
    rw [if_pos hp, Int.floor_intCast]
    decide
  rw [if_neg hn, if_pos hp, Int.floor_intCast, ht]
  simp only [Option.pure_def, GoFloat.add, GoFloat.mul, zero_add]

theorem oscLoop_eq (cos : GoFloat → GoFloat) (a : List GoFloat) (n : Nat) (h : n ≤ a.length)
    (rows : List GoFloat × List GoFloat) :
    oscLoop cos a n rows
      = some (rows.1 ++ (a.take n).map (oscFactor cos 80),
              rows.2 ++ (a.take n).map (oscFactor cos 30)) := by
  induction n with
  | zero => simp [oscLoop]
  | succ n ih =>
    have hn : n < a.length := by omega
    simp only [oscLoop, ih (by omega), Option.bind_eq_bind, Option.some_bind,
      List.getElem?_eq_getElem hn, Option.pure_def, List.take_succ, List.map_append,
      Option.toList_some, List.map_cons, List.map_nil, List.append_assoc]
theorem oscLoop_full (cos : GoFloat → GoFloat) (a : List GoFloat) (h : a.length = 100000) :
    oscLoop cos a 100000 ([], [])
      = some (a.map (oscFactor cos 80), a.map (oscFactor cos 30)) := by
  have h1 := oscLoop_eq cos a 100000 (by omega) ([], [])
  have h2 : a.take 100000 = a := List.take_of_length_le (by omega)
  rw [h2] at h1
  exact h1

theorem sleepSchedule_eq (cos : GoFloat → GoFloat) :
    sleepSchedule cos
      = some [(List.range 100000).map (fun (i : Nat) => oscFactor cos 80
                (GoFloat.fin (3602879701896397 / 36028797018963968 * (i : ℚ)))),
              (List.range 100000).map (fun (i : Nat) => oscFactor cos 30
                (GoFloat.fin (3602879701896397 / 36028797018963968 * (i : ℚ))))] := by
  unfold sleepSchedule
  rw [oscRange_eq, Option.bind_eq_bind, Option.some_bind,
    oscLoop_full cos _ (by rw [List.length_map, List.length_range]),
    Option.bind_eq_bind, Option.some_bind]
  simp only [Option.pure_def, List.map_map, Function.comp_def]
theorem oscFactor_fin (cos : GoFloat → GoFloat) (d q : ℚ) :
    oscFactor cos d (GoFloat.fin q) = ((cos (GoFloat.fin q)).div (GoFloat.fin d)).add oscMid := by
  simp [oscFactor, GoFloat.div]

theorem SleepTrial_eq (cos : GoFloat → GoFloat) (mul32 : GoFloat → GoFloat → GoFloat)
    (eng : Nat → List Layer) (t : TrialSim) (inhibs : List (List GoFloat))
    (h : sleepSchedule cos = some inhibs) :
    SleepTrial cos mul32 eng t = sleepTrialTail mul32 eng inhibs (sleepTrialHead t) := by
  unfold SleepTrial
  rw [h, Option.bind_eq_bind, Option.some_bind]

/-- C20: the schedule that `SleepTrial` builds has two rows of exactly 100000
entries; the entry `i` of the low group is `cos(0.1 * i) / 80 + 0.99` and that
of the high group is `cos(0.1 * i) / 30 + 0.99`, with 0.1 and 0.99 the float64
values of the literals and whatever `cos` is; the schedule is built from no
field of the state, so `SleepTrial` runs the session of every state with this
one schedule. -/
theorem C20_schedule (cos : GoFloat → GoFloat) :
    ∃ r0 r1 : List GoFloat, sleepSchedule cos = some [r0, r1]
      ∧ r0.length = 100000 ∧ r1.length = 100000
      ∧ r0 = (List.range 100000).map (fun (i : Nat) =>
          ((cos (oscStep.mul (GoFloat.fin (i : ℚ)))).div (GoFloat.fin 80)).add oscMid)
      ∧ r1 = (List.range 100000).map (fun (i : Nat) =>
          ((cos (oscStep.mul (GoFloat.fin (i : ℚ)))).div (GoFloat.fin 30)).add oscMid)
      ∧ ∀ (mul32 : GoFloat → GoFloat → GoFloat) (eng : Nat → List Layer) (t : TrialSim),
          SleepTrial cos mul32 eng t = sleepTrialTail mul32 eng [r0, r1] (sleepTrialHead t) := by
  refine ⟨_, _, sleepSchedule_eq cos, ?_, ?_, ?_, ?_,
    fun mul32 eng t => SleepTrial_eq cos mul32 eng t _ (sleepSchedule_eq cos)⟩
  · rw [List.length_map, List.length_range]
  · rw [List.length_map, List.length_range]
  · simp only [oscFactor_fin, oscStep, GoFloat.mul]
  · simp only [oscFactor_fin, oscStep, GoFloat.mul]

/-! ## SleepTrial: back to wake -/

theorem sleepGiLoop_off (mul32 : GoFloat → GoFloat → GoFloat) (inhibs : List (List GoFloat))
    (sv : SavedGi) (n : GiNet) (hO : n.InhibOscil = false) (k : Nat) :
    sleepGiLoop mul32 inhibs sv k n = some n := by
  induction k with
  | zero => rfl
  | succ k ih =>
    rw [sleepGiLoop_succ, ih, Option.some_bind, inhibOscil_off mul32 inhibs sv k n hO]

/-- With a schedule of at least 30000 entries per group `SleepCyc` makes no
read out of range, whether the oscillation is on or off. -/
theorem SleepCycGi_total (mul32 : GoFloat → GoFloat → GoFloat) (inhibs : List (List GoFloat))
    (n0 : GiNet) (r0 r1 : List GoFloat) (h0 : inhibs[0]? = some r0) (h1 : inhibs[1]? = some r1)
    (hl0 : 30000 ≤ r0.length) (hl1 : 30000 ≤ r1.length) :
    ∃ n', SleepCycGi mul32 inhibs n0 = some n' := by
  cases hO : n0.InhibOscil
  · unfold SleepCycGi
    rw [sleepGiLoop_off mul32 inhibs _ n0 hO]
    exact ⟨_, rfl⟩
  · obtain ⟨n', h, _⟩ := SleepCycGi_eq mul32 inhibs n0 r0 r1 r0[29999] r1[29999] hO h0 h1
      (List.getElem?_eq_getElem (by omega)) (List.getElem?_eq_getElem (by omega))
    exact ⟨n', h⟩

theorem SleepCycInit_eq (t : TrialSim) :
    SleepCycInit t
      = { t with ss := t.ss.callAll
                    ([Call.TimeReset] ++ allLayers.map (fun ly => Call.SetType ly LayerType.Hidden)
                      ++ [Call.InitActs] ++ List.replicate 10 (Call.UpdateView true)
                      ++ (if t.SynDep = true then allLayers.map Call.InitSdEffWt else []))
                 Typ := fun _ => LayerType.Hidden } := by
  have hT : (SleepCycInit t).Typ = fun _ => LayerType.Hidden := by
    funext ly
    cases hS : t.SynDep <;> cases ly <;>
      simp [SleepCycInit, allLayers, TrialSim.call, TrialSim.setType, Function.update, hS]
  have h2 : SleepCycInit t = { SleepCycInit t with Typ := (SleepCycInit t).Typ } := rfl
  rw [h2, hT]
  cases hS : t.SynDep <;>
    simp [SleepCycInit, allLayers, TrialSim.call, TrialSim.setType, Sim.call, Sim.callAll, hS]

theorem BackToWake_eq (t : TrialSim) :
    BackToWake t
      = { t with ss := t.ss.callAll (wakeCalls t.SynDep)
                 Typ := fun ly => if ly ∈ iolynms then LayerType.Input else t.Typ ly } := by
  have hT : (BackToWake t).Typ
      = fun ly => if ly ∈ iolynms then LayerType.Input else t.Typ ly := by
    funext ly
    cases hS : t.SynDep <;> cases ly <;>
      simp [BackToWake, allLayers, iolynms, TrialSim.call, TrialSim.setType, Function.update, hS]
  have h2 : BackToWake t = { BackToWake t with Typ := (BackToWake t).Typ } := rfl
  rw [h2, hT]
  cases hS : t.SynDep <;>
    simp [BackToWake, allLayers, iolynms, wakeCalls, TrialSim.call, TrialSim.setType, Sim.call,
      Sim.callAll, hS]
theorem isWake_of_isLearn (c : Call) (h : c.isLearn = true) : c.isWake = false := by
  cases c <;> first | rfl | exact absurd h (by simp [Call.isLearn])

theorem sleepBody_wake (lys : List Layer) (v : TimeScales) (cyc : Nat) (st : Sim × SlpLocals) :
    Adds Call.isWake st.1 (sleepBody lys v cyc st).1 [] := by
  obtain ⟨D, hD, hDl⟩ := slpLearn_calls (sleepSense lys st.1) st.2
  obtain ⟨V, hVl, hb⟩ := sleepBody_calls lys v cyc st
  have hVf : V.filter Call.isWake = [] :=
    filter_eq_nil_of_forall (fun c hc => by rw [hVl c hc]; rfl)
  have hDf : D.filter Call.isWake = [] :=
    filter_eq_nil_of_forall (fun c hc => isWake_of_isLearn c (hDl c hc))
  refine ⟨_, hb, ?_⟩
  rw [callsSince_of_eq hD]
  simp [List.filter_append, hVf, hDf, Call.isWake]

theorem sleepAt_wake (eng : Nat → List Layer) (ss : Sim) (n : Nat) :
    Adds Call.isWake ss (sleepAt eng ss n).1 [] := by
  induction n with
  | zero => exact ⟨_, sleepPre_calls ss, rfl⟩
  | succ n ih =>
    have h := Adds.trans ih (sleepBody_wake (eng n) ss.SleepUpdt n (sleepAt eng ss n))
    rw [← sleepAt_succ] at h
    simpa using h

theorem sleepPost_wake (st : Sim × SlpLocals) : Adds Call.isWake st.1 (sleepPost st) [] := by
  cases hV : st.1.ViewOn
  · exact ⟨[Call.GScaleFmAvgAct, Call.InitGInc],
      by simp [sleepPost, Sim.call, perlysCA1, hV], rfl⟩
  · exact ⟨[Call.GScaleFmAvgAct, Call.InitGInc, Call.UpdateView true],
      by simp [sleepPost, Sim.call, perlysCA1, hV], rfl⟩

theorem SleepCyc_wake (eng : Nat → List Layer) (ss : Sim) :
    Adds Call.isWake ss (SleepCyc eng ss) [] := by
  have h := Adds.trans (sleepAt_wake eng ss sleepCycles) (sleepPost_wake (sleepAt eng ss sleepCycles))
  rw [← SleepCyc_eq] at h
  simpa using h

theorem sleepTrialHead_wake (t : TrialSim) :
    Adds Call.isWake t.ss (sleepTrialHead t).ss []
    ∧ (sleepTrialHead t).Typ = (fun _ => LayerType.Hidden)
    ∧ (sleepTrialHead t).SynDep = t.SynDep := by
  unfold sleepTrialHead
  rw [SleepCycInit_eq]
  refine ⟨?_, rfl, rfl⟩
  cases hS : t.SynDep
  · exact ⟨[Call.TimeReset] ++ allLayers.map (fun ly => Call.SetType ly LayerType.Hidden)
        ++ [Call.InitActs] ++ List.replicate 10 (Call.UpdateView true) ++ []
        ++ [Call.UpdateView true],
      by simp [TrialSim.call, Sim.call, Sim.callAll], by decide⟩
  · exact ⟨[Call.TimeReset] ++ allLayers.map (fun ly => Call.SetType ly LayerType.Hidden)
        ++ [Call.InitActs] ++ List.replicate 10 (Call.UpdateView true)
        ++ allLayers.map Call.InitSdEffWt ++ [Call.UpdateView true],
      by simp [TrialSim.call, Sim.call, Sim.callAll], by decide⟩

theorem sleepTrialTail_def (mul32 : GoFloat → GoFloat → GoFloat) (eng : Nat → List Layer)
    (inhibs : List (List GoFloat)) (t : TrialSim) :
    sleepTrialTail mul32 eng inhibs t
      = ((SleepCycGi mul32 inhibs t.gi).bind
          (fun gi => some { t with ss := SleepCyc eng t.ss, gi := gi })).bind
          (fun t => some (BackToWake (t.call Call.SlpCycPlotGoUpdate))) := rfl

theorem trialAfter_fields (s : Sim) (t : TrialSim) (gi : GiNet) :
    (({ t with ss := s, gi := gi }).call Call.SlpCycPlotGoUpdate).ss
        = s.call Call.SlpCycPlotGoUpdate
    ∧ (({ t with ss := s, gi := gi }).call Call.SlpCycPlotGoUpdate).Typ = t.Typ
    ∧ (({ t with ss := s, gi := gi }).call Call.SlpCycPlotGoUpdate).SynDep = t.SynDep :=
  ⟨rfl, rfl, rfl⟩

theorem sleepTrialTail_eq (mul32 : GoFloat → GoFloat → GoFloat) (eng : Nat → List Layer)
    (inhibs : List (List GoFloat)) (t : TrialSim) (r0 r1 : List GoFloat)
    (h0 : inhibs[0]? = some r0) (h1 : inhibs[1]? = some r1)
    (hl0 : 30000 ≤ r0.length) (hl1 : 30000 ≤ r1.length) :
    ∃ x : TrialSim, sleepTrialTail mul32 eng inhibs t = some (BackToWake x)
      ∧ x.ss = (SleepCyc eng t.ss).call Call.SlpCycPlotGoUpdate
      ∧ x.Typ = t.Typ ∧ x.SynDep = t.SynDep := by
  obtain ⟨gi, hgi⟩ := SleepCycGi_total mul32 inhibs t.gi r0 r1 h0 h1 hl0 hl1
  obtain ⟨f1, f2, f3⟩ := trialAfter_fields (SleepCyc eng t.ss) t gi
  refine ⟨_, ?_, f1, f2, f3⟩
  rw [sleepTrialTail_def, hgi, Option.some_bind, Option.some_bind]

theorem count_wakeCalls (s : Bool) (ly : LayNm) :
    (wakeCalls s).count (Call.TermSdEffWt ly) = (if s = true then 1 else 0)
    ∧ (wakeCalls s).count (Call.SetType ly LayerType.Input) = (if ly ∈ iolynms then 1 else 0)
    ∧ (wakeCalls s).count (Call.UpdateExtFlags ly) = (if ly ∈ iolynms then 1 else 0) := by
  cases s <;> cases ly <;> decide
theorem sleepSchedule_rows (cos : GoFloat → GoFloat) :
    ∃ r0 r1 : List GoFloat, sleepSchedule cos = some [r0, r1]
      ∧ r0.length = 100000 ∧ r1.length = 100000 :=
  ⟨_, _, sleepSchedule_eq cos, by rw [List.length_map, List.length_range],
    by rw [List.length_map, List.length_range]⟩

/-- What `BackToWake` adds to a state `x` all of whose layers are Hidden and
whose record, since the state `a`, has no call of `BackToWake`. -/
theorem BackToWake_after (a : Sim) (x : TrialSim) (hA : Adds Call.isWake a x.ss [])
    (hT : x.Typ = fun _ => LayerType.Hidden) :
    callsSince x.ss (BackToWake x).ss = wakeCalls x.SynDep
    ∧ (callsSince a (BackToWake x).ss).filter Call.isWake = wakeCalls x.SynDep
    ∧ (∀ ly, (callsSince a (BackToWake x).ss).count (Call.TermSdEffWt ly)
        = (if x.SynDep = true then 1 else 0))
    ∧ (∀ ly, (callsSince a (BackToWake x).ss).count (Call.SetType ly LayerType.Input)
        = (if ly ∈ iolynms then 1 else 0))
    ∧ (∀ ly, (BackToWake x).Typ ly
        = (if ly ∈ iolynms then LayerType.Input else LayerType.Hidden)) := by
  have hw : (BackToWake x).ss.calls = x.ss.calls ++ wakeCalls x.SynDep := by
    rw [BackToWake_eq]
    rfl
  have hall : (callsSince a (BackToWake x).ss).filter Call.isWake = wakeCalls x.SynDep := by
    obtain ⟨X, hX, hXf⟩ := hA
    rw [callsSince_split hX hw, List.filter_append, callsSince_of_eq hX, hXf,
      callsSince_of_eq hw, List.nil_append]
    cases x.SynDep <;> decide
  refine ⟨callsSince_of_eq hw, hall, fun ly => ?_, fun ly => ?_, fun ly => ?_⟩
  · rw [← List.count_filter (p := Call.isWake) (a := Call.TermSdEffWt ly) rfl, hall]
    exact (count_wakeCalls x.SynDep ly).1
  · rw [← List.count_filter (p := Call.isWake) (a := Call.SetType ly LayerType.Input) rfl, hall]
    exact (count_wakeCalls x.SynDep ly).2.1
  · rw [BackToWake_eq]
    simp only [hT]

/-- C19: `SleepTrial` returns, and what it returns is `BackToWake` of the state
`x` in which `SleepCyc` has returned and the sleep plot has been updated: up to
`x` no call of `BackToWake` has been made, and from `x` on the calls are those
of one `BackToWake`: `TermSdEffWt` on each of the ten layers if and only if
`SynDep` is on, then `SetType(Input)` and `UpdateExtFlags` on each of F1-F5,
CodeName and ClassName, each exactly once.  `SleepCycInit` had made every layer
Hidden, every layer is still Hidden in `x`, and after `SleepTrial` the seven
peripheral layers are Input and the other three Hidden. -/
theorem C19_back_to_wake (cos : GoFloat → GoFloat) (mul32 : GoFloat → GoFloat → GoFloat)
    (eng : Nat → List Layer) (t : TrialSim) :
    ∃ x t' : TrialSim, SleepTrial cos mul32 eng t = some t'
      ∧ t' = BackToWake x
      ∧ x.ss = (SleepCyc eng (sleepTrialHead t).ss).call Call.SlpCycPlotGoUpdate
      ∧ (callsSince t.ss x.ss).filter Call.isWake = []
      ∧ callsSince x.ss t'.ss = wakeCalls t.SynDep
      ∧ (callsSince t.ss t'.ss).filter Call.isWake = wakeCalls t.SynDep
      ∧ (∀ ly, (callsSince t.ss t'.ss).count (Call.TermSdEffWt ly)
          = (if t.SynDep = true then 1 else 0))
      ∧ (∀ ly, (callsSince t.ss t'.ss).count (Call.SetType ly LayerType.Input)
          = (if ly ∈ iolynms then 1 else 0))
      ∧ (∀ ly, (SleepCycInit t).Typ ly = LayerType.Hidden)
      ∧ (∀ ly, x.Typ ly = LayerType.Hidden)
      ∧ (∀ ly, t'.Typ ly = (if ly ∈ iolynms then LayerType.Input else LayerType.Hidden)) := by
  obtain ⟨hA, hT, hS⟩ := sleepTrialHead_wake t
  obtain ⟨r0, r1, hsch, hl0, hl1⟩ := sleepSchedule_rows cos
  obtain ⟨x, hx, hxss, hxT, hxS⟩ := sleepTrialTail_eq mul32 eng [r0, r1] (sleepTrialHead t)
    r0 r1 rfl rfl (by omega) (by omega)
  have hAx : Adds Call.isWake t.ss x.ss [] := by
    have h := Adds.trans (Adds.trans hA (SleepCyc_wake eng (sleepTrialHead t).ss))
      (Adds.call Call.isWake (SleepCyc eng (sleepTrialHead t).ss) Call.SlpCycPlotGoUpdate)
    rw [← hxss] at h
    simpa [Call.isWake] using h
  rw [hT] at hxT
  rw [hS] at hxS
  obtain ⟨b1, b2, b3, b4, b5⟩ := BackToWake_after t.ss x hAx hxT
  rw [hxS] at b1 b2 b3
  refine ⟨x, BackToWake x, (SleepTrial_eq cos mul32 eng t _ hsch).trans hx, rfl, hxss,
    hAx.filter_callsSince, b1, b2, b3, b4, fun ly => ?_, fun ly => by rw [hxT], b5⟩
  rw [SleepCycInit_eq]

/-! ## The invariant of the phase detector over a session -/

/-- C27: in a session started in Settling (the counters start at 0), after
every number `n` of steps the two phases are never both on; in Plus,
`pluscount >= 1` and `minuscount = stablecount = 0`; in Minus,
`minuscount >= 1` and `pluscount = stablecount = 0`; in Settling,
`pluscount = minuscount = 0` and `stablecount <= 4`. -/
theorem C27_phase_invariant (eng : Nat → List Layer) (ss : Sim)
    (hP : ss.PlusPhase = false) (hM : ss.MinusPhase = false) (n : Nat) :
    (sleepAt eng ss 0).2 = zeroLocals
    ∧ ¬ ((sleepAt eng ss n).1.PlusPhase = true ∧ (sleepAt eng ss n).1.MinusPhase = true)
    ∧ ((sleepAt eng ss n).1.PlusPhase = true →
        1 ≤ (sleepAt eng ss n).2.pluscount ∧ (sleepAt eng ss n).2.minuscount = 0
        ∧ (sleepAt eng ss n).2.stablecount = 0)
    ∧ ((sleepAt eng ss n).1.MinusPhase = true →
        1 ≤ (sleepAt eng ss n).2.minuscount ∧ (sleepAt eng ss n).2.pluscount = 0
        ∧ (sleepAt eng ss n).2.stablecount = 0)
    ∧ ((sleepAt eng ss n).1.PlusPhase = false → (sleepAt eng ss n).1.MinusPhase = false →
        (sleepAt eng ss n).2.pluscount = 0 ∧ (sleepAt eng ss n).2.minuscount = 0
        ∧ (sleepAt eng ss n).2.stablecount ≤ 4) := by
  obtain ⟨h1, h2, h3⟩ := sleepAt_inv eng ss hP hM n
  refine ⟨(sleepPre_fields ss).2.2.2.2, fun hb => ?_, fun h => (h1 h).2, fun h => (h2 h).2, h3⟩
  have := (h1 hb.1).1
  rw [hb.2] at this
  exact absurd this (by decide)

/-- C27 on the example session, after six steps (in Minus). -/
theorem C27_phase_invariant_witness :
    (sleepAt cycleEng (newSim []) 0).2 = zeroLocals
    ∧ ¬ ((sleepAt cycleEng (newSim []) 6).1.PlusPhase = true
        ∧ (sleepAt cycleEng (newSim []) 6).1.MinusPhase = true)
    ∧ ((sleepAt cycleEng (newSim []) 6).1.PlusPhase = true →
        1 ≤ (sleepAt cycleEng (newSim []) 6).2.pluscount
        ∧ (sleepAt cycleEng (newSim []) 6).2.minuscount = 0
        ∧ (sleepAt cycleEng (newSim []) 6).2.stablecount = 0)
    ∧ ((sleepAt cycleEng (newSim []) 6).1.MinusPhase = true →
        1 ≤ (sleepAt cycleEng (newSim []) 6).2.minuscount
        ∧ (sleepAt cycleEng (newSim []) 6).2.pluscount = 0
        ∧ (sleepAt cycleEng (newSim []) 6).2.stablecount = 0)
    ∧ ((sleepAt cycleEng (newSim []) 6).1.PlusPhase = false →
        (sleepAt cycleEng (newSim []) 6).1.MinusPhase = false →
        (sleepAt cycleEng (newSim []) 6).2.pluscount = 0
        ∧ (sleepAt cycleEng (newSim []) 6).2.minuscount = 0
        ∧ (sleepAt cycleEng (newSim []) 6).2.stablecount ≤ 4) :=
  C27_phase_invariant cycleEng (newSim []) rfl rfl 6

/-! ## The reads of the schedule -/

theorem oscRange_length :
    ∃ a : List GoFloat, oscRange = some a ∧ a.length = 100000 :=
  ⟨_, oscRange_eq, by rw [List.length_map, List.length_range]⟩

theorem SleepTrial_total (cos : GoFloat → GoFloat) (mul32 : GoFloat → GoFloat → GoFloat)
    (eng : Nat → List Layer) (t : TrialSim) :
    ∃ t', SleepTrial cos mul32 eng t = some t' := by
  obtain ⟨r0, r1, hsch, hl0, hl1⟩ := sleepSchedule_rows cos
  obtain ⟨x, hx, _⟩ := sleepTrialTail_eq mul32 eng [r0, r1] (sleepTrialHead t)
    r0 r1 rfl rfl (by omega) (by omega)
  exact ⟨_, (SleepTrial_eq cos mul32 eng t _ hsch).trans hx⟩

/-- C30: the slice `a` that `SleepTrial` builds has `N = ceil(10000 / 0.1) =
100000` entries, so each of its reads `a[i]`, `i < 100000`, is in range; the
schedule has two rows of 100000 entries, so each read `inhibs[0][cyc]` and
`inhibs[1][cyc]` of `SleepCyc`, whose loop index satisfies
`cyc < 30000 <= 100000`, is in range: on this schedule `SleepCyc` returns, for
every network and whether the oscillation is on or off, and so does
`SleepTrial`. -/
theorem C30_reads_in_bounds (cos : GoFloat → GoFloat) :
    ∃ a r0 r1 : List GoFloat, oscRange = some a ∧ a.length = 100000
      ∧ (∀ i : Fin 100000, ∃ x, a[i.val]? = some x)
      ∧ sleepSchedule cos = some [r0, r1]
      ∧ r0.length = 100000 ∧ r1.length = 100000
      ∧ sleepCycles = 30000 ∧ sleepCycles ≤ r0.length ∧ sleepCycles ≤ r1.length
      ∧ (∀ cyc : Fin sleepCycles, ∃ f0 f1, [r0, r1][0]? = some r0 ∧ r0[cyc.val]? = some f0
          ∧ [r0, r1][1]? = some r1 ∧ r1[cyc.val]? = some f1)
      ∧ (∀ (mul32 : GoFloat → GoFloat → GoFloat) (n : GiNet),
          ∃ n', SleepCycGi mul32 [r0, r1] n = some n')
      ∧ (∀ (mul32 : GoFloat → GoFloat → GoFloat) (eng : Nat → List Layer) (t : TrialSim),
          ∃ t', SleepTrial cos mul32 eng t = some t') := by
  obtain ⟨a, ha, hal⟩ := oscRange_length
  obtain ⟨r0, r1, hsch, hl0, hl1⟩ := sleepSchedule_rows cos
  have hc : sleepCycles = 30000 := rfl
  refine ⟨a, r0, r1, ha, hal, fun i => ?_, hsch, hl0, hl1, hc, by omega, by omega,
    fun cyc => ?_, fun mul32 n => ?_, fun mul32 eng t => SleepTrial_total cos mul32 eng t⟩
  · exact ⟨_, List.getElem?_eq_getElem (by have := i.isLt; omega)⟩
  · have h := cyc.isLt
    exact ⟨_, _, rfl, List.getElem?_eq_getElem (by omega), rfl,
      List.getElem?_eq_getElem (by omega)⟩
  · exact SleepCycGi_total mul32 [r0, r1] n r0 r1 rfl rfl (by omega) (by omega)

/-! ## A layer without similarity -/

/-- The sum of the clamped similarities of layers that are NaN or at most 1 is
minus infinity or a number at most the number of layers that are not NaN. -/
theorem clampSum_le (layers : List Layer)
    (h : ∀ ly ∈ layers, ly.Sim.isNaN = true ∨ ly.Sim.le (GoFloat.fin 1) = true) :
    (layers.map (fun ly => clampSim ly.Sim)).foldr GoFloat.add (GoFloat.fin 0) = GoFloat.inf true
    ∨ ∃ q, (layers.map (fun ly => clampSim ly.Sim)).foldr GoFloat.add (GoFloat.fin 0)
        = GoFloat.fin q
      ∧ q ≤ ((layers.filter (fun ly => !ly.Sim.isNaN)).length : ℚ) := by
  induction layers with
  | nil => exact Or.inr ⟨0, rfl, by simp⟩
  | cons ly L ih =>
    have hL := ih (fun x hx => h x (List.mem_cons_of_mem _ hx))
    have hly := h ly (List.mem_cons_self _ _)
    rw [List.map_cons, List.foldr_cons]
    rcases hs : ly.Sim with _ | s | x
    · have hf : List.filter (fun ly => !ly.Sim.isNaN) (ly :: L)
          = List.filter (fun ly => !ly.Sim.isNaN) L :=
        List.filter_cons_of_neg (by simp [hs, GoFloat.isNaN])
      rw [hf]
      simp only [clampSim, GoFloat.isNaN, if_true, goZero_add]
      exact hL
    · rw [hs] at hly
      have hst : s = true := by simpa [GoFloat.isNaN, GoFloat.le] using hly
      subst hst
      left
      rcases hL with e | ⟨q, e, _⟩ <;> rw [e] <;> simp [clampSim, GoFloat.isNaN, GoFloat.add]
    · rw [hs] at hly
      have hx : x ≤ 1 := by simpa [GoFloat.isNaN, GoFloat.le] using hly
      rcases hL with e | ⟨q, e, hq⟩
      · left
        rw [e]
        simp [clampSim, GoFloat.isNaN, GoFloat.add]
      · right
        refine ⟨x + q, ?_, ?_⟩
        · rw [e]
          simp [clampSim, GoFloat.isNaN, GoFloat.add]
        · have hf : List.filter (fun ly => !ly.Sim.isNaN) (ly :: L)
              = ly :: List.filter (fun ly => !ly.Sim.isNaN) L :=
            List.filter_cons_of_pos (by simp [hs, GoFloat.isNaN])
          rw [hf, List.length_cons]
          push_cast
          linarith

/-- With ten layers of which one is NaN and the others are NaN or at most 1,
`AvgLaySim` is at most 0.9, hence below `minusthresh`. -/
theorem avgLaySim_nan (layers : List Layer) (hlen : layers.length = 10)
    (hn : ∃ ly ∈ layers, ly.Sim.isNaN = true)
    (h : ∀ ly ∈ layers, ly.Sim.isNaN = true ∨ ly.Sim.le (GoFloat.fin 1) = true) :
    (avgLaySim layers).le (GoFloat.fin (9 / 10)) = true
    ∧ (GoFloat.fin (9 / 10)).lt minusthresh = true
    ∧ (avgLaySim layers).lt minusthresh = true := by
  have hc : (layers.filter (fun ly => !ly.Sim.isNaN)).length < layers.length := by
    rw [List.length_filter_lt_length_iff_exists]
    obtain ⟨ly, hm, hly⟩ := hn
    exact ⟨ly, hm, by simp [hly]⟩
  have hc9 : ((layers.filter (fun ly => !ly.Sim.isNaN)).length : ℚ) ≤ 9 := by
    have : (layers.filter (fun ly => !ly.Sim.isNaN)).length ≤ 9 := by omega
    exact_mod_cast this
  have hm : (GoFloat.fin (9 / 10)).lt minusthresh = true := by
    simp only [GoFloat.lt, minusthresh, decide_eq_true_eq]
    norm_num
  unfold avgLaySim
  rw [sumLaySim_eq]
  rcases clampSum_le layers h with e | ⟨q, e, hq⟩
  · rw [e]
    exact ⟨by simp [GoFloat.div, GoFloat.le], hm, by simp [GoFloat.div, GoFloat.lt, minusthresh]⟩
  · rw [e]
    have h10 : ¬ ((10 : ℚ) = 0) := by norm_num
    have h2 : (9 / 10 : ℚ) < 35148970028279 / 35184372088832 := by norm_num
    refine ⟨?_, hm, ?_⟩
    · simp only [GoFloat.div, if_neg h10, GoFloat.le, decide_eq_true_eq]
      linarith
    · simp only [GoFloat.div, if_neg h10, GoFloat.lt, minusthresh, decide_eq_true_eq]
      linarith
/-- Minus, then `AvgLaySim < minusthresh`: the counters, the phase average and
the weight updates of the iteration. -/
theorem step_minus_low_calls (eng : Nat → List Layer) (ss : Sim) (n : Nat)
    (hL : ss.SlpLearn = true)
    (hP : (sleepAt eng ss n).1.PlusPhase = false) (hM : (sleepAt eng ss n).1.MinusPhase = true)
    (hlt : (avgLaySim (eng n)).lt minusthresh = true) :
    (sleepAt eng ss (n + 1)).2
        = { (sleepAt eng ss n).2 with minuscount := 0, stablecount := 0 }
    ∧ (callsSince (sleepAt eng ss n).1 (sleepAt eng ss (n + 1)).1).filter Call.isCalcActM
        = (eng n).enum.map (fun q => Call.CalcActM q.1 (sleepAt eng ss n).2.minuscount)
    ∧ (callsSince (sleepAt eng ss n).1 (sleepAt eng ss (n + 1)).1).filter Call.isSlpDWt
        = forLayers (eng n) slpDWtCalls := by
  obtain ⟨s, fP, fM, _, fL, fLy, fA, _, bM, _, bl, hf⟩ := sleepAt_step eng ss n
  have e := slpLearn_minus_low (l := (sleepAt eng ss n).2) (by rw [fL, hL]) (by rw [fP, hP])
    (by rw [fM, hM]) (by rw [← fA]; exact hlt)
  refine ⟨by rw [bl, e], ?_, ?_⟩
  · rw [hf Call.isCalcActM rfl rfl rfl rfl rfl, fLy, e, slpDWtLoop_eq]
    simp [callsSince, Sim.callAll, List.filter_append, filter_forLayers, Call.isCalcActM,
      forLayers_singleton, forLayers_nil,
      filter_slpDWtCalls_of Call.isCalcActM (fun _ _ => rfl)]
    intro a x ly _ ha
    subst ha
    rfl
  · have hc : completes eng ss n = true := by
      simp [completes, hM, (step_minus_low eng ss n hL hP hM hlt).2]
    have h1 := (sleepAt_slpDWt eng ss n).1
    rw [if_pos hc] at h1
    exact h1

/-- Settling, then `AvgLaySim < plusthresh`: the counters and the calls of the
iteration. -/
theorem step_settle_lt_calls (eng : Nat → List Layer) (ss : Sim) (n : Nat)
    (hL : ss.SlpLearn = true)
    (hP : (sleepAt eng ss n).1.PlusPhase = false) (hM : (sleepAt eng ss n).1.MinusPhase = false)
    (hlt : (avgLaySim (eng n)).lt plusthresh = true) :
    (sleepAt eng ss (n + 1)).2 = { (sleepAt eng ss n).2 with stablecount := 0 }
    ∧ (callsSince (sleepAt eng ss n).1 (sleepAt eng ss (n + 1)).1).filter Call.isLearn = [] := by
  obtain ⟨s, fP, fM, _, fL, _, fA, _, _, _, bl, hf⟩ := sleepAt_step eng ss n
  have e := slpLearn_settle_lt (l := (sleepAt eng ss n).2) (by rw [fL, hL]) (by rw [fP, hP])
    (by rw [fM, hM]) (by rw [← fA]; exact hlt)
  refine ⟨by rw [bl, e], ?_⟩
  rw [hf Call.isLearn rfl rfl rfl rfl rfl, e]
  simp [callsSince]

/-- C29: in a session started in Settling with `SlpLearn` on, when at a step at
least one of the ten layers has NaN similarity and every other layer is NaN or
at most 1, `AvgLaySim <= 0.9 < minusthresh`, and after the step the detector is
in Settling with `pluscount = minuscount = stablecount = 0`: a step that
started in Plus makes no call on sums, averages or weights (the phase is
aborted), a step that started in Minus calls `CalcActM` on every layer and
`SlpDWt` on every projection that is on (the phase is completed). -/
theorem C29_nan_layer (eng : Nat → List Layer) (ss : Sim) (n : Nat)
    (hP0 : ss.PlusPhase = false) (hM0 : ss.MinusPhase = false) (hL : ss.SlpLearn = true)
    (hlen : (eng n).length = 10) (hn : ∃ ly ∈ eng n, ly.Sim.isNaN = true)
    (h : ∀ ly ∈ eng n, ly.Sim.isNaN = true ∨ ly.Sim.le (GoFloat.fin 1) = true) :
    (avgLaySim (eng n)).le (GoFloat.fin (9 / 10)) = true
    ∧ (GoFloat.fin (9 / 10)).lt minusthresh = true
    ∧ (sleepAt eng ss (n + 1)).1.PlusPhase = false
    ∧ (sleepAt eng ss (n + 1)).1.MinusPhase = false
    ∧ (sleepAt eng ss (n + 1)).2 = zeroLocals
    ∧ ((sleepAt eng ss n).1.PlusPhase = true →
        (callsSince (sleepAt eng ss n).1 (sleepAt eng ss (n + 1)).1).filter Call.isLearn = [])
    ∧ ((sleepAt eng ss n).1.MinusPhase = true →
        (callsSince (sleepAt eng ss n).1 (sleepAt eng ss (n + 1)).1).filter Call.isCalcActM
          = (eng n).enum.map (fun q => Call.CalcActM q.1 (sleepAt eng ss n).2.minuscount)
        ∧ (callsSince (sleepAt eng ss n).1 (sleepAt eng ss (n + 1)).1).filter Call.isSlpDWt
          = forLayers (eng n) slpDWtCalls) := by
  obtain ⟨a1, a2, a3⟩ := avgLaySim_nan (eng n) hlen hn h
  obtain ⟨i1, i2, i3⟩ := sleepAt_inv eng ss hP0 hM0 n
  refine ⟨a1, a2, ?_⟩
  cases hP : (sleepAt eng ss n).1.PlusPhase
  · cases hM : (sleepAt eng ss n).1.MinusPhase
    · obtain ⟨c1, c2, c3⟩ := i3 hP hM
      obtain ⟨b1, b2⟩ := step_settle_lt eng ss n hL hP hM (lt_plus_of_lt_minus a3)
      obtain ⟨d1, _⟩ := step_settle_lt_calls eng ss n hL hP hM (lt_plus_of_lt_minus a3)
      refine ⟨b1, b2, ?_, fun hc => absurd hc (by decide), fun hc => absurd hc (by decide)⟩
      rw [d1]
      generalize (sleepAt eng ss n).2 = l at c1 c2
      cases l
      simp only at c1 c2
      subst c1 c2
      rfl
    · obtain ⟨_, c1, c2, _⟩ := i2 hM
      obtain ⟨b1, b2⟩ := step_minus_low eng ss n hL hP hM a3
      obtain ⟨d1, d2, d3⟩ := step_minus_low_calls eng ss n hL hP hM a3
      refine ⟨b1, b2, ?_, fun hc => absurd hc (by decide), fun _ => ⟨d2, d3⟩⟩
      rw [d1]
      generalize (sleepAt eng ss n).2 = l at c2
      cases l
      simp only at c2
      subst c2
      rfl
  · obtain ⟨hM, _⟩ := i1 hP
    obtain ⟨b1, b2, b3, _, b5⟩ := step_plus_low eng ss n hL hP hM a3
    refine ⟨b1, b2, b3, fun _ => b5, fun hc => ?_⟩
    rw [hM] at hc
    exact absurd hc (by decide)

theorem nanLayers_hyps :
    nanLayers.length = 10 ∧ (∃ ly ∈ nanLayers, ly.Sim.isNaN = true)
    ∧ ∀ ly ∈ nanLayers, ly.Sim.isNaN = true ∨ ly.Sim.le (GoFloat.fin 1) = true := by
  refine ⟨rfl, ⟨_, List.mem_cons_self _ _, rfl⟩, fun ly hly => ?_⟩
  rcases List.mem_cons.1 hly with h | h
  · rw [h]
    exact Or.inl rfl
  · rw [(List.mem_replicate.1 h).2]
    exact Or.inr (by simp [GoFloat.le])

/-- The example session `nanPlusEng` is in Plus when the cycle with the NaN
layer is run. -/
theorem nanPlusEng_plus :
    (sleepAt nanPlusEng (newSim []) 5).1.PlusPhase = true :=
  (session_plus_after_five nanPlusEng (newSim []) rfl rfl rfl (fun j hj => by
    have e : nanPlusEng j = cycleEng j := if_neg (by omega)
    rw [e]
    exact cycleEng_ge j hj)).2.1

/-- The example session `nanMinusEng` is in Minus when the cycle with the NaN
layer is run. -/
theorem nanMinusEng_minus :
    (sleepAt nanMinusEng (newSim []) 6).1.MinusPhase = true := by
  have h5 := (session_plus_after_five nanMinusEng (newSim []) rfl rfl rfl (fun j hj => by
    have e : nanMinusEng j = cycleEng j := if_neg (by omega)
    rw [e]
    exact cycleEng_ge j hj)).2.1
  have e : nanMinusEng 5 = cycleEng 5 := rfl
  exact (step_plus_mid nanMinusEng (newSim []) 5 rfl h5
    (by rw [e, cycleEng_five]; exact midSim_lt_plusthresh)
    (by rw [e, cycleEng_five]; exact midSim_ge_minusthresh)).2

/-- C29 on two sessions in which one of the ten layers has NaN similarity and
the nine others have similarity 1: at step 5 of the first the detector is in
Plus, and the step aborts the phase; at step 6 of the second it is in Minus,
and the step completes the phase with `CalcActM` and the weight update. -/
theorem C29_nan_layer_witness :
    ((sleepAt nanPlusEng (newSim []) 5).1.PlusPhase = true
      ∧ (avgLaySim (nanPlusEng 5)).le (GoFloat.fin (9 / 10)) = true
      ∧ (sleepAt nanPlusEng (newSim []) (5 + 1)).1.PlusPhase = false
      ∧ (sleepAt nanPlusEng (newSim []) (5 + 1)).1.MinusPhase = false
      ∧ (sleepAt nanPlusEng (newSim []) (5 + 1)).2 = zeroLocals
      ∧ (callsSince (sleepAt nanPlusEng (newSim []) 5).1
          (sleepAt nanPlusEng (newSim []) (5 + 1)).1).filter Call.isLearn = [])
    ∧ ((sleepAt nanMinusEng (newSim []) 6).1.MinusPhase = true
      ∧ (avgLaySim (nanMinusEng 6)).le (GoFloat.fin (9 / 10)) = true
      ∧ (sleepAt nanMinusEng (newSim []) (6 + 1)).1.PlusPhase = false
      ∧ (sleepAt nanMinusEng (newSim []) (6 + 1)).1.MinusPhase = false
      ∧ (sleepAt nanMinusEng (newSim []) (6 + 1)).2 = zeroLocals
      ∧ (callsSince (sleepAt nanMinusEng (newSim []) 6).1
          (sleepAt nanMinusEng (newSim []) (6 + 1)).1).filter Call.isCalcActM
          = (nanMinusEng 6).enum.map
              (fun q => Call.CalcActM q.1 (sleepAt nanMinusEng (newSim []) 6).2.minuscount)
      ∧ (callsSince (sleepAt nanMinusEng (newSim []) 6).1
          (sleepAt nanMinusEng (newSim []) (6 + 1)).1).filter Call.isSlpDWt
          = forLayers (nanMinusEng 6) slpDWtCalls) := by
  obtain ⟨a1, _, a3, a4, a5, a6, _⟩ := C29_nan_layer nanPlusEng (newSim []) 5 rfl rfl rfl
    nanLayers_hyps.1 nanLayers_hyps.2.1 nanLayers_hyps.2.2
  obtain ⟨b1, _, b3, b4, b5, _, b7⟩ := C29_nan_layer nanMinusEng (newSim []) 6 rfl rfl rfl
    nanLayers_hyps.1 nanLayers_hyps.2.1 nanLayers_hyps.2.2
  exact ⟨⟨nanPlusEng_plus, a1, a3, a4, a5, a6 nanPlusEng_plus⟩,
    ⟨nanMinusEng_minus, b1, b3, b4, b5, (b7 nanMinusEng_minus).1, (b7 nanMinusEng_minus).2⟩⟩

/-! ## Counting the updates of the running sums -/

theorem runSumUpdts_append (i : Nat) (X Y : List Call) :
    runSumUpdts i (X ++ Y) = runSumUpdts i X + runSumUpdts i Y := by
  simp only [runSumUpdts, List.count_append]
  omega

theorem runSumUpdts_filter (i : Nat) (X : List Call) :
    runSumUpdts i (X.filter Call.isRunSumUpdt) = runSumUpdts i X := by
  unfold runSumUpdts
  rw [List.count_filter (p := Call.isRunSumUpdt) (a := Call.RunSumUpdt i true) rfl,
    List.count_filter (p := Call.isRunSumUpdt) (a := Call.RunSumUpdt i false) rfl]

theorem count_run_enumFrom (i : Nat) (b c : Bool) (L : List Layer) (k : Nat) :
    List.count (Call.RunSumUpdt i c) ((List.enumFrom k L).map (fun q => Call.RunSumUpdt q.1 b))
      = if b = c ∧ k ≤ i ∧ i < k + L.length then 1 else 0 := by
  induction L generalizing k with
  | nil =>
    have h : ¬ (b = c ∧ k ≤ i ∧ i < k + ([] : List Layer).length) := by
      simp only [List.length_nil]
      omega
    rw [if_neg h]
    rfl
  | cons ly L ih =>
    rw [List.enumFrom_cons, List.map_cons, List.count_cons, ih]
    by_cases hb : b = c
    · subst hb
      by_cases hik : k = i
      · subst hik
        simp
      · have h3 : ¬ (Call.RunSumUpdt k b = Call.RunSumUpdt i b) := fun h => by
          injection h with h1
          exact hik h1
        by_cases hlt : k ≤ i
        · have h1 : k + 1 ≤ i := by omega
          simp [h3, hlt, h1, Nat.add_assoc, Nat.add_comm 1]
        · have h1 : ¬ (k + 1 ≤ i) := by omega
          simp [h3, hlt, h1]
    · have h3 : ¬ (Call.RunSumUpdt k b = Call.RunSumUpdt i c) := fun h => by
        injection h with _ h2
        exact hb h2
      simp [h3, hb]

theorem runSumUpdts_forLayers (i : Nat) (b : Bool) (L : List Layer) :
    runSumUpdts i (forLayers L (fun j _ => [Call.RunSumUpdt j b]))
      = if i < L.length then 1 else 0 := by
  rw [forLayers_singleton]
  unfold runSumUpdts List.enum
  rw [count_run_enumFrom, count_run_enumFrom]
  cases b <;> by_cases h : i < L.length <;> simp [h]
theorem runSumUpdts_nil (i : Nat) : runSumUpdts i [] = 0 := rfl

theorem runSumUpdts_forLayers_mid (i : Nat) (pc : Nat) (L : List Layer) :
    runSumUpdts i (forLayers L (fun j _ => [Call.CalcActP j pc, Call.RunSumUpdt j true]))
      = if i < L.length then 1 else 0 := by
  rw [← runSumUpdts_filter, filter_forLayers]
  have e : (fun (j : Nat) (_ : Layer) =>
      List.filter Call.isRunSumUpdt [Call.CalcActP j pc, Call.RunSumUpdt j true])
      = (fun j _ => [Call.RunSumUpdt j true]) := by
    funext j _
    rfl
  rw [e, runSumUpdts_forLayers]

/-- What the phase detector does to the counter of the phase it leaves the
session in, against the number of calls of `RunSumUpdt` it makes on a layer. -/
theorem slpLearn_runs (s : Sim) (l : SlpLocals) (h : PhaseInv (s, l)) (i : Nat)
    (hi : i < s.Layers.length) :
    ((slpLearn s l).1.PlusPhase = true →
        (slpLearn s l).2.pluscount
          = l.pluscount + runSumUpdts i (callsSince s (slpLearn s l).1))
    ∧ ((slpLearn s l).1.MinusPhase = true →
        (slpLearn s l).2.minuscount
          = l.minuscount + runSumUpdts i (callsSince s (slpLearn s l).1)) := by
  obtain ⟨i1, i2, i3⟩ := h
  simp only at i1 i2 i3
  have one : ∀ b : Bool, runSumUpdts i (forLayers s.Layers (fun j _ => [Call.RunSumUpdt j b]))
      = 1 := fun b => by rw [runSumUpdts_forLayers, if_pos hi]
  cases hL : s.SlpLearn
  · rw [slpLearn_off hL, callsSince_self, runSumUpdts_nil]
    exact ⟨fun _ => rfl, fun _ => rfl⟩
  cases hP : s.PlusPhase
  · cases hM : s.MinusPhase
    · -- Settling
      obtain ⟨c1, c2, c3⟩ := i3 hP hM
      rcases thresh_cases s.AvgLaySim with c | ⟨c, _⟩ | c | ⟨d1, d2, d3, d4⟩
      · by_cases h4 : l.stablecount = 4
        · rw [slpLearn_enter_plus hL hP hM c h4]
          refine ⟨fun _ => ?_, fun hm => ?_⟩
          · dsimp only
            rw [callsSince_callAll s { s with PlusPhase := true } _ rfl, one]
          · exact absurd (hM.symm.trans hm) (by decide)
        · rw [slpLearn_settle_ge hL hP hM c h4]
          exact ⟨fun hp => absurd (hP.symm.trans hp) (by decide),
            fun hm => absurd (hM.symm.trans hm) (by decide)⟩
      · rw [slpLearn_settle_lt hL hP hM c]
        exact ⟨fun hp => absurd (hP.symm.trans hp) (by decide),
          fun hm => absurd (hM.symm.trans hm) (by decide)⟩
      · rw [slpLearn_settle_lt hL hP hM (lt_plus_of_lt_minus c)]
        exact ⟨fun hp => absurd (hP.symm.trans hp) (by decide),
          fun hm => absurd (hM.symm.trans hm) (by decide)⟩
      · rw [slpLearn_idle d1 d2 d3 d4]
        exact ⟨fun hp => absurd (hP.symm.trans hp) (by decide),
          fun hm => absurd (hM.symm.trans hm) (by decide)⟩
    · -- Minus
      rcases thresh_cases s.AvgLaySim with c | ⟨_, c⟩ | c | ⟨d1, d2, d3, d4⟩
      · rw [slpLearn_minus_ge hL hP hM (ge_minus_of_ge_plus c)]
        refine ⟨fun hp => absurd (hP.symm.trans hp) (by decide), fun _ => ?_⟩
        rw [callsSince_callAll _ _ _ rfl, one]
      · rw [slpLearn_minus_ge hL hP hM c]
        refine ⟨fun hp => absurd (hP.symm.trans hp) (by decide), fun _ => ?_⟩
        rw [callsSince_callAll _ _ _ rfl, one]
      · rw [slpLearn_minus_low hL hP hM c, slpDWtLoop_eq]
        exact ⟨fun hp => absurd (hP.symm.trans hp) (by decide),
          fun hm => absurd hm (by simp [Sim.callAll])⟩
      · rw [slpLearn_idle d1 d2 d3 d4, callsSince_self, runSumUpdts_nil]
        exact ⟨fun _ => rfl, fun _ => rfl⟩
  · -- Plus
    obtain ⟨hM, c1, c2, c3⟩ := i1 hP
    rcases thresh_cases s.AvgLaySim with c | ⟨c, c'⟩ | c | ⟨d1, d2, d3, d4⟩
    · rw [slpLearn_plus_ge hL hP (by omega) c]
      refine ⟨fun _ => ?_, fun hm => absurd (hM.symm.trans hm) (by decide)⟩
      rw [callsSince_callAll _ _ _ rfl, one]
    · rw [slpLearn_plus_mid hL hP c c']
      refine ⟨fun hp => absurd hp (by simp [Sim.callAll]), fun _ => ?_⟩
      dsimp only
      rw [callsSince_callAll s { s with PlusPhase := false, MinusPhase := true } _ rfl,
        runSumUpdts_forLayers_mid, if_pos hi]
    · rw [slpLearn_plus_low hL hP hM c]
      exact ⟨fun hp => absurd hp (by simp), fun hm => absurd (hM.symm.trans hm) (by decide)⟩
    · rw [slpLearn_idle d1 d2 d3 d4, callsSince_self, runSumUpdts_nil]
      exact ⟨fun _ => rfl, fun _ => rfl⟩
theorem sleepAt_between (eng : Nat → List Layer) (ss : Sim) (a d : Nat) :
    ∃ X, (sleepAt eng ss (a + d)).1.calls = (sleepAt eng ss a).1.calls ++ X := by
  induction d with
  | zero => exact ⟨[], by simp⟩
  | succ d ih =>
    obtain ⟨X, hX⟩ := ih
    obtain ⟨Y, hY⟩ := sleepAt_extends eng ss (a + d)
    exact ⟨X ++ Y, by rw [← Nat.add_assoc, hY, hX, List.append_assoc]⟩

theorem runSumUpdts_succ (eng : Nat → List Layer) (ss : Sim) (a b i : Nat) (hab : a ≤ b) :
    runSumUpdts i (callsSince (sleepAt eng ss a).1 (sleepAt eng ss (b + 1)).1)
      = runSumUpdts i (callsSince (sleepAt eng ss a).1 (sleepAt eng ss b).1)
        + runSumUpdts i (callsSince (sleepAt eng ss b).1 (sleepAt eng ss (b + 1)).1) := by
  obtain ⟨X, hX⟩ := sleepAt_between eng ss a (b - a)
  have e : a + (b - a) = b := by omega
  rw [e] at hX
  obtain ⟨Y, hY⟩ := sleepAt_extends eng ss b
  rw [callsSince_split hX hY, runSumUpdts_append]

/-- In a session started in Settling, a step that leaves the detector in Plus
adds to `pluscount` the number of calls of `RunSumUpdt` it makes on a layer,
and a step that leaves it in Minus adds that number to `minuscount`. -/
theorem step_runs (eng : Nat → List Layer) (ss : Sim)
    (hP0 : ss.PlusPhase = false) (hM0 : ss.MinusPhase = false) (n i : Nat)
    (hi : i < (eng n).length) :
    ((sleepAt eng ss (n + 1)).1.PlusPhase = true →
        (sleepAt eng ss (n + 1)).2.pluscount = (sleepAt eng ss n).2.pluscount
          + runSumUpdts i (callsSince (sleepAt eng ss n).1 (sleepAt eng ss (n + 1)).1))
    ∧ ((sleepAt eng ss (n + 1)).1.MinusPhase = true →
        (sleepAt eng ss (n + 1)).2.minuscount = (sleepAt eng ss n).2.minuscount
          + runSumUpdts i (callsSince (sleepAt eng ss n).1 (sleepAt eng ss (n + 1)).1)) := by
  obtain ⟨s, fP, fM, _, _, fLy, _, bP, bM, _, bl, hf⟩ := sleepAt_step eng ss n
  have hinv : PhaseInv (s, (sleepAt eng ss n).2) := by
    have h := sleepAt_inv eng ss hP0 hM0 n
    unfold PhaseInv at h ⊢
    simp only
    rw [fP, fM]
    exact h
  obtain ⟨r1, r2⟩ := slpLearn_runs s (sleepAt eng ss n).2 hinv i (by rw [← fLy]; exact hi)
  have e : runSumUpdts i (callsSince (sleepAt eng ss n).1 (sleepAt eng ss (n + 1)).1)
      = runSumUpdts i (callsSince s (slpLearn s (sleepAt eng ss n).2).1) := by
    rw [← runSumUpdts_filter, hf Call.isRunSumUpdt rfl rfl rfl rfl rfl, runSumUpdts_filter]
  rw [bP, bM, bl, e]
  exact ⟨r1, r2⟩

/-- A Plus phase that is on after `b` steps was entered at some step `a`, and
`pluscount` is the number of calls of `RunSumUpdt` made on a layer from that
step on. -/
theorem plus_run (eng : Nat → List Layer) (ss : Sim)
    (hP0 : ss.PlusPhase = false) (hM0 : ss.MinusPhase = false) (b : Nat)
    (hb : (sleepAt eng ss b).1.PlusPhase = true) :
    ∃ a, a < b ∧ (sleepAt eng ss a).1.PlusPhase = false
      ∧ (∀ k, a < k → k ≤ b → (sleepAt eng ss k).1.PlusPhase = true)
      ∧ ∀ i, (∀ k, a ≤ k → k < b → i < (eng k).length) →
          runSumUpdts i (callsSince (sleepAt eng ss a).1 (sleepAt eng ss b).1)
            = (sleepAt eng ss b).2.pluscount := by
  induction b with
  | zero =>
    rw [sleepAt_zero, (sleepPre_fields ss).1, hP0] at hb
    exact absurd hb (by decide)
  | succ b ih =>
    cases hp : (sleepAt eng ss b).1.PlusPhase
    · refine ⟨b, by omega, hp, fun k h1 h2 => ?_, fun i hi => ?_⟩
      · have e : k = b + 1 := by omega
        rw [e]
        exact hb
      · have h0 : (sleepAt eng ss b).2.pluscount = 0 := by
          obtain ⟨_, i2, i3⟩ := sleepAt_inv eng ss hP0 hM0 b
          cases hm : (sleepAt eng ss b).1.MinusPhase
          · exact (i3 hp hm).1
          · exact (i2 hm).2.2.1
        rw [((step_runs eng ss hP0 hM0 b i (hi b (le_refl b) (by omega))).1 hb), h0, Nat.zero_add]
    · obtain ⟨a, ha, hpa, hrun, hcnt⟩ := ih hp
      refine ⟨a, by omega, hpa, fun k h1 h2 => ?_, fun i hi => ?_⟩
      · by_cases e : k = b + 1
        · rw [e]
          exact hb
        · exact hrun k h1 (by omega)
      · rw [runSumUpdts_succ eng ss a b i (by omega),
          hcnt i (fun k h1 h2 => hi k h1 (by omega)),
          ((step_runs eng ss hP0 hM0 b i (hi b (by omega) (by omega))).1 hb)]

/-- A Minus phase that is on after `d` steps was entered at some step `b`, and
`minuscount` is the number of calls of `RunSumUpdt` made on a layer from that
step on. -/
theorem minus_run (eng : Nat → List Layer) (ss : Sim)
    (hP0 : ss.PlusPhase = false) (hM0 : ss.MinusPhase = false) (d : Nat)
    (hd : (sleepAt eng ss d).1.MinusPhase = true) :
    ∃ b, b < d ∧ (sleepAt eng ss b).1.MinusPhase = false
      ∧ (∀ k, b < k → k ≤ d → (sleepAt eng ss k).1.MinusPhase = true)
      ∧ ∀ i, (∀ k, b ≤ k → k < d → i < (eng k).length) →
          runSumUpdts i (callsSince (sleepAt eng ss b).1 (sleepAt eng ss d).1)
            = (sleepAt eng ss d).2.minuscount := by
  induction d with
  | zero =>
    rw [sleepAt_zero, (sleepPre_fields ss).2.1, hM0] at hd
    exact absurd hd (by decide)
  | succ d ih =>
    cases hm : (sleepAt eng ss d).1.MinusPhase
    · refine ⟨d, by omega, hm, fun k h1 h2 => ?_, fun i hi => ?_⟩
      · have e : k = d + 1 := by omega
        rw [e]
        exact hd
      · have h0 : (sleepAt eng ss d).2.minuscount = 0 := by
          obtain ⟨i1, _, i3⟩ := sleepAt_inv eng ss hP0 hM0 d
          cases hp : (sleepAt eng ss d).1.PlusPhase
          · exact (i3 hp hm).2.1
          · exact (i1 hp).2.2.1
        rw [((step_runs eng ss hP0 hM0 d i (hi d (le_refl d) (by omega))).2 hd), h0, Nat.zero_add]
    · obtain ⟨b, hb, hmb, hrun, hcnt⟩ := ih hm
      refine ⟨b, by omega, hmb, fun k h1 h2 => ?_, fun i hi => ?_⟩
      · by_cases e : k = d + 1
        · rw [e]
          exact hd
        · exact hrun k h1 (by omega)
      · rw [runSumUpdts_succ eng ss b d i (by omega),
          hcnt i (fun k h1 h2 => hi k h1 (by omega)),
          ((step_runs eng ss hP0 hM0 d i (hi d (by omega) (by omega))).2 hd)]

theorem checkStable_counts (s : Sim) (l : SlpLocals) :
    (checkStable s l).pluscount = l.pluscount
    ∧ (checkStable s l).minuscount = l.minuscount := by
  unfold checkStable
  split_ifs <;> exact ⟨rfl, rfl⟩

theorem not_mem_forLayers_run {L : List Layer} {b : Bool} {c : Call}
    (h : c ∈ forLayers L (fun i _ => [Call.RunSumUpdt i b])) : c.isRunSumUpdt = true := by
  obtain ⟨i, ly, hc⟩ := mem_forLayers h
  simp only [List.mem_singleton] at hc
  subst hc
  rfl

/-- The detector calls `CalcActP` only on the step that switches from Plus to
Minus, with the value of `pluscount` at that step. -/
theorem markPhase_calcActP (s : Sim) (l : SlpLocals) (j m : Nat)
    (h : Call.CalcActP j m ∈ callsSince s (markPhase s l).1) :
    s.PlusPhase = true ∧ m = l.pluscount ∧ (markPhase s l).1.PlusPhase = false := by
  unfold markPhase at h ⊢
  split_ifs at h ⊢ with h1 h2 h3 h4 h5 h6
  · dsimp only at h
    rw [callsSince_callAll s { s with PlusPhase := true } _ rfl] at h
    exact absurd (not_mem_forLayers_run h) (by simp [Call.isRunSumUpdt])
  · rw [callsSince_callAll s s _ rfl] at h
    exact absurd (not_mem_forLayers_run h) (by simp [Call.isRunSumUpdt])
  · dsimp only at h
    rw [callsSince_callAll s { s with PlusPhase := false, MinusPhase := true } _ rfl] at h
    obtain ⟨i, ly, hc⟩ := mem_forLayers h
    simp only [List.mem_cons, List.mem_singleton, Call.CalcActP.injEq, List.mem_nil_iff,
      or_false, reduceCtorEq] at hc
    exact ⟨h3.2.2, hc.2, rfl⟩
  · rw [callsSince_callAll s s _ rfl] at h
    exact absurd (not_mem_forLayers_run h) (by simp [Call.isRunSumUpdt])
  · rw [slpDWtLoop_eq] at h
    dsimp only [Sim.callAll] at h
    rw [callsSince_of_eq (List.append_assoc _ _ _)] at h
    rcases List.mem_append.1 h with h | h
    · obtain ⟨i, ly, hc⟩ := mem_forLayers h
      simp at hc
    · obtain ⟨i, ly, hc⟩ := mem_forLayers h
      obtain ⟨k, hk⟩ := mem_slpDWtCalls hc
      exact absurd hk (by simp)
  · simp [callsSince] at h
  · rw [callsSince_self] at h
    exact absurd h (List.not_mem_nil _)

/-- The detector calls `CalcActM` only on the step that completes a Minus
phase, with the value of `minuscount` at that step. -/
theorem markPhase_calcActM (s : Sim) (l : SlpLocals) (j m : Nat)
    (h : Call.CalcActM j m ∈ callsSince s (markPhase s l).1) :
    s.MinusPhase = true ∧ m = l.minuscount ∧ (markPhase s l).1.MinusPhase = false := by
  unfold markPhase at h ⊢
  split_ifs at h ⊢ with h1 h2 h3 h4 h5 h6
  · dsimp only at h
    rw [callsSince_callAll s { s with PlusPhase := true } _ rfl] at h
    exact absurd (not_mem_forLayers_run h) (by simp [Call.isRunSumUpdt])
  · rw [callsSince_callAll s s _ rfl] at h
    exact absurd (not_mem_forLayers_run h) (by simp [Call.isRunSumUpdt])
  · dsimp only at h
    rw [callsSince_callAll s { s with PlusPhase := false, MinusPhase := true } _ rfl] at h
    obtain ⟨i, ly, hc⟩ := mem_forLayers h
    simp at hc
  · rw [callsSince_callAll s s _ rfl] at h
    exact absurd (not_mem_forLayers_run h) (by simp [Call.isRunSumUpdt])
  · rw [slpDWtLoop_eq] at h ⊢
    dsimp only [Sim.callAll] at h
    rw [callsSince_of_eq (List.append_assoc _ _ _)] at h
    rcases List.mem_append.1 h with h | h
    · obtain ⟨i, ly, hc⟩ := mem_forLayers h
      simp only [List.mem_singleton, Call.CalcActM.injEq] at hc
      exact ⟨h5.2, hc.2, rfl⟩
    · obtain ⟨i, ly, hc⟩ := mem_forLayers h
      obtain ⟨k, hk⟩ := mem_slpDWtCalls hc
      exact absurd hk (by simp)
  · simp [callsSince] at h
  · rw [callsSince_self] at h
    exact absurd h (List.not_mem_nil _)

theorem slpLearn_calcActP (s : Sim) (l : SlpLocals) (j m : Nat)
    (h : Call.CalcActP j m ∈ callsSince s (slpLearn s l).1) :
    s.PlusPhase = true ∧ m = l.pluscount ∧ (slpLearn s l).1.PlusPhase = false := by
  unfold slpLearn at h ⊢
  split_ifs at h ⊢
  · have := markPhase_calcActP s (checkStable s l) j m h
    rw [(checkStable_counts s l).1] at this
    exact this
  · rw [callsSince_self] at h
    exact absurd h (List.not_mem_nil _)

theorem slpLearn_calcActM (s : Sim) (l : SlpLocals) (j m : Nat)
    (h : Call.CalcActM j m ∈ callsSince s (slpLearn s l).1) :
    s.MinusPhase = true ∧ m = l.minuscount ∧ (slpLearn s l).1.MinusPhase = false := by
  unfold slpLearn at h ⊢
  split_ifs at h ⊢
  · have := markPhase_calcActM s (checkStable s l) j m h
    rw [(checkStable_counts s l).2] at this
    exact this
  · rw [callsSince_self] at h
    exact absurd h (List.not_mem_nil _)

/-- A call of `CalcActP` in step `b` of a session is made from Plus, with the
`pluscount` the step starts with, and the step leaves Plus. -/
theorem step_calcActP (eng : Nat → List Layer) (ss : Sim) (b j m : Nat)
    (h : Call.CalcActP j m ∈ callsSince (sleepAt eng ss b).1 (sleepAt eng ss (b + 1)).1) :
    (sleepAt eng ss b).1.PlusPhase = true ∧ m = (sleepAt eng ss b).2.pluscount
    ∧ (sleepAt eng ss (b + 1)).1.PlusPhase = false := by
  obtain ⟨s, fP, _, _, _, _, _, bP, _, _, _, hf⟩ := sleepAt_step eng ss b
  have h1 : Call.CalcActP j m ∈ (callsSince (sleepAt eng ss b).1
      (sleepAt eng ss (b + 1)).1).filter Call.isCalcActP := List.mem_filter.2 ⟨h, rfl⟩
  rw [hf Call.isCalcActP rfl rfl rfl rfl rfl] at h1
  obtain ⟨r1, r2, r3⟩ := slpLearn_calcActP s _ j m (List.mem_filter.1 h1).1
  exact ⟨fP ▸ r1, r2, bP.trans r3⟩

/-- A call of `CalcActM` in step `d` of a session is made from Minus, with the
`minuscount` the step starts with, and the step leaves Minus. -/
theorem step_calcActM (eng : Nat → List Layer) (ss : Sim) (d j m : Nat)
    (h : Call.CalcActM j m ∈ callsSince (sleepAt eng ss d).1 (sleepAt eng ss (d + 1)).1) :
    (sleepAt eng ss d).1.MinusPhase = true ∧ m = (sleepAt eng ss d).2.minuscount
    ∧ (sleepAt eng ss (d + 1)).1.MinusPhase = false := by
  obtain ⟨s, _, fM, _, _, _, _, _, bM, _, _, hf⟩ := sleepAt_step eng ss d
  have h1 : Call.CalcActM j m ∈ (callsSince (sleepAt eng ss d).1
      (sleepAt eng ss (d + 1)).1).filter Call.isCalcActM := List.mem_filter.2 ⟨h, rfl⟩
  rw [hf Call.isCalcActM rfl rfl rfl rfl rfl] at h1
  obtain ⟨r1, r2, r3⟩ := slpLearn_calcActM s _ j m (List.mem_filter.1 h1).1
  exact ⟨fM ▸ r1, r2, bM.trans r3⟩
theorem count_init_filter (i : Nat) (X : List Call) :
    (X.filter Call.isRunSumUpdt).count (Call.RunSumUpdt i true)
      = X.count (Call.RunSumUpdt i true) :=
  List.count_filter (p := Call.isRunSumUpdt) (a := Call.RunSumUpdt i true) rfl

theorem count_init_forLayers (i : Nat) (b : Bool) (L : List Layer) :
    (forLayers L (fun j _ => [Call.RunSumUpdt j b])).count (Call.RunSumUpdt i true)
      = if b = true ∧ i < L.length then 1 else 0 := by
  rw [forLayers_singleton]
  unfold List.enum
  rw [count_run_enumFrom]
  simp

theorem count_init_forLayers_mid (i : Nat) (pc : Nat) (L : List Layer) :
    (forLayers L (fun j _ => [Call.CalcActP j pc, Call.RunSumUpdt j true])).count
        (Call.RunSumUpdt i true)
      = if i < L.length then 1 else 0 := by
  rw [← count_init_filter, filter_forLayers]
  have e : (fun (j : Nat) (_ : Layer) =>
      List.filter Call.isRunSumUpdt [Call.CalcActP j pc, Call.RunSumUpdt j true])
      = (fun j _ => [Call.RunSumUpdt j true]) := by
    funext j _
    rfl
  rw [e, count_init_forLayers]
  simp

/-- The detector calls `RunSumUpdt` with `init = true` once on a layer when it
enters a phase, and not at all when it continues one. -/
theorem slpLearn_inits (s : Sim) (l : SlpLocals) (h : PhaseInv (s, l)) (i : Nat)
    (hi : i < s.Layers.length) :
    ((slpLearn s l).1.PlusPhase = true →
        (callsSince s (slpLearn s l).1).count (Call.RunSumUpdt i true)
          = if s.PlusPhase = true then 0 else 1)
    ∧ ((slpLearn s l).1.MinusPhase = true →
        (callsSince s (slpLearn s l).1).count (Call.RunSumUpdt i true)
          = if s.MinusPhase = true then 0 else 1) := by
  obtain ⟨i1, i2, i3⟩ := h
  simp only at i1 i2 i3
  have one : (forLayers s.Layers (fun j _ => [Call.RunSumUpdt j true])).count
      (Call.RunSumUpdt i true) = 1 := by
    rw [count_init_forLayers, if_pos ⟨rfl, hi⟩]
  have zero : (forLayers s.Layers (fun j _ => [Call.RunSumUpdt j false])).count
      (Call.RunSumUpdt i true) = 0 := by
    rw [count_init_forLayers, if_neg (by simp)]
  cases hL : s.SlpLearn
  · rw [slpLearn_off hL]
    exact ⟨fun hp => by rw [callsSince_self, if_pos hp]; rfl,
      fun hm => by rw [callsSince_self, if_pos hm]; rfl⟩
  cases hP : s.PlusPhase
  · cases hM : s.MinusPhase
    · -- Settling
      obtain ⟨c1, c2, c3⟩ := i3 hP hM
      rcases thresh_cases s.AvgLaySim with c | ⟨c, _⟩ | c | ⟨d1, d2, d3, d4⟩
      · by_cases h4 : l.stablecount = 4
        · rw [slpLearn_enter_plus hL hP hM c h4]
          refine ⟨fun _ => ?_, fun hm => ?_⟩
          · dsimp only
            rw [callsSince_callAll s { s with PlusPhase := true } _ rfl, one]
            rfl
          · exact absurd (hM.symm.trans hm) (by decide)
        · rw [slpLearn_settle_ge hL hP hM c h4]
          exact ⟨fun hp => absurd (hP.symm.trans hp) (by decide),
            fun hm => absurd (hM.symm.trans hm) (by decide)⟩
      · rw [slpLearn_settle_lt hL hP hM c]
        exact ⟨fun hp => absurd (hP.symm.trans hp) (by decide),
          fun hm => absurd (hM.symm.trans hm) (by decide)⟩
      · rw [slpLearn_settle_lt hL hP hM (lt_plus_of_lt_minus c)]
        exact ⟨fun hp => absurd (hP.symm.trans hp) (by decide),
          fun hm => absurd (hM.symm.trans hm) (by decide)⟩
      · rw [slpLearn_idle d1 d2 d3 d4]
        exact ⟨fun hp => absurd (hP.symm.trans hp) (by decide),
          fun hm => absurd (hM.symm.trans hm) (by decide)⟩
    · -- Minus
      rcases thresh_cases s.AvgLaySim with c | ⟨_, c⟩ | c | ⟨d1, d2, d3, d4⟩
      · rw [slpLearn_minus_ge hL hP hM (ge_minus_of_ge_plus c)]
        refine ⟨fun hp => absurd (hP.symm.trans hp) (by decide), fun _ => ?_⟩
        rw [callsSince_callAll _ _ _ rfl, zero]
        rfl
      · rw [slpLearn_minus_ge hL hP hM c]
        refine ⟨fun hp => absurd (hP.symm.trans hp) (by decide), fun _ => ?_⟩
        rw [callsSince_callAll _ _ _ rfl, zero]
        rfl
      · rw [slpLearn_minus_low hL hP hM c, slpDWtLoop_eq]
        exact ⟨fun hp => absurd (hP.symm.trans hp) (by decide),
          fun hm => absurd hm (by simp [Sim.callAll])⟩
      · rw [slpLearn_idle d1 d2 d3 d4, callsSince_self]
        exact ⟨fun hp => absurd (hP.symm.trans hp) (by decide), fun _ => rfl⟩
  · -- Plus
    obtain ⟨hM, c1, c2, c3⟩ := i1 hP
    rcases thresh_cases s.AvgLaySim with c | ⟨c, c'⟩ | c | ⟨d1, d2, d3, d4⟩
    · rw [slpLearn_plus_ge hL hP (by omega) c]
      refine ⟨fun _ => ?_, fun hm => absurd (hM.symm.trans hm) (by decide)⟩
      rw [callsSince_callAll _ _ _ rfl, zero]
      rfl
    · rw [slpLearn_plus_mid hL hP c c']
      refine ⟨fun hp => absurd hp (by simp [Sim.callAll]), fun _ => ?_⟩
      dsimp only
      rw [callsSince_callAll s { s with PlusPhase := false, MinusPhase := true } _ rfl,
        count_init_forLayers_mid, if_pos hi, hM]
      rfl
    · rw [slpLearn_plus_low hL hP hM c]
      exact ⟨fun hp => absurd hp (by simp), fun hm => absurd (hM.symm.trans hm) (by decide)⟩
    · rw [slpLearn_idle d1 d2 d3 d4, callsSince_self]
      exact ⟨fun _ => rfl, fun hm => absurd (hM.symm.trans hm) (by decide)⟩

/-- In a session started in Settling, the step that enters a phase calls
`RunSumUpdt` with `init = true` once on a layer, and a step that continues the
phase never does. -/
theorem step_inits (eng : Nat → List Layer) (ss : Sim)
    (hP0 : ss.PlusPhase = false) (hM0 : ss.MinusPhase = false) (n i : Nat)
    (hi : i < (eng n).length) :
    ((sleepAt eng ss (n + 1)).1.PlusPhase = true →
        (callsSince (sleepAt eng ss n).1 (sleepAt eng ss (n + 1)).1).count
            (Call.RunSumUpdt i true)
          = if (sleepAt eng ss n).1.PlusPhase = true then 0 else 1)
    ∧ ((sleepAt eng ss (n + 1)).1.MinusPhase = true →
        (callsSince (sleepAt eng ss n).1 (sleepAt eng ss (n + 1)).1).count
            (Call.RunSumUpdt i true)
          = if (sleepAt eng ss n).1.MinusPhase = true then 0 else 1) := by
  obtain ⟨s, fP, fM, _, _, fLy, _, bP, bM, _, bl, hf⟩ := sleepAt_step eng ss n
  have hinv : PhaseInv (s, (sleepAt eng ss n).2) := by
    have h := sleepAt_inv eng ss hP0 hM0 n
    unfold PhaseInv at h ⊢
    simp only
    rw [fP, fM]
    exact h
  obtain ⟨r1, r2⟩ := slpLearn_inits s (sleepAt eng ss n).2 hinv i (by rw [← fLy]; exact hi)
  have e : (callsSince (sleepAt eng ss n).1 (sleepAt eng ss (n + 1)).1).count
        (Call.RunSumUpdt i true)
      = (callsSince s (slpLearn s (sleepAt eng ss n).2).1).count (Call.RunSumUpdt i true) := by
    rw [← count_init_filter, hf Call.isRunSumUpdt rfl rfl rfl rfl rfl, count_init_filter]
  rw [bP, bM, e, ← fP, ← fM]
  exact ⟨r1, r2⟩
/-- C28: in a session of `SleepCyc` started in Settling, a call `CalcActP(m)`
made in step `b` has `m >= 1`, ends a Plus phase that was entered in some
earlier step `a` and was on ever since, and `m` is the number of calls of
`RunSumUpdt` made on a layer from step `a` up to step `b`: one with
`init = true` in step `a`, the rest with `init = false`.  The same holds for a
call `CalcActM(m)` and the Minus phase, whose entry step is the one that calls
`CalcActP`. -/
theorem C28_phase_counts (eng : Nat → List Layer) (ss : Sim)
    (hP0 : ss.PlusPhase = false) (hM0 : ss.MinusPhase = false) (b j m : Nat) :
    (Call.CalcActP j m ∈ callsSince (sleepAt eng ss b).1 (sleepAt eng ss (b + 1)).1 →
      1 ≤ m ∧ (sleepAt eng ss (b + 1)).1.PlusPhase = false
      ∧ ∃ a, a < b ∧ (sleepAt eng ss a).1.PlusPhase = false
        ∧ (∀ k, a < k → k ≤ b → (sleepAt eng ss k).1.PlusPhase = true)
        ∧ ∀ i, (∀ k, a ≤ k → k < b → i < (eng k).length) →
            runSumUpdts i (callsSince (sleepAt eng ss a).1 (sleepAt eng ss b).1) = m
            ∧ (callsSince (sleepAt eng ss a).1 (sleepAt eng ss (a + 1)).1).count
                (Call.RunSumUpdt i true) = 1
            ∧ ∀ k, a < k → k < b →
                (callsSince (sleepAt eng ss k).1 (sleepAt eng ss (k + 1)).1).count
                  (Call.RunSumUpdt i true) = 0)
    ∧ (Call.CalcActM j m ∈ callsSince (sleepAt eng ss b).1 (sleepAt eng ss (b + 1)).1 →
      1 ≤ m ∧ (sleepAt eng ss (b + 1)).1.MinusPhase = false
      ∧ ∃ a, a < b ∧ (sleepAt eng ss a).1.MinusPhase = false
        ∧ (∀ k, a < k → k ≤ b → (sleepAt eng ss k).1.MinusPhase = true)
        ∧ ∀ i, (∀ k, a ≤ k → k < b → i < (eng k).length) →
            runSumUpdts i (callsSince (sleepAt eng ss a).1 (sleepAt eng ss b).1) = m
            ∧ (callsSince (sleepAt eng ss a).1 (sleepAt eng ss (a + 1)).1).count
                (Call.RunSumUpdt i true) = 1
            ∧ ∀ k, a < k → k < b →
                (callsSince (sleepAt eng ss k).1 (sleepAt eng ss (k + 1)).1).count
                  (Call.RunSumUpdt i true) = 0) := by
  constructor
  · intro h
    obtain ⟨hp, hm, hoff⟩ := step_calcActP eng ss b j m h
    obtain ⟨a, ha, hpa, hrun, hcnt⟩ := plus_run eng ss hP0 hM0 b hp
    have h1 := ((sleepAt_inv eng ss hP0 hM0 b).1 hp).2.1
    refine ⟨by omega, hoff, a, ha, hpa, hrun, fun i hi => ⟨?_, ?_, fun k h1 h2 => ?_⟩⟩
    · rw [hcnt i hi, hm]
    · rw [(step_inits eng ss hP0 hM0 a i (hi a (le_refl a) ha)).1 (hrun (a + 1) (by omega) ha),
        if_neg (by rw [hpa]; decide)]
    · rw [(step_inits eng ss hP0 hM0 k i (hi k (by omega) h2)).1 (hrun (k + 1) (by omega) h2),
        if_pos (hrun k h1 (by omega))]
  · intro h
    obtain ⟨hp, hm, hoff⟩ := step_calcActM eng ss b j m h
    obtain ⟨a, ha, hpa, hrun, hcnt⟩ := minus_run eng ss hP0 hM0 b hp
    have h1 := ((sleepAt_inv eng ss hP0 hM0 b).2.1 hp).2.1
    refine ⟨by omega, hoff, a, ha, hpa, hrun, fun i hi => ⟨?_, ?_, fun k h1 h2 => ?_⟩⟩
    · rw [hcnt i hi, hm]
    · rw [(step_inits eng ss hP0 hM0 a i (hi a (le_refl a) ha)).2 (hrun (a + 1) (by omega) ha),
        if_neg (by rw [hpa]; decide)]
    · rw [(step_inits eng ss hP0 hM0 k i (hi k (by omega) h2)).2 (hrun (k + 1) (by omega) h2),
        if_pos (hrun k h1 (by omega))]

/-- C28 on the example session, whose step 5 calls `CalcActP(1)`. -/
theorem C28_phase_counts_witness :
    (newSim []).PlusPhase = false ∧ (newSim []).MinusPhase = false
    ∧ (Call.CalcActP 0 1 ∈ callsSince (sleepAt cycleEng (newSim []) 5).1
          (sleepAt cycleEng (newSim []) 6).1 →
        1 ≤ 1 ∧ (sleepAt cycleEng (newSim []) 6).1.PlusPhase = false
        ∧ ∃ a, a < 5 ∧ (sleepAt cycleEng (newSim []) a).1.PlusPhase = false
          ∧ (∀ k, a < k → k ≤ 5 → (sleepAt cycleEng (newSim []) k).1.PlusPhase = true)
          ∧ ∀ i, (∀ k, a ≤ k → k < 5 → i < (cycleEng k).length) →
              runSumUpdts i (callsSince (sleepAt cycleEng (newSim []) a).1
                (sleepAt cycleEng (newSim []) 5).1) = 1
              ∧ (callsSince (sleepAt cycleEng (newSim []) a).1
                  (sleepAt cycleEng (newSim []) (a + 1)).1).count (Call.RunSumUpdt i true) = 1
              ∧ ∀ k, a < k → k < 5 →
                  (callsSince (sleepAt cycleEng (newSim []) k).1
                    (sleepAt cycleEng (newSim []) (k + 1)).1).count
                    (Call.RunSumUpdt i true) = 0) :=
  ⟨rfl, rfl, (C28_phase_counts cycleEng (newSim []) rfl rfl 5 0 1).1⟩

/-! ## The statistics of an epoch -/

theorem div_zero_isFin (a : GoFloat) : (a.div (GoFloat.fin 0)).isFin = false := by
  rcases a with _ | s | a
  · rfl
  · rfl
  · by_cases h : a = 0 <;> simp [GoFloat.div, GoFloat.isFin, h]

theorem one_sub_isFin (a : GoFloat) (h : a.isFin = false) :
    ((GoFloat.fin 1).sub a).isFin = false := by
  rcases a with _ | s | a
  · rfl
  · rfl
  · simp [GoFloat.isFin] at h

theorem epcShared_fields (ss : StatSim) :
    (epcShared ss).EpcShSSE = ss.ShSumSSE.div (GoFloat.ofInt ss.ShTrlNum)
    ∧ (epcShared ss).EpcShAvgSSE = ss.ShSumAvgSSE.div (GoFloat.ofInt ss.ShTrlNum)
    ∧ (epcShared ss).EpcShPctErr = (GoFloat.ofInt ss.ShCntErr).div (GoFloat.ofInt ss.ShTrlNum)
    ∧ (epcShared ss).EpcShPctCor
        = (GoFloat.fin 1).sub ((GoFloat.ofInt ss.ShCntErr).div (GoFloat.ofInt ss.ShTrlNum))
    ∧ (epcShared ss).EpcShCosDiff = ss.ShSumCosDiff.div (GoFloat.ofInt ss.ShTrlNum)
    ∧ (epcShared ss).UnTrlNum = ss.UnTrlNum ∧ (epcShared ss).UnCntErr = ss.UnCntErr
    ∧ (epcShared ss).UnSumSSE = ss.UnSumSSE ∧ (epcShared ss).UnSumAvgSSE = ss.UnSumAvgSSE
    ∧ (epcShared ss).UnSumCosDiff = ss.UnSumCosDiff :=
  ⟨rfl, rfl, rfl, rfl, rfl, rfl, rfl, rfl, rfl, rfl⟩

theorem epcUnique_fields (ss : StatSim) :
    (epcUnique ss).EpcUnSSE = ss.UnSumSSE.div (GoFloat.ofInt ss.UnTrlNum)
    ∧ (epcUnique ss).EpcUnAvgSSE = ss.UnSumAvgSSE.div (GoFloat.ofInt ss.UnTrlNum)
    ∧ (epcUnique ss).EpcUnPctErr = (GoFloat.ofInt ss.UnCntErr).div (GoFloat.ofInt ss.UnTrlNum)
    ∧ (epcUnique ss).EpcUnPctCor
        = (GoFloat.fin 1).sub ((GoFloat.ofInt ss.UnCntErr).div (GoFloat.ofInt ss.UnTrlNum))
    ∧ (epcUnique ss).EpcUnCosDiff = ss.UnSumCosDiff.div (GoFloat.ofInt ss.UnTrlNum)
    ∧ (epcUnique ss).EpcShSSE = ss.EpcShSSE ∧ (epcUnique ss).EpcShAvgSSE = ss.EpcShAvgSSE
    ∧ (epcUnique ss).EpcShPctErr = ss.EpcShPctErr ∧ (epcUnique ss).EpcShPctCor = ss.EpcShPctCor
    ∧ (epcUnique ss).EpcShCosDiff = ss.EpcShCosDiff :=
  ⟨rfl, rfl, rfl, rfl, rfl, rfl, rfl, rfl, rfl, rfl⟩

/-- The epoch statistics that `LogTstEpc` leaves, in terms of the sums and the
counts it starts from. -/
theorem LogTstEpc_fields (ss : StatSim) :
    (LogTstEpc ss).EpcShSSE = ss.ShSumSSE.div (GoFloat.ofInt ss.ShTrlNum)
    ∧ (LogTstEpc ss).EpcShAvgSSE = ss.ShSumAvgSSE.div (GoFloat.ofInt ss.ShTrlNum)
    ∧ (LogTstEpc ss).EpcShPctErr = (GoFloat.ofInt ss.ShCntErr).div (GoFloat.ofInt ss.ShTrlNum)
    ∧ (LogTstEpc ss).EpcShPctCor
        = (GoFloat.fin 1).sub ((GoFloat.ofInt ss.ShCntErr).div (GoFloat.ofInt ss.ShTrlNum))
    ∧ (LogTstEpc ss).EpcShCosDiff = ss.ShSumCosDiff.div (GoFloat.ofInt ss.ShTrlNum)
    ∧ (LogTstEpc ss).EpcUnSSE = ss.UnSumSSE.div (GoFloat.ofInt ss.UnTrlNum)
    ∧ (LogTstEpc ss).EpcUnAvgSSE = ss.UnSumAvgSSE.div (GoFloat.ofInt ss.UnTrlNum)
    ∧ (LogTstEpc ss).EpcUnPctErr = (GoFloat.ofInt ss.UnCntErr).div (GoFloat.ofInt ss.UnTrlNum)
    ∧ (LogTstEpc ss).EpcUnPctCor
        = (GoFloat.fin 1).sub ((GoFloat.ofInt ss.UnCntErr).div (GoFloat.ofInt ss.UnTrlNum))
    ∧ (LogTstEpc ss).EpcUnCosDiff = ss.UnSumCosDiff.div (GoFloat.ofInt ss.UnTrlNum) :=
  ⟨rfl, rfl, rfl, rfl, rfl, rfl, rfl, rfl, rfl, rfl⟩

/-- The epoch statistics that `LogTrnEpc` leaves, in terms of the sums and the
counts it starts from. -/
theorem LogTrnEpc_fields (ss : StatSim) :
    (LogTrnEpc ss).EpcShSSE = ss.ShSumSSE.div (GoFloat.ofInt ss.ShTrlNum)
    ∧ (LogTrnEpc ss).EpcShAvgSSE = ss.ShSumAvgSSE.div (GoFloat.ofInt ss.ShTrlNum)
    ∧ (LogTrnEpc ss).EpcShPctErr = (GoFloat.ofInt ss.ShCntErr).div (GoFloat.ofInt ss.ShTrlNum)
    ∧ (LogTrnEpc ss).EpcShPctCor
        = (GoFloat.fin 1).sub ((GoFloat.ofInt ss.ShCntErr).div (GoFloat.ofInt ss.ShTrlNum))
    ∧ (LogTrnEpc ss).EpcShCosDiff = ss.ShSumCosDiff.div (GoFloat.ofInt ss.ShTrlNum)
    ∧ (LogTrnEpc ss).EpcUnSSE = ss.UnSumSSE.div (GoFloat.ofInt ss.UnTrlNum)
    ∧ (LogTrnEpc ss).EpcUnAvgSSE = ss.UnSumAvgSSE.div (GoFloat.ofInt ss.UnTrlNum)
    ∧ (LogTrnEpc ss).EpcUnPctErr = (GoFloat.ofInt ss.UnCntErr).div (GoFloat.ofInt ss.UnTrlNum)
    ∧ (LogTrnEpc ss).EpcUnPctCor
        = (GoFloat.fin 1).sub ((GoFloat.ofInt ss.UnCntErr).div (GoFloat.ofInt ss.UnTrlNum))
    ∧ (LogTrnEpc ss).EpcUnCosDiff = ss.UnSumCosDiff.div (GoFloat.ofInt ss.UnTrlNum) := by
  unfold LogTrnEpc
  dsimp only
  split_ifs <;> exact ⟨rfl, rfl, rfl, rfl, rfl, rfl, rfl, rfl, rfl, rfl⟩

theorem ofInt_zero : GoFloat.ofInt 0 = GoFloat.fin 0 := by
  simp [GoFloat.ofInt]

/-- C26: `LogTrnEpc` and `LogTstEpc` divide the sums and the error counts of a
class by its number of trials whatever that number is.  With no shared trial
in the epoch, each of the five statistics of the shared class is the quotient
by `0`, which is NaN or an infinity and never a finite number; `EpcShPctErr`
is `ShCntErr / 0` and `EpcShPctCor` is `1 - ShCntErr / 0`.  The same holds for
the unique class with no unique trial.  Both functions are total. -/
theorem C26_zero_trials (ss : StatSim) :
    (ss.ShTrlNum = 0 →
      ((LogTrnEpc ss).EpcShPctErr = (GoFloat.ofInt ss.ShCntErr).div (GoFloat.fin 0)
        ∧ (LogTrnEpc ss).EpcShPctCor
            = (GoFloat.fin 1).sub ((GoFloat.ofInt ss.ShCntErr).div (GoFloat.fin 0))
        ∧ (LogTrnEpc ss).EpcShSSE.isFin = false ∧ (LogTrnEpc ss).EpcShAvgSSE.isFin = false
        ∧ (LogTrnEpc ss).EpcShPctErr.isFin = false ∧ (LogTrnEpc ss).EpcShPctCor.isFin = false
        ∧ (LogTrnEpc ss).EpcShCosDiff.isFin = false)
      ∧ ((LogTstEpc ss).EpcShPctErr = (GoFloat.ofInt ss.ShCntErr).div (GoFloat.fin 0)
        ∧ (LogTstEpc ss).EpcShPctCor
            = (GoFloat.fin 1).sub ((GoFloat.ofInt ss.ShCntErr).div (GoFloat.fin 0))
        ∧ (LogTstEpc ss).EpcShSSE.isFin = false ∧ (LogTstEpc ss).EpcShAvgSSE.isFin = false
        ∧ (LogTstEpc ss).EpcShPctErr.isFin = false ∧ (LogTstEpc ss).EpcShPctCor.isFin = false
        ∧ (LogTstEpc ss).EpcShCosDiff.isFin = false))
    ∧ (ss.UnTrlNum = 0 →
      ((LogTrnEpc ss).EpcUnPctErr = (GoFloat.ofInt ss.UnCntErr).div (GoFloat.fin 0)
        ∧ (LogTrnEpc ss).EpcUnPctCor
            = (GoFloat.fin 1).sub ((GoFloat.ofInt ss.UnCntErr).div (GoFloat.fin 0))
        ∧ (LogTrnEpc ss).EpcUnSSE.isFin = false ∧ (LogTrnEpc ss).EpcUnAvgSSE.isFin = false
        ∧ (LogTrnEpc ss).EpcUnPctErr.isFin = false ∧ (LogTrnEpc ss).EpcUnPctCor.isFin = false
        ∧ (LogTrnEpc ss).EpcUnCosDiff.isFin = false)
      ∧ ((LogTstEpc ss).EpcUnPctErr = (GoFloat.ofInt ss.UnCntErr).div (GoFloat.fin 0)
        ∧ (LogTstEpc ss).EpcUnPctCor
            = (GoFloat.fin 1).sub ((GoFloat.ofInt ss.UnCntErr).div (GoFloat.fin 0))
        ∧ (LogTstEpc ss).EpcUnSSE.isFin = false ∧ (LogTstEpc ss).EpcUnAvgSSE.isFin = false
        ∧ (LogTstEpc ss).EpcUnPctErr.isFin = false ∧ (LogTstEpc ss).EpcUnPctCor.isFin = false
        ∧ (LogTstEpc ss).EpcUnCosDiff.isFin = false)) := by
  obtain ⟨a1, a2, a3, a4, a5, a6, a7, a8, a9, a10⟩ := LogTrnEpc_fields ss
  obtain ⟨b1, b2, b3, b4, b5, b6, b7, b8, b9, b10⟩ := LogTstEpc_fields ss
  constructor
  · intro h
    rw [h, ofInt_zero] at a1 a2 a3 a4 a5 b1 b2 b3 b4 b5
    rw [a1, a2, a3, a4, a5, b1, b2, b3, b4, b5]
    exact ⟨⟨rfl, rfl, div_zero_isFin _, div_zero_isFin _, div_zero_isFin _,
        one_sub_isFin _ (div_zero_isFin _), div_zero_isFin _⟩,
      ⟨rfl, rfl, div_zero_isFin _, div_zero_isFin _, div_zero_isFin _,
        one_sub_isFin _ (div_zero_isFin _), div_zero_isFin _⟩⟩
  · intro h
    rw [h, ofInt_zero] at a6 a7 a8 a9 a10 b6 b7 b8 b9 b10
    rw [a6, a7, a8, a9, a10, b6, b7, b8, b9, b10]
    exact ⟨⟨rfl, rfl, div_zero_isFin _, div_zero_isFin _, div_zero_isFin _,
        one_sub_isFin _ (div_zero_isFin _), div_zero_isFin _⟩,
      ⟨rfl, rfl, div_zero_isFin _, div_zero_isFin _, div_zero_isFin _,
        one_sub_isFin _ (div_zero_isFin _), div_zero_isFin _⟩⟩

/-! ## The events of `TestAll` -/

theorem testTarget_fields (i : Nat) (ss : StatSim) :
    (testTarget i ss).evs = ss.evs ++ targetEvs i
    ∧ (testTarget i ss).ViewOn = ss.ViewOn ∧ (testTarget i ss).TestUpdt = ss.TestUpdt
    ∧ (testTarget i ss).StopNow = ss.StopNow := by
  unfold testTarget targetEvs
  split <;> simp [StatSim.evAll]

theorem TrialStats_frame (accum : Bool) (m : Measure) (ss : StatSim) :
    (TrialStats accum m ss).evs = ss.evs
    ∧ (TrialStats accum m ss).StopNow = ss.StopNow
    ∧ (TrialStats accum m ss).HiddenFeature = ss.HiddenFeature := by
  unfold TrialStats
  dsimp only
  split_ifs <;> exact ⟨rfl, rfl, rfl⟩

theorem TestTrial_fields (o : TestObs) (r : Bool) (ss : StatSim) :
    (TestTrial o r ss).evs = ss.evs ++ trialEvs o r ss
    ∧ (TestTrial o r ss).StopNow = ss.StopNow := by
  unfold TestTrial trialEvs
  simp only [StatSim.ev]
  split_ifs <;>
    simp [(TrialStats_frame _ _ _).1, (TrialStats_frame _ _ _).2.1]

theorem testAllBody_fields (o : TestObs) (i : Nat) (ss : StatSim) :
    (testAllBody o i ss).1.evs = ss.evs ++ bodyEvs o i ss
    ∧ (testAllBody o i ss).1.StopNow = ss.StopNow := by
  obtain ⟨t1, t2, t3, t4⟩ := testTarget_fields i ss
  obtain ⟨u1, u2⟩ := TestTrial_fields o true (testTarget i ss)
  have e : trialEvs o true (testTarget i ss) = trialEvs o true ss := by
    unfold trialEvs
    rw [t2, t3]
  unfold bodyEvs
  unfold testAllBody
  dsimp only
  split_ifs <;>
    simp [StatSim.ev, StatSim.evAll, u1, u2, t1, t4, e, List.append_assoc]

theorem testAllRow_fields (obs : Nat → TestObs) (i : Nat) (f : Nat) (k : Nat) (ss : StatSim) :
    (testAllRow obs i f (k, ss)).2.evs = ss.evs ++ rowEvs obs i f (k, ss)
    ∧ (testAllRow obs i f (k, ss)).2.StopNow = ss.StopNow := by
  induction f generalizing k ss with
  | zero => simp [testAllRow, rowEvs]
  | succ f ih =>
    obtain ⟨b1, b2⟩ := testAllBody_fields (obs k) i ss
    unfold testAllRow rowEvs
    split_ifs with h
    · exact ⟨b1, b2⟩
    · obtain ⟨r1, r2⟩ := ih (k + 1) (testAllBody (obs k) i ss).1
      rw [r1, r2, b1, b2, List.append_assoc]
      exact ⟨rfl, rfl⟩

theorem loopsEvs_succ (obs : Nat → TestObs) (n i : Nat) (st : Nat × StatSim) :
    loopsEvs obs (n + 1) i st
      = rowEvs obs i 15 st ++ loopsEvs obs n (i + 1) (testAllRow obs i 15 st) := rfl

theorem LogTstEpc_evs (ss : StatSim) :
    (LogTstEpc ss).evs = ss.evs ++ [Ev.TstEpcPlotGoUpdate] := rfl

theorem testAllLoops_from (obs : Nat → TestObs) (n i : Nat) (st : Nat × StatSim) :
    ((List.range' i n).foldl (fun st i => testAllRow obs i 15 st) st).2.evs
        = st.2.evs ++ loopsEvs obs n i st
    ∧ ((List.range' i n).foldl (fun st i => testAllRow obs i 15 st) st).2.StopNow
        = st.2.StopNow := by
  induction n generalizing i st with
  | zero => simp [loopsEvs]
  | succ n ih =>
    obtain ⟨r1, r2⟩ := testAllRow_fields obs i 15 st.1 st.2
    obtain ⟨l1, l2⟩ := ih (i + 1) (testAllRow obs i 15 st)
    rw [List.range'_succ, List.foldl_cons, l1, l2, loopsEvs_succ, r1, r2, List.append_assoc]
    exact ⟨rfl, rfl⟩

/-- The record of `TestAll`: its mark, the initialisation of the test
environment, the events of its loops, and the update of the plot. -/
theorem TestAll_evs (obs : Nat → TestObs) (ss : StatSim) :
    (TestAll obs ss).evs = ss.evs ++ (Ev.TestAll :: Ev.TestEnvInit
      :: (loopsEvs obs 7 0 (0, testAllInit ss) ++ [Ev.TstEpcPlotGoUpdate])) := by
  have h := (testAllLoops_from obs 7 0 (0, testAllInit ss)).1
  rw [← List.range_eq_range'] at h
  unfold TestAll
  rw [LogTstEpc_evs]
  unfold testAllLoops
  rw [h]
  simp [testAllInit, StatSim.evAll]
theorem evsSince_of_eq {a b : StatSim} {X : List Ev} (h : b.evs = a.evs ++ X) :
    evsSince a b = X := by
  simp [evsSince, h]

set_option maxRecDepth 1000000 in
theorem stale_rows :
    tstRows (Ev.TestAll :: Ev.TestEnvInit
        :: (loopsEvs staleObs 7 0 (0, testAllInit newStat) ++ [Ev.TstEpcPlotGoUpdate]))
      = List.replicate 90 ("shared", false) ++ ("unique", true)
          :: List.replicate 14 ("unique", false) := by
  decide!

set_option maxRecDepth 1000000 in
theorem stale_counts :
    (testAllLoops staleObs (testAllInit newStat)).2.ShCntErr = 1
    ∧ (testAllLoops staleObs (testAllInit newStat)).2.ShTrlNum = 90
    ∧ (testAllLoops staleObs (testAllInit newStat)).2.UnCntErr = 0
    ∧ (testAllLoops staleObs (testAllInit newStat)).2.UnTrlNum = 15 := by
  decide!

/-- C25 fails on a test epoch of 105 trials without a change of the epoch
counter, on items without a unique feature, in which only trial 90, the first
that hides the code name, has an SSE other than 0.  The rows logged are 90
shared trials without an error, then a unique trial with an error and 14
unique trials without, so that the fractions of the claim are 1 for the shared
class and 14/15 for the unique class; `TestAll` leaves `EpcShPctCor = 89/90`
and `EpcUnPctCor = 1`, because `TrialStats` runs inside `TestTrial`, before
`TestAll` sets `HiddenType` for the trial, and adds the error to the class of
the trial before. -/
theorem C25_stale_type :
    tstRows (evsSince newStat (TestAll staleObs newStat))
      = List.replicate 90 ("shared", false) ++ ("unique", true)
          :: List.replicate 14 ("unique", false)
    ∧ (TestAll staleObs newStat).EpcShPctCor = GoFloat.fin (89 / 90)
    ∧ (TestAll staleObs newStat).EpcUnPctCor = GoFloat.fin 1 := by
  obtain ⟨c1, c2, c3, c4⟩ := stale_counts
  obtain ⟨_, _, _, f4, _, _, _, _, f9, _⟩ :=
    LogTstEpc_fields (testAllLoops staleObs (testAllInit newStat)).2
  refine ⟨?_, ?_, ?_⟩
  · rw [evsSince_of_eq (TestAll_evs staleObs newStat)]
    exact stale_rows
  · unfold TestAll
    rw [f4, c1, c2]
    simp only [GoFloat.ofInt, GoFloat.div, GoFloat.sub]
    norm_num
  · unfold TestAll
    rw [f9, c3, c4]
    simp only [GoFloat.ofInt, GoFloat.div, GoFloat.sub]
    norm_num

/-! ## The control fields and the marks of `TrainTrial` -/

theorem ctl_ev (ss : StatSim) (e : Ev) : (ss.ev e).ctl = ss.ctl := rfl

theorem ctl_evAll (ss : StatSim) (es : List Ev) : (ss.evAll es).ctl = ss.ctl := rfl

theorem TrialStats_ctl (accum : Bool) (m : Measure) (ss : StatSim) :
    (TrialStats accum m ss).ctl = ss.ctl := by
  unfold TrialStats
  dsimp only
  split_ifs <;> rfl

theorem testTarget_ctl (i : Nat) (ss : StatSim) : (testTarget i ss).ctl = ss.ctl := by
  unfold testTarget
  split <;> rfl

theorem TestTrial_ctl (o : TestObs) (r : Bool) (ss : StatSim) :
    (TestTrial o r ss).ctl = ss.ctl := by
  unfold TestTrial
  simp only []
  split_ifs <;> simp only [TrialStats_ctl, ctl_ev]

theorem testAllBody_ctl (o : TestObs) (i : Nat) (ss : StatSim) :
    (testAllBody o i ss).1.ctl = ss.ctl := by
  have h : (TestTrial o true (testTarget i ss)).ctl = ss.ctl := by
    rw [TestTrial_ctl, testTarget_ctl]
  unfold testAllBody
  dsimp only
  split_ifs <;> exact h

theorem testAllRow_ctl (obs : Nat → TestObs) (i f k : Nat) (ss : StatSim) :
    (testAllRow obs i f (k, ss)).2.ctl = ss.ctl := by
  induction f generalizing k ss with
  | zero => rfl
  | succ f ih =>
    unfold testAllRow
    split_ifs
    · exact testAllBody_ctl _ _ _
    · rw [ih, testAllBody_ctl]

theorem foldl_row_ctl (obs : Nat → TestObs) (L : List Nat) (st : Nat × StatSim) :
    (L.foldl (fun st i => testAllRow obs i 15 st) st).2.ctl = st.2.ctl := by
  induction L generalizing st with
  | nil => rfl
  | cons i L ih =>
    rw [List.foldl_cons, ih]
    exact testAllRow_ctl obs i 15 st.1 st.2

theorem testAllLoops_ctl (obs : Nat → TestObs) (ss : StatSim) :
    (testAllLoops obs ss).2.ctl = ss.ctl :=
  foldl_row_ctl obs (List.range 7) (0, ss)

theorem epcShared_ctl (ss : StatSim) : (epcShared ss).ctl = ss.ctl := rfl

theorem epcUnique_ctl (ss : StatSim) : (epcUnique ss).ctl = ss.ctl := rfl

theorem LogTstEpc_ctl (ss : StatSim) : (LogTstEpc ss).ctl = ss.ctl := by
  have h : (LogTstEpc ss).ctl = (epcUnique (epcShared ss)).ctl := rfl
  rw [h, epcUnique_ctl, epcShared_ctl]

theorem TestAll_ctl (obs : Nat → TestObs) (ss : StatSim) : (TestAll obs ss).ctl = ss.ctl := by
  unfold TestAll
  rw [LogTstEpc_ctl, testAllLoops_ctl]
  rfl

theorem LogTrnEpc_ctl (ss : StatSim) : (LogTrnEpc ss).ctl = ss.ctl := by
  have h : (LogTrnEpc ss).ctl = (epcUnique (epcShared ss)).ctl := by
    unfold LogTrnEpc
    dsimp only
    split_ifs <;> rfl
  rw [h, epcUnique_ctl, epcShared_ctl]

theorem trainEpoch_ctl (ss : StatSim) : (trainEpoch ss).ctl = ss.ctl := by
  have h : (trainEpoch ss).ctl = (LogTrnEpc ss).ctl := by
    unfold trainEpoch
    dsimp only
    split_ifs <;> rfl
  rw [h, LogTrnEpc_ctl]

/-- The events of `NewRun` (lines 1089-1136). -/
theorem NewRun_eq (ss : StatSim) :
    NewRun ss = { InitStats ss with
      NeedsNewRun := false,
      evs := ss.evs ++ [Ev.NewRndSeed, Ev.TrainEnvInit, Ev.TestEnvInit, Ev.TimeReset,
        Ev.TrnTrlLogReset, Ev.TrnEpcLogReset, Ev.TstEpcLogReset, Ev.PrjnBuild .DG .CA3,
        Ev.NewRndSeed, Ev.PrjnBuild .F1 .CA3, Ev.PrjnBuild .F1 .DG,
        Ev.NewRndSeed, Ev.PrjnBuild .F2 .CA3, Ev.PrjnBuild .F2 .DG,
        Ev.NewRndSeed, Ev.PrjnBuild .F3 .CA3, Ev.PrjnBuild .F3 .DG,
        Ev.NewRndSeed, Ev.PrjnBuild .F4 .CA3, Ev.PrjnBuild .F4 .DG,
        Ev.NewRndSeed, Ev.PrjnBuild .F5 .CA3, Ev.PrjnBuild .F5 .DG,
        Ev.NewRndSeed, Ev.PrjnBuild .ClassName .CA3, Ev.PrjnBuild .ClassName .DG,
        Ev.NewRndSeed, Ev.PrjnBuild .CodeName .CA3, Ev.PrjnBuild .CodeName .DG,
        Ev.InitWts] } := by
  simp [NewRun, StatSim.evAll, StatSim.ev, newRunPerlys, InitStats]

theorem trainHead_config (ss : StatSim) :
    (trainHead ss).MaxEpcs = ss.MaxEpcs ∧ (trainHead ss).NZeroStop = ss.NZeroStop
    ∧ (trainHead ss).TestInterval = ss.TestInterval
    ∧ (trainHead ss).ExecSleep = ss.ExecSleep ∧ (trainHead ss).SaveWts = ss.SaveWts
    ∧ (ss.NeedsNewRun = false →
        (trainHead ss).ShNZero = ss.ShNZero ∧ (trainHead ss).UnNZero = ss.UnNZero) := by
  unfold trainHead
  simp only []
  split_ifs with h
  · rw [NewRun_eq]
    exact ⟨rfl, rfl, rfl, rfl, rfl, fun h2 => absurd (h.symm.trans h2) (by decide)⟩
  · exact ⟨rfl, rfl, rfl, rfl, rfl, fun _ => ⟨rfl, rfl⟩⟩
theorem Marks.same (a : StatSim) : Marks a a [] :=
  ⟨[], by simp, rfl⟩

theorem Marks.andThen {a b c : StatSim} {L M : List Ev} (h1 : Marks a b L) (h2 : Marks b c M) :
    Marks a c (L ++ M) := by
  obtain ⟨X, hX, fX⟩ := h1
  obtain ⟨Y, hY, fY⟩ := h2
  exact ⟨X ++ Y, by rw [hY, hX, List.append_assoc], by rw [List.filter_append, fX, fY]⟩

theorem Marks.since {a b : StatSim} {L : List Ev} (h : Marks a b L) :
    (evsSince a b).filter Ev.isCtl = L := by
  obtain ⟨X, hX, fX⟩ := h
  rw [evsSince_of_eq hX, fX]

theorem Marks.ev (a : StatSim) (e : Ev) :
    Marks a (a.ev e) (if e.isCtl = true then [e] else []) :=
  ⟨[e], rfl, by by_cases h : e.isCtl = true <;> simp [h]⟩

theorem targetEvs_marks (i : Nat) : (targetEvs i).filter Ev.isCtl = [] := by
  unfold targetEvs
  split <;> rfl

theorem trialEvs_marks (o : TestObs) (r : Bool) (ss : StatSim) :
    (trialEvs o r ss).filter Ev.isCtl = [] := by
  unfold trialEvs
  split_ifs <;> rfl

theorem bodyEvs_marks (o : TestObs) (i : Nat) (ss : StatSim) :
    (bodyEvs o i ss).filter Ev.isCtl = [] := by
  unfold bodyEvs
  rw [List.filter_append, List.filter_append, targetEvs_marks, trialEvs_marks]
  rfl

theorem rowEvs_marks (obs : Nat → TestObs) (i f k : Nat) (ss : StatSim) :
    (rowEvs obs i f (k, ss)).filter Ev.isCtl = [] := by
  induction f generalizing k ss with
  | zero => rfl
  | succ f ih =>
    unfold rowEvs
    split_ifs
    · exact bodyEvs_marks _ _ _
    · rw [List.filter_append, bodyEvs_marks, ih]
      rfl

theorem loopsEvs_marks (obs : Nat → TestObs) (n i : Nat) (st : Nat × StatSim) :
    (loopsEvs obs n i st).filter Ev.isCtl = [] := by
  induction n generalizing i st with
  | zero => rfl
  | succ n ih =>
    rw [loopsEvs_succ, List.filter_append, ih]
    obtain ⟨k, ss⟩ := st
    rw [rowEvs_marks]
    rfl

/-- A call of `TestAll` leaves its own mark and no other. -/
theorem TestAll_marks (obs : Nat → TestObs) (ss : StatSim) :
    Marks ss (TestAll obs ss) [Ev.TestAll] := by
  refine ⟨_, TestAll_evs obs ss, ?_⟩
  rw [List.filter_cons_of_pos (by rfl), List.filter_cons_of_neg (by decide),
    List.filter_append, loopsEvs_marks]
  rfl

theorem Marks.ev_neg (a : StatSim) {e : Ev} (h : e.isCtl = false) : Marks a (a.ev e) [] :=
  ⟨[e], rfl, by simp [h]⟩

theorem Marks.ev_pos (a : StatSim) {e : Ev} (h : e.isCtl = true) : Marks a (a.ev e) [e] :=
  ⟨[e], rfl, by simp [h]⟩

theorem Marks.of_evs {a b c : StatSim} {L : List Ev} (h : Marks a b L) (e : c.evs = b.evs) :
    Marks a c L := by
  obtain ⟨X, hX, fX⟩ := h
  exact ⟨X, e.trans hX, fX⟩

theorem NewRun_marks (ss : StatSim) : Marks ss (NewRun ss) [] :=
  ⟨_, congrArg StatSim.evs (NewRun_eq ss), by decide⟩

theorem trainHead_marks (ss : StatSim) : Marks ss (trainHead ss) [] := by
  unfold trainHead
  simp only []
  split_ifs
  · exact (NewRun_marks ss).andThen (Marks.ev_neg _ (e := Ev.TrainEnvStep) rfl)
  · exact Marks.ev_neg _ (e := Ev.TrainEnvStep) rfl

theorem LogTrnEpc_evs (ss : StatSim) :
    (LogTrnEpc ss).evs = ss.evs ++ [Ev.TrnEpcPlotGoUpdate] := by
  unfold LogTrnEpc
  simp only []
  split_ifs <;> rfl

theorem trainEpoch_marks (ss : StatSim) : Marks ss (trainEpoch ss) [] := by
  unfold trainEpoch
  simp only []
  split_ifs
  · exact ⟨[Ev.TrnEpcPlotGoUpdate, Ev.UpdateView "train"],
      by simp [StatSim.ev, LogTrnEpc_evs], by decide⟩
  · exact ⟨[Ev.TrnEpcPlotGoUpdate], LogTrnEpc_evs ss, by decide⟩

theorem RunEnd_marks (ss : StatSim) : Marks ss (RunEnd ss) [Ev.RunEnd] := by
  unfold RunEnd
  simp only []
  split_ifs
  · exact (Marks.ev_pos ss (e := Ev.RunEnd) rfl).andThen (Marks.ev_neg _ (e := Ev.SaveWts) rfl)
  · exact Marks.ev_pos ss (e := Ev.RunEnd) rfl

/-- The end of a run: `RunEnd`, the advance of the run counter, and the flag
that the result of the advance selects. -/
theorem endRun_marks (last : Bool) (ss : StatSim) :
    Marks ss (endRun last ss) [Ev.RunEnd, Ev.RunIncr]
    ∧ (last = true → (endRun last ss).StopNow = true)
    ∧ (last = false → (endRun last ss).NeedsNewRun = true) := by
  have h : Marks ss ((RunEnd ss).ev Ev.RunIncr) [Ev.RunEnd, Ev.RunIncr] :=
    (RunEnd_marks ss).andThen (Marks.ev_pos _ (e := Ev.RunIncr) rfl)
  unfold endRun
  simp only []
  cases last
  · exact ⟨h.of_evs rfl, fun h2 => absurd h2 (by decide), fun _ => rfl⟩
  · exact ⟨h.of_evs rfl, fun _ => rfl, fun h2 => absurd h2 (by decide)⟩
theorem Marks.evAll (a : StatSim) (es : List Ev) : Marks a (a.evAll es) (es.filter Ev.isCtl) :=
  ⟨es, rfl, rfl⟩

theorem hideFeature_evs (o : TrainObs) (ss : StatSim) : (hideFeature o ss).evs = ss.evs := by
  unfold hideFeature
  simp only []
  split_ifs <;> rfl

theorem trainTarget_marks (ss : StatSim) : Marks ss (trainTarget ss) [] := by
  unfold trainTarget
  split_ifs
  all_goals first
    | exact Marks.same ss
    | exact Marks.evAll ss _

/-- A training trial proper runs one alpha cycle of training and makes no
other mark. -/
theorem trainTrialBody_marks (o : TrainObs) (ss : StatSim) :
    Marks ss (trainTrialBody o ss) [Ev.AlphaCyc true] := by
  have h1 : Marks ss (hideFeature o ss) [] := (Marks.same ss).of_evs (hideFeature_evs o ss)
  have h2 := h1.andThen (trainTarget_marks (hideFeature o ss))
  have h3 := h2.andThen (Marks.ev_neg _ (e := Ev.ApplyInputs true) rfl)
  have h4 := h3.andThen (Marks.ev_pos _ (e := Ev.AlphaCyc true) rfl)
  have h5 := h4.of_evs (TrialStats_frame true o.m _).1
  have h6 := h5.andThen (Marks.evAll _ inputAll)
  exact h6.andThen (Marks.ev_neg _ rfl)

theorem trainStop_end {o : TrainObs} {ss : StatSim}
    (h : (ss.NZeroStop > 0 ∧ ss.ShNZero ≥ ss.NZeroStop ∧ ss.UnNZero ≥ ss.NZeroStop)
      ∨ o.epc ≥ ss.MaxEpcs) : trainStop o ss = endRun o.last ss := by
  unfold trainStop
  rw [if_pos h]

theorem trainStop_go {o : TrainObs} {ss : StatSim}
    (h : ¬ ((ss.NZeroStop > 0 ∧ ss.ShNZero ≥ ss.NZeroStop ∧ ss.UnNZero ≥ ss.NZeroStop)
      ∨ o.epc ≥ ss.MaxEpcs)) : trainStop o ss = trainTrialBody o ss := by
  unfold trainStop
  rw [if_neg h]

theorem trainStop_marks (o : TrainObs) (ss : StatSim) :
    Marks ss (trainStop o ss) [Ev.RunEnd, Ev.RunIncr]
    ∨ Marks ss (trainStop o ss) [Ev.AlphaCyc true] := by
  by_cases h : (ss.NZeroStop > 0 ∧ ss.ShNZero ≥ ss.NZeroStop ∧ ss.UnNZero ≥ ss.NZeroStop)
      ∨ o.epc ≥ ss.MaxEpcs
  · rw [trainStop_end h]
    exact Or.inl (endRun_marks o.last ss).1
  · rw [trainStop_go h]
    exact Or.inr (trainTrialBody_marks o ss)

theorem trainSleep_met {o : TrainObs} {ss : StatSim}
    (h : ss.EpcShPctCor.ge sleepCrit = true ∧ ss.EpcUnPctCor.ge sleepCrit = true)
    (hE : ss.ExecSleep = true) :
    trainSleep o ss = endRun o.last (TestAll o.tstB (ss.ev Ev.SleepTrial)) := by
  unfold trainSleep
  rw [if_pos h]
  simp only []
  rw [if_pos hE]

theorem trainSleep_unmet {o : TrainObs} {ss : StatSim}
    (h : ¬ (ss.EpcShPctCor.ge sleepCrit = true ∧ ss.EpcUnPctCor.ge sleepCrit = true)) :
    trainSleep o ss = trainStop o ss := by
  unfold trainSleep
  rw [if_neg h]

theorem trainSleep_ext (o : TrainObs) (ss : StatSim) : ∃ L, Marks ss (trainSleep o ss) L := by
  by_cases h : ss.EpcShPctCor.ge sleepCrit = true ∧ ss.EpcUnPctCor.ge sleepCrit = true
  · by_cases hE : ss.ExecSleep = true
    · rw [trainSleep_met h hE]
      exact ⟨_, ((Marks.ev_pos ss (e := Ev.SleepTrial) rfl).andThen
        (TestAll_marks o.tstB _)).andThen (endRun_marks o.last _).1⟩
    · unfold trainSleep
      rw [if_pos h]
      simp only []
      rw [if_neg hE]
      exact ⟨_, (endRun_marks o.last _).1⟩
  · rw [trainSleep_unmet h]
    rcases trainStop_marks o ss with h2 | h2
    · exact ⟨_, h2⟩
    · exact ⟨_, h2⟩

theorem trainStart_fields (ss : StatSim) :
    (trainEpoch (trainHead ss)).MaxEpcs = ss.MaxEpcs
    ∧ (trainEpoch (trainHead ss)).NZeroStop = ss.NZeroStop
    ∧ (trainEpoch (trainHead ss)).TestInterval = ss.TestInterval
    ∧ (trainEpoch (trainHead ss)).ExecSleep = ss.ExecSleep
    ∧ (ss.NeedsNewRun = false → (trainEpoch (trainHead ss)).ShNZero = ss.ShNZero
        ∧ (trainEpoch (trainHead ss)).UnNZero = ss.UnNZero) := by
  obtain ⟨h1, h2, h3, h4, _, h6⟩ := trainHead_config ss
  have c := trainEpoch_ctl (trainHead ss)
  exact ⟨(congrArg Ctl.MaxEpcs c).trans h1, (congrArg Ctl.NZeroStop c).trans h2,
    (congrArg Ctl.TestInterval c).trans h3, (congrArg Ctl.ExecSleep c).trans h4,
    fun h => ⟨(congrArg Ctl.ShNZero c).trans (h6 h).1, (congrArg Ctl.UnNZero c).trans (h6 h).2⟩⟩

theorem TrainTrial_test {o : TrainObs} {ss : StatSim} (hchg : o.chg = true)
    (hTI : ss.TestInterval > 0) (hmod : Int.tmod o.epc ss.TestInterval = 0) :
    TrainTrial o ss = trainSleep o (TestAll o.tstA (trainEpoch (trainHead ss))) := by
  unfold TrainTrial
  simp only []
  rw [if_pos hchg, if_pos]
  rw [(trainStart_fields ss).2.2.1]
  exact ⟨hTI, hmod⟩

theorem TrainTrial_notest {o : TrainObs} {ss : StatSim} (hchg : o.chg = true)
    (h : ¬ (ss.TestInterval > 0 ∧ Int.tmod o.epc ss.TestInterval = 0)) :
    TrainTrial o ss = trainStop o (trainEpoch (trainHead ss)) := by
  unfold TrainTrial
  simp only []
  rw [if_pos hchg, if_neg]
  rw [(trainStart_fields ss).2.2.1]
  exact h

theorem trainStart_marks (ss : StatSim) : Marks ss (trainEpoch (trainHead ss)) [] :=
  (trainHead_marks ss).andThen (trainEpoch_marks _)

theorem TestAll_fields_ctl (obs : Nat → TestObs) (ss : StatSim) :
    (TestAll obs ss).MaxEpcs = ss.MaxEpcs ∧ (TestAll obs ss).NZeroStop = ss.NZeroStop
    ∧ (TestAll obs ss).ExecSleep = ss.ExecSleep ∧ (TestAll obs ss).ShNZero = ss.ShNZero
    ∧ (TestAll obs ss).UnNZero = ss.UnNZero := by
  have c := TestAll_ctl obs ss
  exact ⟨congrArg Ctl.MaxEpcs c, congrArg Ctl.NZeroStop c, congrArg Ctl.ExecSleep c,
    congrArg Ctl.ShNZero c, congrArg Ctl.UnNZero c⟩

theorem not_mem_of_marks {a b : StatSim} {L : List Ev} (h : Marks a b L) {e : Ev}
    (he : e.isCtl = true) (hL : e ∉ L) : e ∉ evsSince a b := by
  intro hm
  apply hL
  rw [← h.since]
  exact List.mem_filter.2 ⟨hm, he⟩
/-! ## The end of a run in `TrainTrial` -/

theorem Marks.ext {a b : StatSim} {L : List Ev} (h : Marks a b L) :
    ∃ X, b.evs = a.evs ++ X := by
  obtain ⟨X, hX, _⟩ := h
  exact ⟨X, hX⟩

theorem mem_since_mid {a b c d : StatSim} {e : Ev} (h1 : ∃ X, b.evs = a.evs ++ X)
    (h2 : ∃ Y, c.evs = b.evs ++ Y) (h3 : ∃ Z, d.evs = c.evs ++ Z) (he : e ∈ evsSince b c) :
    e ∈ evsSince a d := by
  obtain ⟨X, hX⟩ := h1
  obtain ⟨Y, hY⟩ := h2
  obtain ⟨Z, hZ⟩ := h3
  rw [evsSince_of_eq hY] at he
  have h : d.evs = a.evs ++ (X ++ Y ++ Z) := by
    rw [hZ, hY, hX, List.append_assoc, List.append_assoc, List.append_assoc]
  rw [evsSince_of_eq h]
  simp [he]

/-- A `TestAll` whose first trial is not at a change of the epoch counter runs
an alpha cycle. -/
theorem TestAll_alpha (obs : Nat → TestObs) (ss : StatSim) (h : (obs 0).chg = false) :
    Ev.AlphaCyc false ∈ evsSince ss (TestAll obs ss) := by
  rw [evsSince_of_eq (TestAll_evs obs ss), loopsEvs_succ]
  have hb : Ev.AlphaCyc false ∈ bodyEvs (obs 0) 0 (testAllInit ss) := by
    unfold bodyEvs trialEvs
    simp [h]
  have hr : Ev.AlphaCyc false ∈ rowEvs obs 0 15 (0, testAllInit ss) := by
    unfold rowEvs
    split_ifs
    · exact hb
    · exact List.mem_append_left _ hb
  simp [hr]

theorem TrainTrial_alpha (o : TrainObs) (ss : StatSim) (hchg : o.chg = true)
    (hTI : ss.TestInterval > 0) (hmod : Int.tmod o.epc ss.TestInterval = 0)
    (h0 : (o.tstA 0).chg = false) :
    Ev.AlphaCyc false ∈ evsSince ss (TrainTrial o ss) := by
  rw [TrainTrial_test hchg hTI hmod]
  obtain ⟨L, hL⟩ := trainSleep_ext o (TestAll o.tstA (trainEpoch (trainHead ss)))
  exact mem_since_mid (trainStart_marks ss).ext (TestAll_marks _ _).ext hL.ext
    (TestAll_alpha _ _ h0)

/-- A call of `TrainTrial` at an epoch boundary at which a stopping criterion
of lines 687-689 holds and the sleep criterion has not ended the run: the run
is ended. -/
theorem TrainTrial_ends (o : TrainObs) (ss : StatSim) (hchg : o.chg = true)
    (hstop : ∀ x : StatSim, x.ctl = (trainEpoch (trainHead ss)).ctl →
      ((x.NZeroStop > 0 ∧ x.ShNZero ≥ x.NZeroStop ∧ x.UnNZero ≥ x.NZeroStop)
        ∨ o.epc ≥ x.MaxEpcs))
    (hno : ¬ (ss.TestInterval > 0 ∧ Int.tmod o.epc ss.TestInterval = 0
      ∧ (TestAll o.tstA (trainEpoch (trainHead ss))).EpcShPctCor.ge sleepCrit = true
      ∧ (TestAll o.tstA (trainEpoch (trainHead ss))).EpcUnPctCor.ge sleepCrit = true)) :
    (evsSince ss (TrainTrial o ss)).filter Ev.isCtl
        = (if ss.TestInterval > 0 ∧ Int.tmod o.epc ss.TestInterval = 0 then [Ev.TestAll]
            else []) ++ [Ev.RunEnd, Ev.RunIncr]
    ∧ (o.last = true → (TrainTrial o ss).StopNow = true)
    ∧ (o.last = false → (TrainTrial o ss).NeedsNewRun = true) := by
  by_cases ht : ss.TestInterval > 0 ∧ Int.tmod o.epc ss.TestInterval = 0
  · have hc : ¬ ((TestAll o.tstA (trainEpoch (trainHead ss))).EpcShPctCor.ge sleepCrit = true
        ∧ (TestAll o.tstA (trainEpoch (trainHead ss))).EpcUnPctCor.ge sleepCrit = true) :=
      fun h => hno ⟨ht.1, ht.2, h⟩
    rw [TrainTrial_test hchg ht.1 ht.2, trainSleep_unmet hc,
      trainStop_end (hstop _ (TestAll_ctl _ _)), if_pos ht]
    obtain ⟨m, f1, f2⟩ := endRun_marks o.last (TestAll o.tstA (trainEpoch (trainHead ss)))
    exact ⟨(((trainStart_marks ss).andThen (TestAll_marks _ _)).andThen m).since, f1, f2⟩
  · rw [TrainTrial_notest hchg ht, trainStop_end (hstop _ rfl), if_neg ht]
    obtain ⟨m, f1, f2⟩ := endRun_marks o.last (trainEpoch (trainHead ss))
    exact ⟨((trainStart_marks ss).andThen m).since, f1, f2⟩

set_option maxRecDepth 1000000 in
theorem quiet_counts :
    (testAllLoops quietObs (testAllInit (trainEpoch (trainHead newStat)))).2.ShCntErr = 0
    ∧ (testAllLoops quietObs (testAllInit (trainEpoch (trainHead newStat)))).2.ShTrlNum = 90
    ∧ (testAllLoops quietObs (testAllInit (trainEpoch (trainHead newStat)))).2.UnCntErr = 0
    ∧ (testAllLoops quietObs (testAllInit (trainEpoch (trainHead newStat)))).2.UnTrlNum = 15 := by
  decide!

set_option maxRecDepth 1000000 in
theorem fail_counts :
    (testAllLoops failObs (testAllInit (trainEpoch (trainHead newStat)))).2.ShCntErr = 90
    ∧ (testAllLoops failObs (testAllInit (trainEpoch (trainHead newStat)))).2.ShTrlNum = 90 := by
  decide!

/-- After a test epoch without an error both measures are 1, which meets the
sleep criterion. -/
theorem quiet_crit :
    (TestAll quietObs (trainEpoch (trainHead newStat))).EpcShPctCor.ge sleepCrit = true
    ∧ (TestAll quietObs (trainEpoch (trainHead newStat))).EpcUnPctCor.ge sleepCrit = true := by
  obtain ⟨c1, c2, c3, c4⟩ := quiet_counts
  obtain ⟨_, _, _, f4, _, _, _, _, f9, _⟩ :=
    LogTstEpc_fields (testAllLoops quietObs (testAllInit (trainEpoch (trainHead newStat)))).2
  unfold TestAll
  rw [f4, f9, c1, c2, c3, c4]
  simp only [GoFloat.ofInt, GoFloat.div, GoFloat.sub, GoFloat.ge, GoFloat.le, sleepCrit]
  norm_num

/-- After a test epoch with an error on every trial the shared measure is 0,
which does not meet the sleep criterion. -/
theorem fail_crit :
    (TestAll failObs (trainEpoch (trainHead newStat))).EpcShPctCor.ge sleepCrit = false := by
  obtain ⟨c1, c2⟩ := fail_counts
  obtain ⟨_, _, _, f4, _⟩ :=
    LogTstEpc_fields (testAllLoops failObs (testAllInit (trainEpoch (trainHead newStat)))).2
  unfold TestAll
  rw [f4, c1, c2]
  simp only [GoFloat.ofInt, GoFloat.div, GoFloat.sub, GoFloat.ge, GoFloat.le, sleepCrit]
  norm_num

/-- C22 as stated fails: at the boundary to epoch 1 of a run with the settings
of `New` (`TestInterval = 1`, `ExecSleep` on), with a test epoch of 105 trials
without an error, both measures are 1 and the sleep criterion is met, yet the
call executes alpha cycles: those of the test trials of `TestAll`. -/
theorem C22_counterexample :
    (boundaryObs 1 quietObs).chg = true ∧ newStat.TestInterval > 0
    ∧ Int.tmod (boundaryObs 1 quietObs).epc newStat.TestInterval = 0
    ∧ newStat.ExecSleep = true
    ∧ (TestAll (boundaryObs 1 quietObs).tstA
        (trainEpoch (trainHead newStat))).EpcShPctCor.ge sleepCrit = true
    ∧ (TestAll (boundaryObs 1 quietObs).tstA
        (trainEpoch (trainHead newStat))).EpcUnPctCor.ge sleepCrit = true
    ∧ Ev.AlphaCyc false ∈ evsSince newStat (TrainTrial (boundaryObs 1 quietObs) newStat) :=
  ⟨rfl, by decide, by decide, rfl, quiet_crit.1, quiet_crit.2,
    TrainTrial_alpha _ _ rfl (by decide) (by decide) rfl⟩

/-- C22, amended: in a call of `TrainTrial` at an epoch boundary at which
testing runs, with `ExecSleep` on, if both `EpcShPctCor` and `EpcUnPctCor` are
at least 0.8 after `TestAll`, the marks of the call are, in this order, that
`TestAll`, one `SleepTrial`, one more `TestAll`, `RunEnd` and the advance of
the run counter, with no alpha cycle of training (the alpha cycles of the call
are those of the test trials), and the call sets `StopNow` or `NeedsNewRun`;
if the two measures are not both at least 0.8, no `SleepTrial` is invoked. -/
theorem C22_sleep_criterion (o : TrainObs) (ss : StatSim) (hchg : o.chg = true)
    (hTI : ss.TestInterval > 0) (hmod : Int.tmod o.epc ss.TestInterval = 0)
    (hE : ss.ExecSleep = true) :
    (((TestAll o.tstA (trainEpoch (trainHead ss))).EpcShPctCor.ge sleepCrit = true
        ∧ (TestAll o.tstA (trainEpoch (trainHead ss))).EpcUnPctCor.ge sleepCrit = true) →
      (evsSince ss (TrainTrial o ss)).filter Ev.isCtl
          = [Ev.TestAll, Ev.SleepTrial, Ev.TestAll, Ev.RunEnd, Ev.RunIncr]
      ∧ (o.last = true → (TrainTrial o ss).StopNow = true)
      ∧ (o.last = false → (TrainTrial o ss).NeedsNewRun = true))
    ∧ (¬ ((TestAll o.tstA (trainEpoch (trainHead ss))).EpcShPctCor.ge sleepCrit = true
        ∧ (TestAll o.tstA (trainEpoch (trainHead ss))).EpcUnPctCor.ge sleepCrit = true) →
      Ev.SleepTrial ∉ evsSince ss (TrainTrial o ss)) := by
  have hs := (trainStart_marks ss).andThen (TestAll_marks o.tstA (trainEpoch (trainHead ss)))
  rw [TrainTrial_test hchg hTI hmod]
  constructor
  · intro hc
    have hE1 : (TestAll o.tstA (trainEpoch (trainHead ss))).ExecSleep = true := by
      rw [(TestAll_fields_ctl _ _).2.2.1, (trainStart_fields ss).2.2.2.1]
      exact hE
    rw [trainSleep_met hc hE1]
    obtain ⟨m, f1, f2⟩ := endRun_marks o.last
      (TestAll o.tstB ((TestAll o.tstA (trainEpoch (trainHead ss))).ev Ev.SleepTrial))
    exact ⟨(((hs.andThen (Marks.ev_pos _ (e := Ev.SleepTrial) rfl)).andThen
      (TestAll_marks o.tstB _)).andThen m).since, f1, f2⟩
  · intro hc
    rw [trainSleep_unmet hc]
    rcases trainStop_marks o (TestAll o.tstA (trainEpoch (trainHead ss))) with h | h
    · exact not_mem_of_marks (hs.andThen h) rfl (by decide)
    · exact not_mem_of_marks (hs.andThen h) rfl (by decide)

/-- C22 on the example call, at which the sleep criterion is met. -/
theorem C22_sleep_criterion_witness :
    (boundaryObs 1 quietObs).chg = true ∧ newStat.TestInterval > 0
    ∧ Int.tmod (boundaryObs 1 quietObs).epc newStat.TestInterval = 0
    ∧ newStat.ExecSleep = true
    ∧ (evsSince newStat (TrainTrial (boundaryObs 1 quietObs) newStat)).filter Ev.isCtl
        = [Ev.TestAll, Ev.SleepTrial, Ev.TestAll, Ev.RunEnd, Ev.RunIncr]
    ∧ (TrainTrial (boundaryObs 1 quietObs) newStat).NeedsNewRun = true :=
  ⟨rfl, by decide, by decide, rfl,
    ((C22_sleep_criterion (boundaryObs 1 quietObs) newStat rfl (by decide) (by decide) rfl).1
      quiet_crit).1,
    ((C22_sleep_criterion (boundaryObs 1 quietObs) newStat rfl (by decide) (by decide) rfl).1
      quiet_crit).2.2 rfl⟩
/-- C24 as stated fails: at the boundary to epoch 20 of 20 of a run with the
settings of `New`, with a test epoch in which every trial has an error, the
sleep criterion is not met and the call ends the run, yet it executes alpha
cycles: those of the test trials of `TestAll`. -/
theorem C24_counterexample :
    (boundaryObs 20 failObs).chg = true
    ∧ (boundaryObs 20 failObs).epc ≥ newStat.MaxEpcs
    ∧ (TestAll (boundaryObs 20 failObs).tstA
        (trainEpoch (trainHead newStat))).EpcShPctCor.ge sleepCrit = false
    ∧ Ev.RunEnd ∈ (evsSince newStat (TrainTrial (boundaryObs 20 failObs) newStat)).filter
        Ev.isCtl
    ∧ Ev.AlphaCyc false ∈ evsSince newStat (TrainTrial (boundaryObs 20 failObs) newStat) := by
  have h := (TrainTrial_ends (boundaryObs 20 failObs) newStat rfl
    (fun x hx => Or.inr (by
      have e : x.MaxEpcs = newStat.MaxEpcs :=
        (congrArg Ctl.MaxEpcs hx).trans (trainStart_fields newStat).1
      rw [e]
      decide))
    (fun h => by
      have h2 := h.2.2.1
      rw [show (boundaryObs 20 failObs).tstA = failObs from rfl, fail_crit] at h2
      exact absurd h2 (by decide))).1
  refine ⟨rfl, by decide, fail_crit, ?_, TrainTrial_alpha _ _ rfl (by decide) (by decide) rfl⟩
  rw [h]
  simp

/-- C24, amended: a call of `TrainTrial` at an epoch boundary at which the new
epoch counter is at least `MaxEpcs`, and at which the sleep criterion has not
ended the run, ends the run: its marks are the `TestAll` of the boundary, if
testing runs, then `RunEnd`, once, and the advance of the run counter, with no
alpha cycle of training (the alpha cycles of the call are those of the test
trials); it sets `StopNow` if that was the last run and `NeedsNewRun`
otherwise. -/
theorem C24_max_epochs (o : TrainObs) (ss : StatSim) (hchg : o.chg = true)
    (hmax : o.epc ≥ ss.MaxEpcs)
    (hno : ¬ (ss.TestInterval > 0 ∧ Int.tmod o.epc ss.TestInterval = 0
      ∧ (TestAll o.tstA (trainEpoch (trainHead ss))).EpcShPctCor.ge sleepCrit = true
      ∧ (TestAll o.tstA (trainEpoch (trainHead ss))).EpcUnPctCor.ge sleepCrit = true)) :
    (evsSince ss (TrainTrial o ss)).filter Ev.isCtl
        = (if ss.TestInterval > 0 ∧ Int.tmod o.epc ss.TestInterval = 0 then [Ev.TestAll]
            else []) ++ [Ev.RunEnd, Ev.RunIncr]
    ∧ (o.last = true → (TrainTrial o ss).StopNow = true)
    ∧ (o.last = false → (TrainTrial o ss).NeedsNewRun = true) := by
  refine TrainTrial_ends o ss hchg (fun x hx => Or.inr ?_) hno
  have e : x.MaxEpcs = ss.MaxEpcs := (congrArg Ctl.MaxEpcs hx).trans (trainStart_fields ss).1
  rw [e]
  exact hmax

/-- C24 on the example call at the boundary to epoch 20 of 20, with a test
epoch that does not meet the sleep criterion. -/
theorem C24_max_epochs_witness :
    (boundaryObs 20 failObs).chg = true
    ∧ (boundaryObs 20 failObs).epc ≥ newStat.MaxEpcs
    ∧ (evsSince newStat (TrainTrial (boundaryObs 20 failObs) newStat)).filter Ev.isCtl
        = [Ev.TestAll, Ev.RunEnd, Ev.RunIncr]
    ∧ (TrainTrial (boundaryObs 20 failObs) newStat).NeedsNewRun = true :=
  ⟨rfl, by decide,
    (C24_max_epochs (boundaryObs 20 failObs) newStat rfl (by decide) (fun h => by
      have h2 := h.2.2.1
      rw [show (boundaryObs 20 failObs).tstA = failObs from rfl, fail_crit] at h2
      exact absurd h2 (by decide))).1,
    (C24_max_epochs (boundaryObs 20 failObs) newStat rfl (by decide) (fun h => by
      have h2 := h.2.2.1
      rw [show (boundaryObs 20 failObs).tstA = failObs from rfl, fail_crit] at h2
      exact absurd h2 (by decide))).2.2 rfl⟩

/-! ## What the noise of `SleepCyc` writes -/

theorem noiseLayer_spec (rs : Nat → GoFloat) (k : Nat) (ns : List Neuron) :
    (noiseLayer rs k ns).1 = k + (onNeurons ns).length
    ∧ (noiseLayer rs k ns).2.map Neuron.Off = ns.map Neuron.Off
    ∧ (noiseLayer rs k ns).2.filter Neuron.Off = ns.filter Neuron.Off
    ∧ (onNeurons (noiseLayer rs k ns).2).map Neuron.Act
        = (List.range (onNeurons ns).length).map (fun (j : Nat) => noiseAct (rs (k + j))) := by
  induction ns generalizing k with
  | nil => exact ⟨rfl, rfl, rfl, rfl⟩
  | cons nrn rest ih =>
    unfold noiseLayer
    by_cases h : nrn.Off = true
    · obtain ⟨i1, i2, i3, i4⟩ := ih k
      rw [if_pos h]
      simp only [onNeurons, List.filter_cons, h, List.map_cons, Bool.not_true,
        Bool.false_eq_true, if_false, if_true] at *
      exact ⟨i1, by rw [i2], by rw [i3], i4⟩
    · obtain ⟨i1, i2, i3, i4⟩ := ih (k + 1)
      rw [if_neg h]
      have hf : nrn.Off = false := by simpa using h
      simp only [onNeurons, List.filter_cons, hf, List.map_cons, Bool.not_false,
        Bool.false_eq_true, if_false, if_true, List.length_cons] at *
      refine ⟨by rw [i1]; omega, by rw [i2], i3, ?_⟩
      rw [i4, List.range_succ_eq_map, List.map_cons, List.map_map]
      simp only [Nat.add_zero, List.cons.injEq, true_and]
      apply List.map_congr_left
      intro j _
      simp only [Function.comp]
      congr 2
      omega
theorem onNeurons_append (a b : List Neuron) :
    onNeurons (a ++ b) = onNeurons a ++ onNeurons b := by
  simp [onNeurons]

theorem noiseNet_spec (rs : Nat → GoFloat) (k : Nat) (net : List (List Neuron)) :
    (noiseNet rs k net).1 = k + (onNeurons net.flatten).length
    ∧ (noiseNet rs k net).2.map (fun ly => ly.map Neuron.Off)
        = net.map (fun ly => ly.map Neuron.Off)
    ∧ (noiseNet rs k net).2.map (fun ly => ly.filter Neuron.Off)
        = net.map (fun ly => ly.filter Neuron.Off)
    ∧ (onNeurons (noiseNet rs k net).2.flatten).map Neuron.Act
        = (List.range (onNeurons net.flatten).length).map
            (fun (j : Nat) => noiseAct (rs (k + j))) := by
  induction net generalizing k with
  | nil => exact ⟨rfl, rfl, rfl, rfl⟩
  | cons ly rest ih =>
    obtain ⟨l1, l2, l3, l4⟩ := noiseLayer_spec rs k ly
    obtain ⟨i1, i2, i3, i4⟩ := ih (noiseLayer rs k ly).1
    unfold noiseNet
    simp only [List.map_cons, List.flatten_cons, onNeurons_append, List.length_append,
      List.map_append]
    refine ⟨by rw [i1, l1]; omega, by rw [i2, l2], by rw [i3, l3], ?_⟩
    rw [i4, l4, l1, List.range_add, List.map_append, List.map_map]
    congr 1
    apply List.map_congr_left
    intro j _
    simp only [Function.comp]
    congr 2
    omega

theorem noiseDue_iff (tc : Int) (avg : GoFloat) :
    noiseDue tc avg = true ↔ (tc > 200 ∧ avg.le noiseThresh = true ∧ tc % 50 < 5) := by
  unfold noiseDue
  simp only [Bool.and_eq_true, Bool.or_eq_true, decide_eq_true_eq]
  constructor
  · rintro ⟨⟨h1, h2⟩, h3⟩
    rw [Int.tmod_eq_emod (by omega) (by omega)] at h3
    exact ⟨h1, h2, by omega⟩
  · rintro ⟨h1, h2, h3⟩
    rw [Int.tmod_eq_emod (by omega) (by omega)]
    exact ⟨⟨h1, h2⟩, by omega⟩

theorem noiseAct_fin (q : ℚ) (_ : 0 ≤ q) (h1 : q < 1) :
    noiseAct (GoFloat.fin q) = GoFloat.fin (max (q - 1 / 2) 0)
    ∧ 0 ≤ max (q - 1 / 2) 0 ∧ max (q - 1 / 2) 0 < 1 / 2 := by
  refine ⟨?_, le_max_right _ _, max_lt (by linarith) (by norm_num)⟩
  unfold noiseAct
  simp only [GoFloat.sub, GoFloat.lt]
  by_cases h : q - 1 / 2 < 0
  · simp only [h, decide_True, if_true]
    rw [max_eq_right (le_of_lt h)]
  · simp only [h, decide_False, Bool.false_eq_true, if_false]
    rw [max_eq_left (not_lt.1 h)]

/-- C21: in an iteration of the loop of `SleepCyc` noise is injected if and
only if the cycle counter `Time.Cycle` is above 200, `AvgLaySim <= 0.8` and
`Time.Cycle mod 50` is one of 0 to 4; otherwise the neurons are left as they
are.  When it is injected the flags `Off` are kept, the neurons that are off
are unchanged, and the neurons that are not off get, in the order of the loops,
the activations computed from the next results of `rand.Float32()`, one fresh
result each; the activation computed from a result `r` in `[0, 1)` is
`max (r - 0.5) 0`, which is in `[0, 0.5)`. -/
theorem C21_noise (rs : Nat → GoFloat) (tc : Int) (avg : GoFloat) (k : Nat)
    (net : List (List Neuron)) :
    (noiseDue tc avg = true ↔ (tc > 200 ∧ avg.le noiseThresh = true ∧ tc % 50 < 5))
    ∧ (noiseDue tc avg = false → sleepNoise rs tc avg (k, net) = (k, net))
    ∧ (noiseDue tc avg = true →
        (sleepNoise rs tc avg (k, net)).1 = k + (onNeurons net.flatten).length
        ∧ (sleepNoise rs tc avg (k, net)).2.map (fun ly => ly.map Neuron.Off)
            = net.map (fun ly => ly.map Neuron.Off)
        ∧ (sleepNoise rs tc avg (k, net)).2.map (fun ly => ly.filter Neuron.Off)
            = net.map (fun ly => ly.filter Neuron.Off)
        ∧ (onNeurons (sleepNoise rs tc avg (k, net)).2.flatten).map Neuron.Act
            = (List.range (onNeurons net.flatten).length).map
                (fun (j : Nat) => noiseAct (rs (k + j))))
    ∧ (∀ q : ℚ, 0 ≤ q → q < 1 →
        noiseAct (GoFloat.fin q) = GoFloat.fin (max (q - 1 / 2) 0)
        ∧ 0 ≤ max (q - 1 / 2) 0 ∧ max (q - 1 / 2) 0 < 1 / 2) := by
  refine ⟨noiseDue_iff tc avg, fun h => ?_, fun h => ?_, noiseAct_fin⟩
  · unfold sleepNoise
    rw [h]
    rfl
  · unfold sleepNoise
    rw [if_pos h]
    exact noiseNet_spec rs k net

/-! ## The counters of epochs without error -/

theorem ctl_counters {a b : StatSim} (h : a.ctl = b.ctl) :
    a.ShNZero = b.ShNZero ∧ a.UnNZero = b.UnNZero ∧ a.MaxEpcs = b.MaxEpcs :=
  ⟨congrArg Ctl.ShNZero h, congrArg Ctl.UnNZero h, congrArg Ctl.MaxEpcs h⟩

theorem hideFeature_ctl (o : TrainObs) (ss : StatSim) : (hideFeature o ss).ctl = ss.ctl := by
  unfold hideFeature
  simp only []
  split_ifs <;> rfl

theorem trainTarget_ctl (ss : StatSim) : (trainTarget ss).ctl = ss.ctl := by
  unfold trainTarget
  split_ifs <;> rfl

theorem trainTrialBody_ctl (o : TrainObs) (ss : StatSim) :
    (trainTrialBody o ss).ctl = ss.ctl := by
  unfold trainTrialBody
  simp only [ctl_ev, ctl_evAll, TrialStats_ctl, trainTarget_ctl, hideFeature_ctl]

theorem ev_counters (ss : StatSim) (e : Ev) :
    (ss.ev e).ShNZero = ss.ShNZero ∧ (ss.ev e).UnNZero = ss.UnNZero :=
  ⟨rfl, rfl⟩

theorem RunEnd_ctl (ss : StatSim) : (RunEnd ss).ctl = ss.ctl := by
  unfold RunEnd
  simp only []
  split_ifs <;> simp only [ctl_ev]

theorem stop_counters (ss : StatSim) (b : Bool) :
    ({ ss with StopNow := b }).ShNZero = ss.ShNZero
    ∧ ({ ss with StopNow := b }).UnNZero = ss.UnNZero
    ∧ ({ ss with NeedsNewRun := b }).ShNZero = ss.ShNZero
    ∧ ({ ss with NeedsNewRun := b }).UnNZero = ss.UnNZero :=
  ⟨rfl, rfl, rfl, rfl⟩

theorem endRun_counters (last : Bool) (ss : StatSim) :
    (endRun last ss).ShNZero = ss.ShNZero ∧ (endRun last ss).UnNZero = ss.UnNZero := by
  have c := RunEnd_ctl ss
  have e1 : (RunEnd ss).ShNZero = ss.ShNZero := (ctl_counters c).1
  have e2 : (RunEnd ss).UnNZero = ss.UnNZero := (ctl_counters c).2.1
  unfold endRun
  simp only []
  split_ifs
  · rw [(stop_counters _ _).1, (stop_counters _ _).2.1, (ev_counters _ _).1,
      (ev_counters _ _).2]
    exact ⟨e1, e2⟩
  · rw [(stop_counters _ _).2.2.1, (stop_counters _ _).2.2.2, (ev_counters _ _).1,
      (ev_counters _ _).2]
    exact ⟨e1, e2⟩

theorem trainStop_counters (o : TrainObs) (ss : StatSim) :
    (trainStop o ss).ShNZero = ss.ShNZero ∧ (trainStop o ss).UnNZero = ss.UnNZero := by
  unfold trainStop
  split_ifs
  · exact endRun_counters o.last ss
  · exact ⟨(ctl_counters (trainTrialBody_ctl o ss)).1,
      (ctl_counters (trainTrialBody_ctl o ss)).2.1⟩

theorem trainSleep_counters (o : TrainObs) (ss : StatSim) :
    (trainSleep o ss).ShNZero = ss.ShNZero ∧ (trainSleep o ss).UnNZero = ss.UnNZero := by
  by_cases h : ss.EpcShPctCor.ge sleepCrit = true ∧ ss.EpcUnPctCor.ge sleepCrit = true
  · by_cases hE : ss.ExecSleep = true
    · rw [trainSleep_met h hE]
      obtain ⟨e1, e2⟩ := endRun_counters o.last (TestAll o.tstB (ss.ev Ev.SleepTrial))
      have c := TestAll_ctl o.tstB (ss.ev Ev.SleepTrial)
      exact ⟨e1.trans (ctl_counters c).1, e2.trans (ctl_counters c).2.1⟩
    · unfold trainSleep
      rw [if_pos h]
      simp only []
      rw [if_neg hE]
      exact endRun_counters o.last ss
  · rw [trainSleep_unmet h]
    exact trainStop_counters o ss

theorem NewRun_counters (ss : StatSim) :
    (NewRun ss).ShNZero = 0 ∧ (NewRun ss).UnNZero = 0 := by
  rw [NewRun_eq]
  exact ⟨rfl, rfl⟩

theorem trainHead_counters (ss : StatSim) (h0 : ss.ShNZero = 0) (h1 : ss.UnNZero = 0) :
    (trainHead ss).ShNZero = 0 ∧ (trainHead ss).UnNZero = 0 := by
  unfold trainHead
  simp only []
  rw [(ev_counters _ _).1, (ev_counters _ _).2]
  split_ifs
  · exact NewRun_counters ss
  · exact ⟨h0, h1⟩

/-- A call of `TrainTrial` leaves the two counters of epochs without error at
0: nothing but `InitStats` writes them. -/
theorem TrainTrial_counters (o : TrainObs) (ss : StatSim) (h0 : ss.ShNZero = 0)
    (h1 : ss.UnNZero = 0) :
    (TrainTrial o ss).ShNZero = 0 ∧ (TrainTrial o ss).UnNZero = 0 := by
  obtain ⟨a0, a1⟩ := trainHead_counters ss h0 h1
  have ce := trainEpoch_ctl (trainHead ss)
  unfold TrainTrial
  simp only []
  split_ifs
  · obtain ⟨e1, e2⟩ := trainSleep_counters o (TestAll o.tstA (trainEpoch (trainHead ss)))
    have c := TestAll_ctl o.tstA (trainEpoch (trainHead ss))
    exact ⟨e1.trans ((ctl_counters c).1.trans ((ctl_counters ce).1.trans a0)),
      e2.trans ((ctl_counters c).2.1.trans ((ctl_counters ce).2.1.trans a1))⟩
  · obtain ⟨e1, e2⟩ := trainStop_counters o (trainEpoch (trainHead ss))
    exact ⟨e1.trans ((ctl_counters ce).1.trans a0), e2.trans ((ctl_counters ce).2.1.trans a1)⟩
  · have c := trainTrialBody_ctl o (trainHead ss)
    exact ⟨(ctl_counters c).1.trans a0, (ctl_counters c).2.1.trans a1⟩

theorem trainRun_succ (obs : Nat → TrainObs) (n : Nat) (ss : StatSim) :
    trainRun obs (n + 1) ss = TrainTrial (obs n) (trainRun obs n ss) := by
  unfold trainRun
  rw [List.range_succ, List.foldl_append]
  rfl

/-- However many calls of `TrainTrial` are made, and whatever is observed at
them, the two counters stay at 0. -/
theorem trainRun_counters (obs : Nat → TrainObs) (n : Nat) (ss : StatSim)
    (h0 : ss.ShNZero = 0) (h1 : ss.UnNZero = 0) :
    (trainRun obs n ss).ShNZero = 0 ∧ (trainRun obs n ss).UnNZero = 0 := by
  induction n with
  | zero => exact ⟨h0, h1⟩
  | succ n ih =>
    rw [trainRun_succ]
    exact TrainTrial_counters _ _ ih.1 ih.2

/-- With the counter of the shared class at 0, a call of `TrainTrial` at an
epoch boundary below `MaxEpcs` at which the sleep criterion does not end the
run goes on to the training trial. -/
theorem TrainTrial_goes_on (o : TrainObs) (ss : StatSim) (hchg : o.chg = true)
    (h0 : ss.ShNZero = 0) (h1 : ss.UnNZero = 0) (hepc : o.epc < ss.MaxEpcs)
    (hno : ¬ (ss.TestInterval > 0 ∧ Int.tmod o.epc ss.TestInterval = 0
      ∧ (TestAll o.tstA (trainEpoch (trainHead ss))).EpcShPctCor.ge sleepCrit = true
      ∧ (TestAll o.tstA (trainEpoch (trainHead ss))).EpcUnPctCor.ge sleepCrit = true)) :
    Marks ss (TrainTrial o ss)
      ((if ss.TestInterval > 0 ∧ Int.tmod o.epc ss.TestInterval = 0 then [Ev.TestAll]
          else []) ++ [Ev.AlphaCyc true]) := by
  obtain ⟨a0, _⟩ := trainHead_counters ss h0 h1
  have hgo : ∀ x : StatSim, x.ctl = (trainEpoch (trainHead ss)).ctl →
      ¬ ((x.NZeroStop > 0 ∧ x.ShNZero ≥ x.NZeroStop ∧ x.UnNZero ≥ x.NZeroStop)
        ∨ o.epc ≥ x.MaxEpcs) := by
    intro x hx
    have e1 : x.ShNZero = 0 :=
      (ctl_counters hx).1.trans ((ctl_counters (trainEpoch_ctl (trainHead ss))).1.trans a0)
    have e2 : x.MaxEpcs = ss.MaxEpcs :=
      (ctl_counters hx).2.2.trans (trainStart_fields ss).1
    rw [e1, e2]
    omega
  by_cases ht : ss.TestInterval > 0 ∧ Int.tmod o.epc ss.TestInterval = 0
  · have hc : ¬ ((TestAll o.tstA (trainEpoch (trainHead ss))).EpcShPctCor.ge sleepCrit = true
        ∧ (TestAll o.tstA (trainEpoch (trainHead ss))).EpcUnPctCor.ge sleepCrit = true) :=
      fun h => hno ⟨ht.1, ht.2, h⟩
    rw [TrainTrial_test hchg ht.1 ht.2, trainSleep_unmet hc,
      trainStop_go (hgo _ (TestAll_ctl _ _)), if_pos ht]
    exact ((trainStart_marks ss).andThen (TestAll_marks _ _)).andThen
      (trainTrialBody_marks _ _)
  · rw [TrainTrial_notest hchg ht, trainStop_go (hgo _ rfl), if_neg ht]
    exact (trainStart_marks ss).andThen (trainTrialBody_marks _ _)

set_option maxRecDepth 1000000 in
theorem streak_epoch :
    (trainRun streakObs 105 streakStat).ShTrlNum = 6
    ∧ (trainRun streakObs 105 streakStat).UnTrlNum = 99
    ∧ (trainRun streakObs 105 streakStat).NZeroStop = 1
    ∧ (trainRun streakObs 105 streakStat).TestInterval = 0
    ∧ (trainRun streakObs 105 streakStat).MaxEpcs = 20
    ∧ (trainRun streakObs 106 streakStat).EpcShPctErr = GoFloat.fin 0
    ∧ (trainRun streakObs 106 streakStat).EpcUnPctErr = GoFloat.fin 0
    ∧ (trainRun streakObs 106 streakStat).EpcShSSE = GoFloat.fin 0
    ∧ (trainRun streakObs 106 streakStat).EpcUnSSE = GoFloat.fin 0 := by
  decide!

/-- C23 fails.  The two counters `ShNZero` and `UnNZero` that line 687 compares
with `NZeroStop` stay at 0 through any number of calls of `TrainTrial`.  In a
run with `NZeroStop = 1` and no testing, started by `Init`, the 105 trials of
the first epoch (6 that hide a shared feature and 99 that hide a unique one)
have SSE 0, so that the epoch has zero error in both classes; yet the call at
the boundary to epoch 1 of 20 makes no `RunEnd` and goes on to the training
trial. -/
theorem C23_streak_ignored :
    (∀ (obs : Nat → TrainObs) (n : Nat) (ss : StatSim), ss.ShNZero = 0 → ss.UnNZero = 0 →
      (trainRun obs n ss).ShNZero = 0 ∧ (trainRun obs n ss).UnNZero = 0)
    ∧ (trainRun streakObs 105 streakStat).NZeroStop = 1
    ∧ (trainRun streakObs 105 streakStat).ShTrlNum = 6
    ∧ (trainRun streakObs 105 streakStat).UnTrlNum = 99
    ∧ (streakObs 105).chg = true
    ∧ (streakObs 105).epc < (trainRun streakObs 105 streakStat).MaxEpcs
    ∧ (trainRun streakObs 106 streakStat).EpcShPctErr = GoFloat.fin 0
    ∧ (trainRun streakObs 106 streakStat).EpcUnPctErr = GoFloat.fin 0
    ∧ (trainRun streakObs 106 streakStat).EpcShSSE = GoFloat.fin 0
    ∧ (trainRun streakObs 106 streakStat).EpcUnSSE = GoFloat.fin 0
    ∧ (evsSince (trainRun streakObs 105 streakStat)
        (trainRun streakObs 106 streakStat)).filter Ev.isCtl = [Ev.AlphaCyc true]
    ∧ Ev.RunEnd ∉ evsSince (trainRun streakObs 105 streakStat)
        (trainRun streakObs 106 streakStat) := by
  obtain ⟨s1, s2, s3, s4, s5, s6, s7, s8, s9⟩ := streak_epoch
  have hs : streakStat.ShNZero = 0 ∧ streakStat.UnNZero = 0 := by
    unfold streakStat
    rw [NewRun_eq]
    exact ⟨rfl, rfl⟩
  obtain ⟨z1, z2⟩ := trainRun_counters streakObs 105 streakStat hs.1 hs.2
  have hm := TrainTrial_goes_on (streakObs 105) (trainRun streakObs 105 streakStat) rfl z1 z2
    (by rw [s5]; decide) (fun h => by
      have h1 := h.1
      rw [s4] at h1
      exact absurd h1 (by decide))
  rw [← trainRun_succ, if_neg (fun h => by
      have h1 := h.1
      rw [s4] at h1
      exact absurd h1 (by decide))] at hm
  exact ⟨trainRun_counters, s3, s1, s2, rfl, by rw [s5]; decide, s6, s7, s8, s9, hm.since,
    not_mem_of_marks hm rfl (by decide)⟩

end SlpRep
